import Mathlib

/-!
# Verification development for the IBC excerpt

A shallow embedding of the solo machine light client (misbehaviour validation,
the `LightClientModule` entry points, header and misbehaviour verification) and
of the channel upgrade handshake, followed by the properties proved about them.

Conventions of the embedding:

* Go byte slices are lists of bytes; `bytes.Equal` is list equality (a nil and
  an empty slice are both the empty list, as `bytes.Equal` treats them).
* Go `uint64` values are natural numbers.
* A Go `error` result is `Except Error Unit`; `nil` is `Except.ok ()`.
* Wrapping (`errorsmod.Wrap`, `Wrapf`) keeps the wrapped error as the cause.
-/

namespace IBC

/-! ## Errors -/

/-- Errors: registered sentinel errors, wrapped errors, and the typed upgrade
error that carries an upgrade sequence together with its cause. -/
inductive Error where
  | sentinel (name : String)
  | wrap (cause : Error) (msg : String)
  | upgradeError (sequence : Nat) (cause : Error)
deriving DecidableEq, Repr

/-- The chain test of `errors.Is` / `errorsmod.IsOf`: `e` is the target or
wraps it at some depth. -/
def Error.Is (e target : Error) : Bool :=
  if e = target then true
  else
    match e with
    | .sentinel _ => false
    | .wrap c _ => c.Is target
    | .upgradeError _ c => c.Is target

/-- Embeds `errorsmod.Wrap`. -/
def Wrap (err : Error) (msg : String) : Error := .wrap err msg

def ErrInvalidMisbehaviour : Error := .sentinel "ErrInvalidMisbehaviour"
def ErrInvalidSignatureAndData : Error := .sentinel "ErrInvalidSignatureAndData"
def ErrClientNotFound : Error := .sentinel "ErrClientNotFound"
def ErrInvalidHeight : Error := .sentinel "ErrInvalidHeight"
def ErrInvalidClientType : Error := .sentinel "ErrInvalidClientType"

/-- Byte slices of Go. -/
abbrev Bytes := List (Fin 256)

/-! ## Solo machine: misbehaviour validation (`types/misbehaviour.go`) -/

/-- The data-type tag of signed data, a protobuf enumeration (an `int32`). -/
abbrev DataType := Int

/-- Modelled from the spec: the data-type tag enumeration is declared in the
generated protobuf file of the solo machine, which is not part of the sources;
`UNSPECIFIED` is the zero value of the enumeration. -/
def UNSPECIFIED : DataType := 0

/-- A signature together with the data it signs. -/
structure SignatureAndData where
  Signature : Bytes
  Data : Bytes
  DataType : DataType
  Timestamp : Nat
deriving DecidableEq, Repr

/-- Misbehaviour evidence: two signatures at one sequence. The generated type is
not part of the sources; both signatures are taken to be present, as
`ValidateBasic` reads the fields of both. -/
structure DuplicateSignatureHeader where
  ClientId : String
  Sequence : Nat
  SignatureOne : SignatureAndData
  SignatureTwo : SignatureAndData
deriving DecidableEq, Repr

/-- Embeds `SignatureAndData.ValidateBasic`: signature and data non-empty, data type
specified, timestamp non-zero. -/
def SignatureAndData.ValidateBasic (sd : SignatureAndData) : Except Error Unit :=
  if sd.Signature.length = 0 then
    .error (Wrap ErrInvalidSignatureAndData "signature cannot be empty")
  else if sd.Data.length = 0 then
    .error (Wrap ErrInvalidSignatureAndData "data for signature cannot be empty")
  else if sd.DataType = UNSPECIFIED then
    .error (Wrap ErrInvalidSignatureAndData "data type cannot be UNSPECIFIED")
  else if sd.Timestamp = 0 then
    .error (Wrap ErrInvalidSignatureAndData "timestamp cannot be 0")
  else
    .ok ()

/-- Embeds `DuplicateSignatureHeader.ValidateBasic`. The identifier validator
`host.ClientIdentifierValidator` lives outside the sources and is a parameter. -/
def DuplicateSignatureHeader.ValidateBasic
    (ClientIdentifierValidator : String → Except Error Unit)
    (header : DuplicateSignatureHeader) : Except Error Unit :=
  match ClientIdentifierValidator header.ClientId with
  | .error err => .error (Wrap err "invalid client identifier for solo machine")
  | .ok _ =>
    if header.Sequence = 0 then
      .error (Wrap ErrInvalidMisbehaviour "sequence cannot be 0")
    else
      match header.SignatureOne.ValidateBasic with
      | .error err => .error (Wrap err "signature one failed basic validation")
      | .ok _ =>
        match header.SignatureTwo.ValidateBasic with
        | .error err => .error (Wrap err "signature two failed basic validation")
        | .ok _ =>
          -- misbehaviour signatures cannot be identical
          if header.SignatureOne.Signature = header.SignatureTwo.Signature then
            .error (Wrap ErrInvalidMisbehaviour "misbehaviour signatures cannot be equal")
          -- message data signed cannot be identical
          else if header.SignatureOne.Data = header.SignatureTwo.Data then
            .error (Wrap ErrInvalidMisbehaviour
              "misbehaviour signature data must be signed over different messages")
          else
            .ok ()

/-- A result is an error. -/
def isError {α : Type} (r : Except Error α) : Bool :=
  match r with
  | .error _ => true
  | .ok _ => false

/-- A result is an error whose chain contains `target`. -/
def failsWith {α : Type} (r : Except Error α) (target : Error) : Bool :=
  match r with
  | .error e => e.Is target
  | .ok _ => false

/-! ## Solo machine: the light client module (`light_client_module.go`) -/

/-- The outcome of a Go call that either returns or panics with an error. -/
inductive Outcome (α : Type) where
  | ret (a : α)
  | panic (e : Error)
deriving Repr

/-- Embeds `clienttypes.Height`. -/
structure Height where
  RevisionNumber : Nat
  RevisionHeight : Nat
deriving DecidableEq, Repr

/-- Embeds `clienttypes.ZeroHeight()`. -/
def ZeroHeight : Height := ⟨0, 0⟩

/-- Embeds `exported.Status`. -/
inductive Status where
  | Active | Frozen | Expired | Unknown | Unauthorized
deriving DecidableEq, Repr

/-- Embeds `exported.Solomachine`, the client type of the solo machine. -/
def Solomachine : String := "06-solomachine"

/-- Solo machine consensus state: public key, diversifier, timestamp. -/
structure ConsensusState where
  PublicKey : Bytes
  Diversifier : String
  Timestamp : Nat
deriving DecidableEq, Repr

/-- Solo machine client state. -/
structure ClientState where
  Sequence : Nat
  IsFrozen : Bool
  ConsensusState : ConsensusState
deriving DecidableEq, Repr

/-- The collaborators of `LightClientModule` that live outside
`light_client_module.go`: the codec, the identifier parser, the store accessor
`getClientState`, and the methods of `ClientState` and `ConsensusState` that the
module delegates to. `σ` is the type of a client store, `μ` of a client message
and `π` of a commitment path. A method that receives a store handle returns the
store it leaves behind; the `sdk.Context` argument is fixed during a call and is
part of the collaborators. -/
structure Collaborators (σ μ π : Type) where
  UnmarshalClientState : Bytes → Except Error ClientState
  UnmarshalConsensusState : Bytes → Except Error ConsensusState
  Validate : ClientState → Except Error Unit
  ConsensusStateValidateBasic : ConsensusState → Except Error Unit
  Initialize : ClientState → σ → ConsensusState → Except Error Unit × σ
  getClientState : σ → Option ClientState
  VerifyClientMessage : ClientState → σ → μ → Except Error Unit × σ
  CheckForMisbehaviour : ClientState → σ → μ → Bool × σ
  UpdateStateOnMisbehaviour : ClientState → σ → μ → σ
  UpdateState : ClientState → σ → μ → List Height × σ
  VerifyMembership :
    ClientState → σ → Height → Nat → Nat → Bytes → π → Bytes → Except Error Unit × σ
  VerifyNonMembership :
    ClientState → σ → Height → Nat → Nat → Bytes → π → Except Error Unit × σ
  Status : ClientState → σ → Status × σ
  GetLatestHeight : ClientState → Height
  GetTimestampAtHeight : ClientState → σ → Height → (Nat × Except Error Unit) × σ
  CheckSubstituteAndUpdateState :
    ClientState → σ → σ → ClientState → Except Error Unit × σ × σ
  ParseClientIdentifier : String → Except Error (String × Nat)

/-- The client stores handed out by the store provider, one per client
identifier (`storeProvider.ClientStore(ctx, clientID)`). -/
abbrev ClientStores (σ : Type) := String → σ

namespace LightClientModule

variable {σ μ π : Type}

/-- Embeds `LightClientModule.Initialize`: decode and validate both states, then let
the client state write itself into the client store. -/
def Initialize (lcm : Collaborators σ μ π) (ctx : ClientStores σ) (clientID : String)
    (clientStateBz consensusStateBz : Bytes) : Except Error Unit × ClientStores σ :=
  match lcm.UnmarshalClientState clientStateBz with
  | .error err => (.error err, ctx)
  | .ok clientState =>
    match lcm.Validate clientState with
    | .error err => (.error err, ctx)
    | .ok _ =>
      match lcm.UnmarshalConsensusState consensusStateBz with
      | .error err => (.error err, ctx)
      | .ok consensusState =>
        match lcm.ConsensusStateValidateBasic consensusState with
        | .error err => (.error err, ctx)
        | .ok _ =>
          let clientStore := ctx clientID
          let r := lcm.Initialize clientState clientStore consensusState
          (r.1, Function.update ctx clientID r.2)

/-- Embeds `LightClientModule.VerifyClientMessage`. -/
def VerifyClientMessage (lcm : Collaborators σ μ π) (ctx : ClientStores σ) (clientID : String)
    (clientMsg : μ) : Except Error Unit × ClientStores σ :=
  let clientStore := ctx clientID
  match lcm.getClientState clientStore with
  | none => (.error (Wrap ErrClientNotFound clientID), ctx)
  | some clientState =>
    let r := lcm.VerifyClientMessage clientState clientStore clientMsg
    (r.1, Function.update ctx clientID r.2)

/-- Embeds `LightClientModule.CheckForMisbehaviour`; panics when the client is absent. -/
def CheckForMisbehaviour (lcm : Collaborators σ μ π) (ctx : ClientStores σ) (clientID : String)
    (clientMsg : μ) : Outcome Bool × ClientStores σ :=
  let clientStore := ctx clientID
  match lcm.getClientState clientStore with
  | none => (.panic (Wrap ErrClientNotFound clientID), ctx)
  | some clientState =>
    let r := lcm.CheckForMisbehaviour clientState clientStore clientMsg
    (.ret r.1, Function.update ctx clientID r.2)

/-- Embeds `LightClientModule.UpdateStateOnMisbehaviour`; panics when the client is
absent. -/
def UpdateStateOnMisbehaviour (lcm : Collaborators σ μ π) (ctx : ClientStores σ)
    (clientID : String) (clientMsg : μ) : Outcome Unit × ClientStores σ :=
  let clientStore := ctx clientID
  match lcm.getClientState clientStore with
  | none => (.panic (Wrap ErrClientNotFound clientID), ctx)
  | some clientState =>
    (.ret (), Function.update ctx clientID
      (lcm.UpdateStateOnMisbehaviour clientState clientStore clientMsg))

/-- Embeds `LightClientModule.UpdateState`; panics when the client is absent. -/
def UpdateState (lcm : Collaborators σ μ π) (ctx : ClientStores σ) (clientID : String)
    (clientMsg : μ) : Outcome (List Height) × ClientStores σ :=
  let clientStore := ctx clientID
  match lcm.getClientState clientStore with
  | none => (.panic (Wrap ErrClientNotFound clientID), ctx)
  | some clientState =>
    let r := lcm.UpdateState clientState clientStore clientMsg
    (.ret r.1, Function.update ctx clientID r.2)

/-- Embeds `LightClientModule.VerifyMembership`. -/
def VerifyMembership (lcm : Collaborators σ μ π) (ctx : ClientStores σ) (clientID : String)
    (height : Height) (delayTimePeriod delayBlockPeriod : Nat) (proof : Bytes) (path : π)
    (value : Bytes) : Except Error Unit × ClientStores σ :=
  let clientStore := ctx clientID
  match lcm.getClientState clientStore with
  | none => (.error (Wrap ErrClientNotFound clientID), ctx)
  | some clientState =>
    let r := lcm.VerifyMembership clientState clientStore height delayTimePeriod
      delayBlockPeriod proof path value
    (r.1, Function.update ctx clientID r.2)

/-- Embeds `LightClientModule.VerifyNonMembership`. -/
def VerifyNonMembership (lcm : Collaborators σ μ π) (ctx : ClientStores σ) (clientID : String)
    (height : Height) (delayTimePeriod delayBlockPeriod : Nat) (proof : Bytes) (path : π) :
    Except Error Unit × ClientStores σ :=
  let clientStore := ctx clientID
  match lcm.getClientState clientStore with
  | none => (.error (Wrap ErrClientNotFound clientID), ctx)
  | some clientState =>
    let r := lcm.VerifyNonMembership clientState clientStore height delayTimePeriod
      delayBlockPeriod proof path
    (r.1, Function.update ctx clientID r.2)

/-- Embeds `LightClientModule.Status`: `Unknown` when the client is absent. -/
def Status (lcm : Collaborators σ μ π) (ctx : ClientStores σ) (clientID : String) :
    IBC.Status × ClientStores σ :=
  let clientStore := ctx clientID
  match lcm.getClientState clientStore with
  | none => (.Unknown, ctx)
  | some clientState =>
    let r := lcm.Status clientState clientStore
    (r.1, Function.update ctx clientID r.2)

/-- Embeds `LightClientModule.LatestHeight`: the zero height when the client is absent. -/
def LatestHeight (lcm : Collaborators σ μ π) (ctx : ClientStores σ) (clientID : String) :
    Height :=
  let clientStore := ctx clientID
  match lcm.getClientState clientStore with
  | none => ZeroHeight
  | some clientState => lcm.GetLatestHeight clientState

/-- Embeds `LightClientModule.TimestampAtHeight`. -/
def TimestampAtHeight (lcm : Collaborators σ μ π) (ctx : ClientStores σ) (clientID : String)
    (height : Height) : (Nat × Except Error Unit) × ClientStores σ :=
  let clientStore := ctx clientID
  match lcm.getClientState clientStore with
  | none => ((0, .error (Wrap ErrClientNotFound clientID)), ctx)
  | some clientState =>
    let r := lcm.GetTimestampAtHeight clientState clientStore height
    (r.1, Function.update ctx clientID r.2)

/-- Embeds `LightClientModule.RecoverClient`: the substitute must parse as a solo
machine client, both clients must be stored, and the subject's sequence must be
below the substitute's before the substitution is attempted. -/
def RecoverClient (lcm : Collaborators σ μ π) (ctx : ClientStores σ)
    (clientID substituteClientID : String) : Except Error Unit × ClientStores σ :=
  match lcm.ParseClientIdentifier substituteClientID with
  | .error err => (.error err, ctx)
  | .ok (substituteClientType, _) =>
    if substituteClientType ≠ Solomachine then
      (.error (Wrap ErrInvalidClientType
        ("expected: " ++ Solomachine ++ ", got: " ++ substituteClientType)), ctx)
    else
      let clientStore := ctx clientID
      match lcm.getClientState clientStore with
      | none => (.error (Wrap ErrClientNotFound clientID), ctx)
      | some clientState =>
        let substituteClientStore := ctx substituteClientID
        match lcm.getClientState substituteClientStore with
        | none => (.error (Wrap ErrClientNotFound substituteClientID), ctx)
        | some substituteClient =>
          if clientState.Sequence ≥ substituteClient.Sequence then
            (.error (Wrap ErrInvalidHeight
              ("subject client state sequence is greater or equal to substitute client state sequence ("
                ++ toString clientState.Sequence ++ " >= "
                ++ toString substituteClient.Sequence ++ ")")), ctx)
          else
            let r := lcm.CheckSubstituteAndUpdateState clientState clientStore
              substituteClientStore substituteClient
            (r.1, Function.update (Function.update ctx substituteClientID r.2.2) clientID r.2.1)

/-- Embeds `LightClientModule.VerifyUpgradeAndUpdateState`: the body is `return nil`. -/
def VerifyUpgradeAndUpdateState (_lcm : Collaborators σ μ π) (ctx : ClientStores σ)
    (_clientID : String) (_newClient _newConsState : Bytes)
    (_upgradeClientProof _upgradeConsensusStateProof : Bytes) :
    Except Error Unit × ClientStores σ :=
  (.ok (), ctx)

end LightClientModule

/-! ## Channel upgrade handshake (spec §3 and §4.4, `keeper/upgrade_test.go`)

The keeper functions under test (`ChanUpgradeInit`, `WriteUpgradeInitChannel`,
`ChanUpgradeTry`, `StartFlushUpgradeHandshake`, `ValidateUpgradeFields`) are not
part of the sources; only their tests are. They are modelled from the spec, with
the call signatures, the decomposition into functions and the order of the
checks taken from the test cases of `upgrade_test.go`. -/

def ErrChannelNotFound : Error := .sentinel "ErrChannelNotFound"
def ErrInvalidChannelState : Error := .sentinel "ErrInvalidChannelState"
def ErrInvalidUpgrade : Error := .sentinel "ErrInvalidUpgrade"
def ErrUpgradeNotFound : Error := .sentinel "ErrUpgradeNotFound"
def ErrIncompatibleCounterpartyUpgrade : Error := .sentinel "ErrIncompatibleCounterpartyUpgrade"
def ErrSequenceSendNotFound : Error := .sentinel "ErrSequenceSendNotFound"
def ErrConnectionNotFound : Error := .sentinel "ErrConnectionNotFound"
def ErrInvalidConnectionState : Error := .sentinel "ErrInvalidConnectionState"
def ErrInvalidVersion : Error := .sentinel "ErrInvalidVersion"
def ErrInvalidProof : Error := .sentinel "ErrInvalidProof"

/-- Modelled from the spec: `types.NewUpgradeError` as the tests call it, the
typed error of §3 carrying an upgrade sequence and its cause. -/
def NewUpgradeError (upgradeSequence : Nat) (err : Error) : Error :=
  .upgradeError upgradeSequence err

/-- Modelled from the spec: the channel ordering of §3, Unordered or Ordered. -/
inductive Order where
  | UNORDERED | ORDERED
deriving DecidableEq, Repr

/-- Modelled from the spec: the feature string of an ordering, as the tests
spell it (`"ORDER_ORDERED"`). -/
def Order.String : Order → String
  | .UNORDERED => "ORDER_UNORDERED"
  | .ORDERED => "ORDER_ORDERED"

namespace channeltypes

/-- Modelled from the spec: the channel states of §3. -/
inductive State where
  | INIT | TRYOPEN | OPEN | CLOSED | INITUPGRADE | FLUSHUPGRADE
deriving DecidableEq, Repr

end channeltypes

namespace connectiontypes

/-- Modelled from the spec: the connection states of §3, with the
uninitialised state the tests use. -/
inductive State where
  | UNINITIALIZED | INIT | TRYOPEN | OPEN
deriving DecidableEq, Repr

/-- Modelled from the spec: a negotiated connection version, an identifier and
the feature strings it supports. -/
structure Version where
  Identifier : String
  Features : List String
deriving DecidableEq, Repr

/-- Modelled from the spec: the counterparty of a connection end. -/
structure Counterparty where
  ClientId : String
  ConnectionId : String
deriving DecidableEq, Repr

/-- Modelled from the spec: the connection end of §3. -/
structure ConnectionEnd where
  ClientId : String
  Versions : List Version
  State : State
  Counterparty : Counterparty
deriving DecidableEq, Repr

/-- Modelled from the spec: a version supports a feature when the feature is
among its feature strings. -/
def VerifySupportedFeature (version : Version) (feature : String) : Bool :=
  version.Features.contains feature

end connectiontypes

/-- Modelled from the spec: the counterparty identifiers of a channel end. -/
structure Counterparty where
  PortId : String
  ChannelId : String
deriving DecidableEq, Repr

/-- Modelled from the spec: the channel end of §3, with its upgrade sequence (a
monotonic counter). -/
structure Channel where
  State : channeltypes.State
  Ordering : Order
  Counterparty : Counterparty
  ConnectionHops : List String
  Version : String
  UpgradeSequence : Nat
deriving DecidableEq, Repr

/-- Modelled from the spec: the fields an upgrade renegotiates. -/
structure UpgradeFields where
  Ordering : Order
  ConnectionHops : List String
  Version : String
deriving DecidableEq, Repr

/-- Modelled from the spec: an upgrade timeout, a height and/or a timestamp
(zero meaning unset). -/
structure Timeout where
  Height : Height
  Timestamp : Nat
deriving DecidableEq, Repr

/-- Modelled from the spec: the upgrade record of §3. -/
structure Upgrade where
  Fields : UpgradeFields
  Timeout : Timeout
  LatestSequenceSend : Nat
deriving DecidableEq, Repr

/-- Modelled from the spec: the empty upgrade (the zero value of the record)
that the tests expect next to an error. -/
def Upgrade.empty : Upgrade := ⟨⟨.UNORDERED, [], ""⟩, ⟨ZeroHeight, 0⟩, 0⟩

/-- Modelled from the spec: the error receipt of §3, a sequence and a message. -/
structure ErrorReceipt where
  Sequence : Nat
  Message : String
deriving DecidableEq, Repr

/-- Modelled from the spec: the name of the registered error at the root of an
error chain, used as the message of an error receipt. -/
def Error.rootName : Error → String
  | .sentinel name => name
  | .wrap c _ => c.rootName
  | .upgradeError _ c => c.rootName

/-- Modelled from the spec: `GetErrorReceipt` of a typed upgrade error, as the
tests compare it: the sequence of the error and the registered error it wraps. -/
def GetErrorReceipt : Error → Option ErrorReceipt
  | .upgradeError seq c => some ⟨seq, c.rootName⟩
  | _ => none

/-- Modelled from the spec: the keeper's view of the store (§6): channel ends,
connection ends, upgrades, next send sequences and error receipts by identifier,
and the height and time of the executing block. -/
structure KeeperState where
  channels : String → String → Option Channel
  connections : String → Option connectiontypes.ConnectionEnd
  upgrades : String → String → Option Upgrade
  nextSequenceSend : String → String → Option Nat
  upgradeErrors : String → String → Option ErrorReceipt
  selfHeight : Height
  blockTime : Nat

/-- Modelled from the spec: the light client contract as the handshake uses it
(§4.1): whether a proof attests, at a height and through a connection, that the
counterparty stores the given channel end, or the given upgrade, under the given
port and channel. Proofs are opaque bytes. -/
structure ProofVerifier where
  VerifyChannelState :
    connectiontypes.ConnectionEnd → Height → Bytes → String → String → Channel → Bool
  VerifyChannelUpgrade :
    connectiontypes.ConnectionEnd → Height → Bytes → String → String → Upgrade → Bool

/-- Modelled from the spec: heights are ordered by revision number, then by
revision height. -/
def Height.GTE (a b : Height) : Bool :=
  decide (a.RevisionNumber > b.RevisionNumber) ||
    (decide (a.RevisionNumber = b.RevisionNumber) &&
      decide (a.RevisionHeight ≥ b.RevisionHeight))

/-- Modelled from the spec: a timeout has passed when its height is set and
reached by the executing block, or its timestamp is set and reached (§4.4,
Timeout). -/
def Timeout.HasPassed (t : Timeout) (st : KeeperState) : Bool :=
  (decide (t.Height ≠ ZeroHeight) && st.selfHeight.GTE t.Height) ||
    (decide (t.Timestamp ≠ 0) && decide (st.blockTime ≥ t.Timestamp))

/-- Modelled from the spec: the store lookup of a connection end; absence is
`ErrConnectionNotFound`. -/
def GetConnection (st : KeeperState) (connectionID : String) :
    Except Error connectiontypes.ConnectionEnd :=
  match st.connections connectionID with
  | none => .error (Wrap ErrConnectionNotFound connectionID)
  | some connection => .ok connection

/-- Modelled from the spec: the first connection hop of a hop list; with no hop
there is no connection to find. -/
def GetConnectionOfHops (st : KeeperState) (hops : List String) :
    Except Error connectiontypes.ConnectionEnd :=
  match hops.head? with
  | none => .error (Wrap ErrConnectionNotFound "no connection hop")
  | some connectionID => GetConnection st connectionID

/-- Modelled from the spec: the upgradable fields of a channel end. -/
def extractUpgradeFields (channel : Channel) : UpgradeFields :=
  ⟨channel.Ordering, channel.ConnectionHops, channel.Version⟩

/-- Modelled from the spec: a connection supports an ordering when one of its
negotiated versions lists the ordering among its features. -/
def supportsOrdering (connection : connectiontypes.ConnectionEnd) (ordering : Order) : Bool :=
  connection.Versions.any (fun v => connectiontypes.VerifySupportedFeature v ordering.String)

/-- Modelled from the spec: `ValidateUpgradeFields` (keeper, tested by
`TestValidateUpgradeFields`). §4.4: a proposal identical to the current fields
is rejected with `ErrInvalidUpgrade`; the proposed connection hop must exist, be
`Open`, and its negotiated version must support the proposed ordering. -/
def ValidateUpgradeFields (st : KeeperState) (proposedUpgrade : UpgradeFields)
    (currentChannel : Channel) : Except Error Unit :=
  if proposedUpgrade = extractUpgradeFields currentChannel then
    .error (Wrap ErrInvalidUpgrade
      "existing channel end is identical to proposed upgrade channel end")
  else
    match GetConnectionOfHops st proposedUpgrade.ConnectionHops with
    | .error err => .error (Wrap err "failed to retrieve connection")
    | .ok connection =>
      if connection.State ≠ .OPEN then
        .error (Wrap ErrInvalidConnectionState "connection state is not OPEN")
      else if ¬ supportsOrdering connection proposedUpgrade.Ordering then
        .error (Wrap ErrInvalidVersion
          "connection version does not support channel ordering")
      else
        .ok ()

/-- Modelled from the spec: `ChanUpgradeInit` (keeper, tested by
`TestChanUpgradeInit`). §4.4: the channel must exist and be `Open`, and the
proposed fields must pass `ValidateUpgradeFields`. As the test calls it, the
function validates and returns the proposed upgrade (with the latest sent
sequence, the next send sequence minus one) and writes nothing; the write is
`WriteUpgradeInitChannel`. Next to an error it returns the empty upgrade. -/
def ChanUpgradeInit (st : KeeperState) (portID channelID : String)
    (upgradeFields : UpgradeFields) (upgradeTimeout : Timeout) :
    Upgrade × Except Error Unit :=
  match st.channels portID channelID with
  | none => (Upgrade.empty, .error (Wrap ErrChannelNotFound (portID ++ "/" ++ channelID)))
  | some channel =>
    if channel.State ≠ .OPEN then
      (Upgrade.empty, .error (Wrap ErrInvalidChannelState "expected OPEN"))
    else
      match ValidateUpgradeFields st upgradeFields channel with
      | .error err => (Upgrade.empty, .error err)
      | .ok _ =>
        match st.nextSequenceSend portID channelID with
        | none =>
          (Upgrade.empty, .error (Wrap ErrSequenceSendNotFound (portID ++ "/" ++ channelID)))
        | some seq => (⟨upgradeFields, upgradeTimeout, seq - 1⟩, .ok ())

/-- Modelled from the spec: the store write of a channel end (§6, `set`). -/
def KeeperState.SetChannel (st : KeeperState) (portID channelID : String) (channel : Channel) :
    KeeperState :=
  { st with channels := fun p c =>
      if p = portID ∧ c = channelID then some channel else st.channels p c }

/-- Modelled from the spec: the store write of an upgrade (§6, `set`). -/
def KeeperState.SetUpgrade (st : KeeperState) (portID channelID : String) (upgrade : Upgrade) :
    KeeperState :=
  { st with upgrades := fun p c =>
      if p = portID ∧ c = channelID then some upgrade else st.upgrades p c }

/-- Modelled from the spec: the store write of an error receipt (§6, `set`). -/
def KeeperState.SetUpgradeErrorReceipt (st : KeeperState) (portID channelID : String)
    (receipt : ErrorReceipt) : KeeperState :=
  { st with upgradeErrors := fun p c =>
      if p = portID ∧ c = channelID then some receipt else st.upgradeErrors p c }

/-- Modelled from the spec: `WriteUpgradeInitChannel` (keeper, applied by
`TestChanUpgradeInit` after a successful `ChanUpgradeInit`). §4.4, on success:
increment `UpgradeSequence`, persist the proposal, transition to `InitUpgrade`.
The channel fields themselves are kept. With no channel stored nothing is
written. -/
def WriteUpgradeInitChannel (st : KeeperState) (portID channelID : String)
    (currentUpgrade : Upgrade) : KeeperState :=
  match st.channels portID channelID with
  | none => st
  | some channel =>
    (st.SetChannel portID channelID
      { channel with
        UpgradeSequence := channel.UpgradeSequence + 1
        State := .INITUPGRADE }).SetUpgrade portID channelID currentUpgrade

/-- Modelled from the spec: the upgrade-init transition as the test composes it:
`ChanUpgradeInit`, then `WriteUpgradeInitChannel` when it succeeded; a rejected
message mutates no state (§4.4, error policy). -/
def ChannelUpgradeInit (st : KeeperState) (portID channelID : String)
    (upgradeFields : UpgradeFields) (upgradeTimeout : Timeout) :
    (Upgrade × Except Error Unit) × KeeperState :=
  match ChanUpgradeInit st portID channelID upgradeFields upgradeTimeout with
  | (upgrade, .ok u) => ((upgrade, .ok u), WriteUpgradeInitChannel st portID channelID upgrade)
  | (upgrade, .error err) => ((upgrade, .error err), st)

/-- Modelled from the spec: the compatibility checks of
`StartFlushUpgradeHandshake` (§4.4), in the order of the test cases of
`TestStartFlushUpgradeHandshake`: both sides propose the same ordering; the
proposed connection exists and is `Open`; its counterparty connection
identifier is the connection hop of the counterparty's upgrade (both ends are
each other's counterparty); and the proposed connection's feature set supports
the proposed ordering. -/
def checkForUpgradeCompatibility (st : KeeperState) (proposedUpgradeFields : UpgradeFields)
    (counterpartyUpgrade : Upgrade) : Except Error Unit :=
  if proposedUpgradeFields.Ordering ≠ counterpartyUpgrade.Fields.Ordering then
    .error (Wrap ErrIncompatibleCounterpartyUpgrade
      "expected upgrade ordering to match counterparty upgrade ordering")
  else
    match GetConnectionOfHops st proposedUpgradeFields.ConnectionHops with
    | .error err => .error (Wrap err "expected proposed connection to be found")
    | .ok proposedConnection =>
      if proposedConnection.State ≠ .OPEN then
        .error (Wrap ErrInvalidConnectionState "expected proposed connection to be OPEN")
      else if counterpartyUpgrade.Fields.ConnectionHops.head? ≠
          some proposedConnection.Counterparty.ConnectionId then
        .error (Wrap ErrIncompatibleCounterpartyUpgrade
          "counterparty upgrade connection end is not a counterparty of the proposed connection")
      else if ¬ supportsOrdering proposedConnection proposedUpgradeFields.Ordering then
        .error (Wrap ErrIncompatibleCounterpartyUpgrade
          "proposed connection does not support the proposed ordering")
      else
        .ok ()

/-- Modelled from the spec: `StartFlushUpgradeHandshake` (keeper, tested by
`TestStartFlushUpgradeHandshake`). The channel and its connection must exist and
the connection be `Open`; the counterparty's channel end and its upgrade are
verified by inclusion proof (§4.4, a failure is the plain `ErrInvalidProof`);
the two upgrade sequences must match, otherwise the call fails with the typed
upgrade error at the higher of the two (test case "upgrade sequence mismatch":
"max sequence will be returned"); and an incompatibility is a typed upgrade
error at the channel's current sequence. -/
def StartFlushUpgradeHandshake (v : ProofVerifier) (st : KeeperState) (portID channelID : String)
    (proposedUpgradeFields : UpgradeFields) (counterpartyChannel : Channel)
    (counterpartyUpgrade : Upgrade) (proofCounterpartyChannel proofCounterpartyUpgrade : Bytes)
    (proofHeight : Height) : Except Error Unit :=
  match st.channels portID channelID with
  | none => .error (Wrap ErrChannelNotFound (portID ++ "/" ++ channelID))
  | some channel =>
    match GetConnectionOfHops st channel.ConnectionHops with
    | .error err => .error (Wrap err "failed to retrieve connection using the channel connection hops")
    | .ok connection =>
      if connection.State ≠ .OPEN then
        .error (Wrap ErrInvalidConnectionState "connection state is not OPEN")
      else if ¬ v.VerifyChannelState connection proofHeight proofCounterpartyChannel
          channel.Counterparty.PortId channel.Counterparty.ChannelId counterpartyChannel then
        .error (Wrap ErrInvalidProof "failed to verify counterparty channel state")
      else if ¬ v.VerifyChannelUpgrade connection proofHeight proofCounterpartyUpgrade
          channel.Counterparty.PortId channel.Counterparty.ChannelId counterpartyUpgrade then
        .error (Wrap ErrInvalidProof "failed to verify counterparty upgrade")
      else if counterpartyChannel.UpgradeSequence ≠ channel.UpgradeSequence then
        .error (NewUpgradeError (max counterpartyChannel.UpgradeSequence channel.UpgradeSequence)
          (Wrap ErrIncompatibleCounterpartyUpgrade
            "expected upgrade sequence to match counterparty upgrade sequence"))
      else
        match checkForUpgradeCompatibility st proposedUpgradeFields counterpartyUpgrade with
        | .error err => .error (NewUpgradeError channel.UpgradeSequence err)
        | .ok _ => .ok ()

/-- Modelled from the spec: the failure of `ChanUpgradeTry` (§4.4, error
policy): the empty upgrade is returned; a plain error mutates no state, and a
typed upgrade error is committed to the store as its error receipt. -/
def ChanUpgradeTry.fail (st : KeeperState) (portID channelID : String) (err : Error) :
    (Upgrade × Except Error Unit) × KeeperState :=
  match GetErrorReceipt err with
  | some receipt => ((Upgrade.empty, .error err), st.SetUpgradeErrorReceipt portID channelID receipt)
  | none => ((Upgrade.empty, .error err), st)

/-- Modelled from the spec: `ChanUpgradeTry` (keeper, tested by
`TestChanUpgradeTry`; §4.4). In the order of the test cases: the channel exists
and is `Open` or `InitUpgrade`; its connection exists and is `Open`; the
counterparty's timeout has not passed; the proposed fields are the
counterparty's ordering and version with the caller's connection hops. From
`Open` the handshake is initialised (`ChanUpgradeInit` and
`WriteUpgradeInitChannel`, the `Open → InitUpgrade` transition that increments
the sequence); from `InitUpgrade` (crossing hellos) the stored upgrade must
exist and its fields equal the proposed fields exactly. Then
`StartFlushUpgradeHandshake` runs against the counterparty channel expected at
the relayed upgrade sequence (proofs, sequence tie-break, compatibility). On
full success the accepted upgrade, with the caller's timeout and the latest
sent sequence at this instant, is persisted and the channel moves to
`FlushUpgrade`.

That the sequences are compared after the increment is fixed by the test cases:
"success" runs a fresh channel (sequence 0) against a counterparty at sequence
1 and succeeds; the incompatible-connection case expects the upgrade error at
sequence 1 from a fresh channel; and the mismatch case expects sequence 6 from a
channel set to 5 against a counterparty at 1, while the same mismatch in
`TestStartFlushUpgradeHandshake` (2 against 1) expects 2, the maximum. -/
def ChanUpgradeTry (v : ProofVerifier) (st : KeeperState) (portID channelID : String)
    (proposedConnectionHops : List String) (upgradeTimeout : Timeout)
    (counterpartyProposedUpgrade : Upgrade) (counterpartyUpgradeSequence : Nat)
    (proofCounterpartyChannel proofCounterpartyUpgrade : Bytes) (proofHeight : Height) :
    (Upgrade × Except Error Unit) × KeeperState :=
  match st.channels portID channelID with
  | none => ChanUpgradeTry.fail st portID channelID
      (Wrap ErrChannelNotFound (portID ++ "/" ++ channelID))
  | some channel =>
    if channel.State ≠ .OPEN ∧ channel.State ≠ .INITUPGRADE then
      ChanUpgradeTry.fail st portID channelID
        (Wrap ErrInvalidChannelState "expected one of OPEN, INITUPGRADE")
    else
      match GetConnectionOfHops st channel.ConnectionHops with
      | .error err => ChanUpgradeTry.fail st portID channelID
          (Wrap err "failed to retrieve connection using the channel connection hops")
      | .ok connectionEnd =>
        if connectionEnd.State ≠ .OPEN then
          ChanUpgradeTry.fail st portID channelID
            (Wrap ErrInvalidConnectionState "connection state is not OPEN")
        else if counterpartyProposedUpgrade.Timeout.HasPassed st then
          ChanUpgradeTry.fail st portID channelID
            (Wrap ErrInvalidUpgrade "upgrade timeout has passed")
        else
          let proposedUpgradeFields : UpgradeFields :=
            ⟨counterpartyProposedUpgrade.Fields.Ordering, proposedConnectionHops,
              counterpartyProposedUpgrade.Fields.Version⟩
          -- the state in which the handshake is initialised, or the error
          let initialised : Except Error KeeperState :=
            if channel.State = .OPEN then
              match ChanUpgradeInit st portID channelID proposedUpgradeFields upgradeTimeout with
              | (_, .error err) => .error (Wrap err "failed to initialize upgrade")
              | (upgrade, .ok _) => .ok (WriteUpgradeInitChannel st portID channelID upgrade)
            else
              -- crossing hellos
              match st.upgrades portID channelID with
              | none => .error (Wrap ErrUpgradeNotFound
                  "current upgrade not found despite channel state being in INITUPGRADE")
              | some upgrade =>
                if upgrade.Fields ≠ proposedUpgradeFields then
                  .error (Wrap ErrInvalidUpgrade
                    "upgrade fields are not equal to current upgrade fields in crossing hellos case")
                else .ok st
          match initialised with
          | .error err => ChanUpgradeTry.fail st portID channelID err
          | .ok st1 =>
            let counterpartyChannel : Channel :=
              { State := .INITUPGRADE
                Ordering := channel.Ordering
                Counterparty := ⟨portID, channelID⟩
                ConnectionHops := [connectionEnd.Counterparty.ConnectionId]
                Version := channel.Version
                UpgradeSequence := counterpartyUpgradeSequence }
            match StartFlushUpgradeHandshake v st1 portID channelID proposedUpgradeFields
                counterpartyChannel counterpartyProposedUpgrade proofCounterpartyChannel
                proofCounterpartyUpgrade proofHeight with
            | .error err => ChanUpgradeTry.fail st portID channelID err
            | .ok _ =>
              match st1.channels portID channelID with
              | none => ChanUpgradeTry.fail st portID channelID
                  (Wrap ErrChannelNotFound (portID ++ "/" ++ channelID))
              | some channel1 =>
                match st1.nextSequenceSend portID channelID with
                | none => ChanUpgradeTry.fail st portID channelID
                    (Wrap ErrSequenceSendNotFound (portID ++ "/" ++ channelID))
                | some seq =>
                  let upgrade : Upgrade := ⟨proposedUpgradeFields, upgradeTimeout, seq - 1⟩
                  ((upgrade, .ok ()),
                    (st1.SetChannel portID channelID
                      { channel1 with State := .FLUSHUPGRADE }).SetUpgrade
                      portID channelID upgrade)

/-! ## Solo machine: header and misbehaviour verification (spec §4.2, `types/update_test.go`)

The methods of the solo machine `ClientState` that verify and apply client
messages (`VerifyClientMessage`, `CheckHeaderAndUpdateState`, `UpdateState`,
`VerifyNonMembership`) are not part of the sources; only their tests and their
caller `LightClientModule` are. They are modelled from the spec. -/

def ErrVerificationFailed : Error := .sentinel "VerificationFailed"
def ErrClientFrozen : Error := .sentinel "ErrClientFrozen"

/-- Modelled from the spec: the signed byte string of §4.2, recomputed from
sequence, timestamp, diversifier, data-type tag and data. -/
structure SignBytes where
  Sequence : Nat
  Timestamp : Nat
  Diversifier : String
  DataType : DataType
  Data : Bytes
deriving DecidableEq, Repr

/-- Modelled from the spec: a solo machine header (§4.2): the sequence and
timestamp it is signed at, the signature, and the public key and diversifier it
rotates to. -/
structure Header where
  Sequence : Nat
  Timestamp : Nat
  Signature : Bytes
  NewPublicKey : Bytes
  NewDiversifier : String
deriving DecidableEq, Repr

/-- Modelled from the spec: a client message, tagged Header or Misbehaviour
(§4.2); `foreign` stands for a message of another client type, as the tests
submit. -/
inductive ClientMessage where
  | header (h : Header)
  | misbehaviour (m : DuplicateSignatureHeader)
  | foreign
deriving DecidableEq, Repr

/-- Modelled from the spec: the cryptographic scheme of the solo machine, which
owns signature verification (§4.1, §9): whether a signature is valid for a
public key over sign bytes, the data-type tag of headers, and the encoding of
the new public key and diversifier that a header signs over. -/
structure SignatureScheme where
  VerifySignature : Bytes → SignBytes → Bytes → Bool
  HEADER : DataType
  HeaderData : Bytes → String → Bytes

/-- Modelled from the spec: the sign bytes of a header under a client state
(§4.2): the header's sequence and timestamp, the current diversifier, the
header data type, and the new key and diversifier as data. -/
def HeaderSignBytes (scheme : SignatureScheme) (cs : ClientState) (header : Header) : SignBytes :=
  ⟨header.Sequence, header.Timestamp, cs.ConsensusState.Diversifier, scheme.HEADER,
    scheme.HeaderData header.NewPublicKey header.NewDiversifier⟩

/-- Modelled from the spec: header verification (§4.2): reject if the sequence
mismatches the client's current sequence, if the timestamp is less than the
previous consensus timestamp, or if the signature over the recomputed sign
bytes fails against the current consensus public key (which must be present, as
the test case with a nil public key requires). A header that passes these
checks is still rejected when the client is frozen (§7 (e): an operation
against a frozen client fails until `RecoverClient` succeeds). -/
def ClientState.verifyHeader (scheme : SignatureScheme) (cs : ClientState) (header : Header) :
    Except Error Unit :=
  if header.Sequence ≠ cs.Sequence then
    .error (Wrap ErrVerificationFailed
      "header sequence does not match the client state sequence")
  else if header.Timestamp < cs.ConsensusState.Timestamp then
    .error (Wrap ErrVerificationFailed
      "header timestamp is less than to the consensus state timestamp")
  else if cs.ConsensusState.PublicKey = [] then
    .error (Wrap ErrVerificationFailed "consensus state PublicKey cannot be nil")
  else if ¬ scheme.VerifySignature cs.ConsensusState.PublicKey (HeaderSignBytes scheme cs header)
      header.Signature then
    .error (Wrap ErrVerificationFailed "signature verification failed")
  else if cs.IsFrozen then
    .error (Wrap ErrClientFrozen "client is frozen")
  else
    .ok ()

/-- Modelled from the spec: the sign bytes of one signature of a misbehaviour
message: the sequence of the message, the timestamp, data type and data of the
signature, and the current diversifier. -/
def MisbehaviourSignBytes (cs : ClientState) (misbehaviour : DuplicateSignatureHeader)
    (sigAndData : SignatureAndData) : SignBytes :=
  ⟨misbehaviour.Sequence, sigAndData.Timestamp, cs.ConsensusState.Diversifier,
    sigAndData.DataType, sigAndData.Data⟩

/-- Modelled from the spec: verification of one signature of a misbehaviour
message against the current public key (§4.2). The timestamp of the signature
is signed over but not compared with the consensus timestamp: the tests accept
misbehaviour older than the current consensus state. -/
def ClientState.verifySignatureAndData (scheme : SignatureScheme) (cs : ClientState)
    (misbehaviour : DuplicateSignatureHeader) (sigAndData : SignatureAndData) :
    Except Error Unit :=
  if cs.ConsensusState.PublicKey = [] then
    .error (Wrap ErrVerificationFailed "consensus state PublicKey cannot be nil")
  else if ¬ scheme.VerifySignature cs.ConsensusState.PublicKey
      (MisbehaviourSignBytes cs misbehaviour sigAndData) sigAndData.Signature then
    .error (Wrap ErrVerificationFailed "signature verification failed")
  else
    .ok ()

/-- Modelled from the spec: misbehaviour verification (§4.2): both signatures
are individually valid against the current public key. -/
def ClientState.verifyMisbehaviour (scheme : SignatureScheme) (cs : ClientState)
    (misbehaviour : DuplicateSignatureHeader) : Except Error Unit :=
  match cs.verifySignatureAndData scheme misbehaviour misbehaviour.SignatureOne with
  | .error err => .error (Wrap err "failed to verify signature one")
  | .ok _ =>
    match cs.verifySignatureAndData scheme misbehaviour misbehaviour.SignatureTwo with
    | .error err => .error (Wrap err "failed to verify signature two")
    | .ok _ => .ok ()

/-- Modelled from the spec: `ClientState.VerifyClientMessage` (§4.2, tested by
`TestVerifyClientMessageHeader` and `TestVerifyClientMessageMisbehaviour`): a
header or a misbehaviour message is verified, any other message is rejected.
The verification reads the client state and writes nothing. -/
def ClientState.VerifyClientMessage (scheme : SignatureScheme) (cs : ClientState)
    (clientMsg : ClientMessage) : Except Error Unit :=
  match clientMsg with
  | .header h => cs.verifyHeader scheme h
  | .misbehaviour m => cs.verifyMisbehaviour scheme m
  | .foreign => .error (Wrap ErrInvalidClientType "expected a header or a misbehaviour")

/-- Modelled from the spec: the state update of a verified header (§4.2,
`UpdateState`): the sequence advances by exactly 1 and the consensus state
adopts the header's public key, diversifier and timestamp. The frozen flag is
not touched (freezing is irreversible until `RecoverClient`). The new client
state is returned with its consensus state. -/
def update (cs : ClientState) (header : Header) : ClientState × ConsensusState :=
  let consensusState : ConsensusState :=
    ⟨header.NewPublicKey, header.NewDiversifier, header.Timestamp⟩
  ({ cs with Sequence := cs.Sequence + 1, ConsensusState := consensusState }, consensusState)

/-- Modelled from the spec: `ClientState.VerifyNonMembership` (§4.2): rejected
immediately, without consulting cryptography, if the client is frozen;
otherwise the signed attestation of absence is checked for the path at the
height, with the delay periods, under the current client state. The check
belongs to the cryptographic scheme and is a parameter; it reads the client
state and writes nothing. -/
def ClientState.VerifyNonMembership {π : Type}
    (attestsAbsence : ClientState → Height → Nat → Nat → Bytes → π → Bool)
    (cs : ClientState) (height : Height) (delayTimePeriod delayBlockPeriod : Nat)
    (proof : Bytes) (path : π) : Except Error Unit :=
  if cs.IsFrozen then
    .error (Wrap ErrClientFrozen "client is frozen")
  else if ¬ attestsAbsence cs height delayTimePeriod delayBlockPeriod proof path then
    .error (Wrap ErrVerificationFailed "failed to verify non-membership")
  else
    .ok ()

/-- Modelled from the spec: the solo machine behind `LightClientModule`. The
client store holds the client state (§6, `clients/id/clientState`), which
`getClientState` reads; `VerifyClientMessage` and `VerifyNonMembership` are the
checks above and hand the store back as they found it; `UpdateState` applies a
header, stores the new client state and returns its height (revision 0, the new
sequence). The remaining collaborators are those of `base`. -/
def soloMachineCollaborators {π : Type} (scheme : SignatureScheme)
    (attestsAbsence : ClientState → Height → Nat → Nat → Bytes → π → Bool)
    (base : Collaborators (Option ClientState) ClientMessage π) :
    Collaborators (Option ClientState) ClientMessage π :=
  { base with
    getClientState := fun store => store
    VerifyClientMessage := fun cs store clientMsg =>
      (cs.VerifyClientMessage scheme clientMsg, store)
    UpdateState := fun cs store clientMsg =>
      match clientMsg with
      | .header h => ([⟨0, (update cs h).1.Sequence⟩], some (update cs h).1)
      | _ => ([], store)
    VerifyNonMembership := fun cs store height delayTimePeriod delayBlockPeriod proof path =>
      (cs.VerifyNonMembership attestsAbsence height delayTimePeriod delayBlockPeriod proof path,
        store) }

/-! ## Wasm light client: the generated protobuf codec (`08-wasm/types/wasm.pb.go`)

Buffers are byte lists and indices are natural numbers. Go's `int` is taken to
be 64 bits wide: a value of `2 ^ 63` or more stands for the negative `int` with
the same bit pattern. An index or slice bound out of range is a run-time panic.
The loops are run with a bound on their rounds; the theorems show that the
bound handed to them is never exhausted. -/

namespace wasm

/-- The outcome of running codec code: a result, a returned error, a run-time
panic (index or slice bound out of range), or the exhaustion of the bound on
the rounds of a loop. -/
inductive Res (α : Type) where
  | ok (a : α)
  | err (e : Error)
  | panic
  | outOfFuel
deriving Repr

/-- Sequencing: the first outcome that is not a result ends the run. -/
def Res.bind {α β : Type} (r : Res α) (f : α → Res β) : Res β :=
  match r with
  | .ok a => f a
  | .err e => .err e
  | .panic => .panic
  | .outOfFuel => .outOfFuel

def ErrInvalidLengthWasm : Error :=
  .sentinel "proto: negative length found during unmarshaling"
def ErrIntOverflowWasm : Error := .sentinel "proto: integer overflow"
def ErrUnexpectedEndOfGroupWasm : Error := .sentinel "proto: unexpected end of group"

/-- The error `io.ErrUnexpectedEOF` of the Go standard library. -/
def ErrUnexpectedEOF : Error := .sentinel "unexpected EOF"

/-- The bound `1 << 63`: an `int` bit pattern at or above it is negative. -/
def intSign : Nat := 2 ^ 63

/-- The index expression `dAtA[i]`; out of range it panics. -/
def index (dAtA : Bytes) (i : Nat) : Res (Fin 256) :=
  match dAtA[i]? with
  | some b => .ok b
  | none => .panic

/-- The slice expression `dAtA[lo:hi]`; with bounds out of range it panics. -/
def slice (dAtA : Bytes) (lo hi : Nat) : Res Bytes :=
  if lo ≤ hi ∧ hi ≤ dAtA.length then .ok ((dAtA.drop lo).take (hi - lo)) else .panic

/-- The slice expression `dAtA[lo:]`. -/
def sliceFrom (dAtA : Bytes) (lo : Nat) : Res Bytes :=
  if lo ≤ dAtA.length then .ok (dAtA.drop lo) else .panic

/-- The assignment `dAtA[i] = b`; out of range it panics. -/
def setIndex (dAtA : Bytes) (i : Nat) (b : Fin 256) : Res Bytes :=
  if i < dAtA.length then .ok (dAtA.set i b) else .panic

/-- The conversion `uint8(v)`. -/
def uint8 (v : Nat) : Fin 256 := Fin.ofNat v

/-- The bit length of `x`, by halving; `rounds` bounds the number of bits. -/
def lenBits : Nat → Nat → Nat
  | 0, _ => 0
  | rounds + 1, x => if x = 0 then 0 else lenBits rounds (x / 2) + 1

/-- The function `math/bits.Len64` of the Go standard library: the minimum
number of bits required to represent a 64-bit `x`; 0 for `x = 0`. -/
def Len64 (x : Nat) : Nat := lenBits 64 x

/-- Embeds `sovWasm`: the number of bytes of the varint encoding of `x`. -/
def sovWasm (x : Nat) : Nat := (Len64 (x ||| 1) + 6) / 7

/-- The loop of `encodeVarintWasm`: while `v >= 1<<7`, write the low seven bits
with the continuation bit and shift; then write the last byte. A 64-bit `v`
goes through the loop body at most nine times, which `rounds` counts. Returns
the buffer. -/
def encodeVarintLoop : Nat → Bytes → Nat → Nat → Res Bytes
  | 0, dAtA, offset, v => setIndex dAtA offset (uint8 v)
  | rounds + 1, dAtA, offset, v =>
    if v ≥ 1 <<< 7 then
      (setIndex dAtA offset (uint8 (v &&& 0x7f ||| 0x80))).bind fun dAtA =>
        encodeVarintLoop rounds dAtA (offset + 1) (v >>> 7)
    else
      setIndex dAtA offset (uint8 v)

/-- Embeds `encodeVarintWasm`: the varint of `v` is written so that it ends
right before `offset`; the buffer and the index of its first byte are
returned. With `offset` below `sovWasm v` the first write is at a negative
index and panics. -/
def encodeVarintWasm (dAtA : Bytes) (offset : Nat) (v : Nat) : Res (Bytes × Nat) :=
  if offset < sovWasm v then .panic
  else
    let base := offset - sovWasm v
    (encodeVarintLoop 9 dAtA base v).bind fun dAtA => .ok (dAtA, base)

/-- The statement `copy(dAtA[i:], src)`: as many bytes of `src` as fit are
copied to position `i`; with `i` beyond the buffer the slice panics. -/
def copyAt (dAtA : Bytes) (i : Nat) (src : Bytes) : Res Bytes :=
  if i ≤ dAtA.length then
    .ok (dAtA.take i ++ src.take (dAtA.length - i) ++ dAtA.drop (i + min src.length (dAtA.length - i)))
  else .panic

/-- The block that writes a length-delimited field so that it ends right
before index `i`: the payload, its length as a varint, and the tag byte. Going
below index 0 panics. Returns the buffer and the new index. -/
def putBytesField (dAtA : Bytes) (i : Nat) (tag : Fin 256) (field : Bytes) : Res (Bytes × Nat) :=
  if i < field.length then .panic
  else
    (copyAt dAtA (i - field.length) field).bind fun dAtA =>
      (encodeVarintWasm dAtA (i - field.length) field.length).bind fun r =>
        if r.2 = 0 then .panic
        else (setIndex r.1 (r.2 - 1) tag).bind fun dAtA => .ok (dAtA, r.2 - 1)

/-- Wasm light client's consensus state. -/
structure ConsensusState where
  Data : Bytes
deriving DecidableEq, Repr

/-- Wasm light client message (either header(s) or misbehaviour). -/
structure ClientMessage where
  Data : Bytes
deriving DecidableEq, Repr

/-- Wasm light client's client state. -/
structure ClientState where
  Data : Bytes
  CodeHash : Bytes
  LatestHeight : Height
deriving DecidableEq, Repr

/-- The codec of the embedded `Height`, generated into another package that is
not part of the sources: its size, the bytes that its `MarshalToSizedBuffer`
writes at the back of the buffer it is given (or its error), and its
`Unmarshal` into a height. -/
structure HeightCodec where
  Size : Height → Nat
  Encode : Height → Except Error Bytes
  Unmarshal : Height → Bytes → Res Height

/-- The size of a bytes field: nothing when empty, otherwise tag, length varint
and payload. -/
def sizeBytesField (field : Bytes) : Nat :=
  if field.length > 0 then 1 + field.length + sovWasm field.length else 0

/-- Embeds `ConsensusState.Size`. -/
def ConsensusState.Size (m : ConsensusState) : Nat := sizeBytesField m.Data

/-- Embeds `ClientMessage.Size`. -/
def ClientMessage.Size (m : ClientMessage) : Nat := sizeBytesField m.Data

/-- Embeds `ClientState.Size`. -/
def ClientState.Size (hc : HeightCodec) (m : ClientState) : Nat :=
  sizeBytesField m.Data + sizeBytesField m.CodeHash +
    (1 + hc.Size m.LatestHeight + sovWasm (hc.Size m.LatestHeight))

/-- The body shared by `ConsensusState.MarshalToSizedBuffer` and
`ClientMessage.MarshalToSizedBuffer`: the `Data` field, if not empty, is
written at the back of the buffer; the buffer and the number of bytes written
are returned. -/
def marshalDataToSizedBuffer (data : Bytes) (dAtA : Bytes) : Res (Bytes × Nat) :=
  if data.length > 0 then
    (putBytesField dAtA dAtA.length 0xa data).bind fun r => .ok (r.1, dAtA.length - r.2)
  else .ok (dAtA, 0)

/-- Embeds `ConsensusState.MarshalToSizedBuffer`. -/
def ConsensusState.MarshalToSizedBuffer (m : ConsensusState) (dAtA : Bytes) : Res (Bytes × Nat) :=
  marshalDataToSizedBuffer m.Data dAtA

/-- Embeds `ClientMessage.MarshalToSizedBuffer`. -/
def ClientMessage.MarshalToSizedBuffer (m : ClientMessage) (dAtA : Bytes) : Res (Bytes × Nat) :=
  marshalDataToSizedBuffer m.Data dAtA

/-- The body of `Marshal`: a zeroed buffer of the computed size is filled by
`MarshalToSizedBuffer` and its first `n` bytes are returned. -/
def marshalWith (size : Nat) (fill : Bytes → Res (Bytes × Nat)) : Res Bytes :=
  (fill (List.replicate size 0)).bind fun r => slice r.1 0 r.2

/-- Embeds `ConsensusState.Marshal`. -/
def ConsensusState.Marshal (m : ConsensusState) : Res Bytes :=
  marshalWith m.Size m.MarshalToSizedBuffer

/-- Embeds `ClientMessage.Marshal`. -/
def ClientMessage.Marshal (m : ClientMessage) : Res Bytes :=
  marshalWith m.Size m.MarshalToSizedBuffer

/-- Embeds `ClientState.MarshalToSizedBuffer`: from the back, the latest height
(always, as a length-delimited field holding the bytes that the height writes),
the code hash and the data (when not empty). An error of the height is
returned. -/
def ClientState.MarshalToSizedBuffer (hc : HeightCodec) (m : ClientState) (dAtA : Bytes) :
    Res (Bytes × Nat) :=
  match hc.Encode m.LatestHeight with
  | .error e => .err e
  | .ok heightBytes =>
    (putBytesField dAtA dAtA.length 0x1a heightBytes).bind fun r1 =>
      (if m.CodeHash.length > 0 then putBytesField r1.1 r1.2 0x12 m.CodeHash
        else .ok r1).bind fun r2 =>
        (if m.Data.length > 0 then putBytesField r2.1 r2.2 0xa m.Data
          else .ok r2).bind fun r3 => .ok (r3.1, dAtA.length - r3.2)

/-- Embeds `ClientState.Marshal`. -/
def ClientState.Marshal (hc : HeightCodec) (m : ClientState) : Res Bytes :=
  marshalWith (m.Size hc) (m.MarshalToSizedBuffer hc)

/-- The varint loop of the generated decoders: each round fails with
`ErrIntOverflowWasm` when the shift has reached 64 and with
`io.ErrUnexpectedEOF` at the end of the data, and otherwise ors the low seven
bits of the next byte into the 64-bit accumulator, stopping at a byte below
`0x80`. The shift takes the values 0, 7, up to 63, so `rounds` is ten at entry
and the round that finds it 0 is the one with the shift at 70. Returns the
accumulator and the index after the varint. -/
def decodeVarint (dAtA : Bytes) : Nat → Nat → Nat → Nat → Res (Nat × Nat)
  | 0, _, _, _ => .err ErrIntOverflowWasm
  | rounds + 1, shift, iNdEx, x =>
    if iNdEx ≥ dAtA.length then .err ErrUnexpectedEOF
    else
      (index dAtA iNdEx).bind fun b =>
        if b.val < 0x80 then
          .ok (x ||| (((b.val &&& 0x7F) <<< shift) % 2 ^ 64), iNdEx + 1)
        else
          decodeVarint dAtA rounds (shift + 7) (iNdEx + 1)
            (x ||| (((b.val &&& 0x7F) <<< shift) % 2 ^ 64))

/-- The varint loop of `skipWasm` for wire type 0: bytes are passed over up to
the first one below `0x80`, ten at most. Returns the index after the varint. -/
def skipVarint (dAtA : Bytes) : Nat → Nat → Res Nat
  | 0, _ => .err ErrIntOverflowWasm
  | rounds + 1, iNdEx =>
    if iNdEx ≥ dAtA.length then .err ErrUnexpectedEOF
    else
      (index dAtA iNdEx).bind fun b =>
        if b.val < 0x80 then .ok (iNdEx + 1) else skipVarint dAtA rounds (iNdEx + 1)

/-- The `switch wireType` of `skipWasm`: the index and the group depth after
the payload of a field whose tag has just been read. -/
def skipPayload (dAtA : Bytes) (wireType iNdEx depth : Nat) : Res (Nat × Nat) :=
  match wireType with
  | 0 => (skipVarint dAtA 10 iNdEx).bind fun i => .ok (i, depth)
  | 1 => .ok (iNdEx + 8, depth)
  | 2 =>
    (decodeVarint dAtA 10 0 iNdEx 0).bind fun r =>
      if r.1 ≥ intSign then .err ErrInvalidLengthWasm else .ok (r.2 + r.1, depth)
  | 3 => .ok (iNdEx, depth + 1)
  | 4 => if depth = 0 then .err ErrUnexpectedEndOfGroupWasm else .ok (iNdEx, depth - 1)
  | 5 => .ok (iNdEx + 4, depth)
  | _ => .err (.sentinel ("proto: illegal wireType " ++ toString wireType))

/-- The loop of `skipWasm`: read a tag, pass over the payload, fail on an index
that has wrapped to a negative `int`, and return the index once no group is
open. Every round consumes at least one byte, so `fuel` bounds the rounds by
the length of the data. -/
def skipLoop (dAtA : Bytes) : Nat → Nat → Nat → Res Nat
  | 0, iNdEx, _ => if iNdEx < dAtA.length then .outOfFuel else .err ErrUnexpectedEOF
  | fuel + 1, iNdEx, depth =>
    if iNdEx < dAtA.length then
      (decodeVarint dAtA 10 0 iNdEx 0).bind fun tag =>
        (skipPayload dAtA (tag.1 &&& 0x7) tag.2 depth).bind fun r =>
          if r.1 ≥ intSign then .err ErrInvalidLengthWasm
          else if r.2 = 0 then .ok r.1
          else skipLoop dAtA fuel r.1 r.2
    else .err ErrUnexpectedEOF

/-- Embeds `skipWasm`: the length of the first field of `dAtA`, groups
included. -/
def skipWasm (dAtA : Bytes) : Res Nat := skipLoop dAtA dAtA.length 0 0

/-- The body of the `case` of a length-delimited field in `Unmarshal`: the
length is read as a varint into an `int`, a negative length or a negative end
index is `ErrInvalidLengthWasm`, an end index beyond the data is
`io.ErrUnexpectedEOF`, and otherwise the payload `dAtA[iNdEx:postIndex]` is
returned with `postIndex`. -/
def readLengthDelimited (dAtA : Bytes) (iNdEx : Nat) : Res (Bytes × Nat) :=
  (decodeVarint dAtA 10 0 iNdEx 0).bind fun r =>
    if r.1 ≥ intSign then .err ErrInvalidLengthWasm
    else if r.2 + r.1 ≥ intSign then .err ErrInvalidLengthWasm
    else if r.2 + r.1 > dAtA.length then .err ErrUnexpectedEOF
    else (slice dAtA r.2 (r.2 + r.1)).bind fun payload => .ok (payload, r.2 + r.1)

/-- The `default` case of `Unmarshal`: the unknown field that starts at
`preIndex` is skipped; returns the index after it. -/
def skipUnknown (dAtA : Bytes) (preIndex : Nat) : Res Nat :=
  (sliceFrom dAtA preIndex).bind fun rest =>
    (skipWasm rest).bind fun skippy =>
      if skippy ≥ intSign ∨ preIndex + skippy ≥ intSign then .err ErrInvalidLengthWasm
      else if preIndex + skippy > dAtA.length then .err ErrUnexpectedEOF
      else .ok (preIndex + skippy)

/-- The field number `int32(wire >> 3)` as a 32-bit pattern. -/
def fieldNumOf (wire : Nat) : Nat := (wire >>> 3) % 2 ^ 32

/-- The decimal form of the `int32` with the given bit pattern, as `%d` prints
it. -/
def int32String (pattern : Nat) : String :=
  if pattern ≥ 2 ^ 31 then "-" ++ toString (2 ^ 32 - pattern) else toString pattern

/-- The error of `Unmarshal` for a field number that is not positive. -/
def illegalTag (typeName : String) (wire : Nat) : Error :=
  .sentinel ("proto: " ++ typeName ++ ": illegal tag " ++ int32String (fieldNumOf wire) ++
    " (wire type " ++ toString wire ++ ")")

/-- The error of `Unmarshal` for a known field with another wire type than 2. -/
def wrongWireType (wireType : Nat) (field : String) : Error :=
  .sentinel ("proto: wrong wireType = " ++ toString wireType ++ " for field " ++ field)

/-- The error of `Unmarshal` for a tag with wire type 4. -/
def endGroupForNonGroup (typeName : String) : Error :=
  .sentinel ("proto: " ++ typeName ++ ": wiretype end group for non-group")

/-- The loop shared by `ConsensusState.Unmarshal` and `ClientMessage.Unmarshal`
(they differ in the name of the type in the error messages): read a tag,
reject wire type 4 and field numbers that are not positive as `int32`, decode
field 1 into `Data` (replacing it), skip every other field. Every round
consumes at least one byte, so `fuel` bounds the rounds by the length of the
data. On an error the partly decoded message is not reported. -/
def unmarshalDataLoop (typeName : String) (dAtA : Bytes) : Nat → Nat → Bytes → Res Bytes
  | 0, iNdEx, data =>
    if iNdEx < dAtA.length then .outOfFuel
    else if iNdEx > dAtA.length then .err ErrUnexpectedEOF else .ok data
  | fuel + 1, iNdEx, data =>
    if iNdEx < dAtA.length then
      (decodeVarint dAtA 10 0 iNdEx 0).bind fun tag =>
        if tag.1 &&& 0x7 = 4 then
          .err (endGroupForNonGroup typeName)
        else if fieldNumOf tag.1 = 0 ∨ fieldNumOf tag.1 ≥ 2 ^ 31 then
          .err (illegalTag typeName tag.1)
        else if fieldNumOf tag.1 = 1 then
          if tag.1 &&& 0x7 ≠ 2 then .err (wrongWireType (tag.1 &&& 0x7) "Data")
          else
            (readLengthDelimited dAtA tag.2).bind fun r =>
              unmarshalDataLoop typeName dAtA fuel r.2 r.1
        else
          (skipUnknown dAtA iNdEx).bind fun i => unmarshalDataLoop typeName dAtA fuel i data
    else if iNdEx > dAtA.length then .err ErrUnexpectedEOF else .ok data

/-- Embeds `ConsensusState.Unmarshal`: decodes `dAtA` into the message `m`. -/
def ConsensusState.Unmarshal (m : ConsensusState) (dAtA : Bytes) : Res ConsensusState :=
  (unmarshalDataLoop "ConsensusState" dAtA dAtA.length 0 m.Data).bind fun data => .ok ⟨data⟩

/-- Embeds `ClientMessage.Unmarshal`: decodes `dAtA` into the message `m`. -/
def ClientMessage.Unmarshal (m : ClientMessage) (dAtA : Bytes) : Res ClientMessage :=
  (unmarshalDataLoop "ClientMessage" dAtA dAtA.length 0 m.Data).bind fun data => .ok ⟨data⟩

/-- The loop of `ClientState.Unmarshal`: as above, with field 1 decoded into
`Data`, field 2 into `CodeHash`, and field 3 handed to the `Unmarshal` of the
latest height. -/
def ClientState.unmarshalLoop (hc : HeightCodec) (dAtA : Bytes) :
    Nat → Nat → ClientState → Res ClientState
  | 0, iNdEx, m =>
    if iNdEx < dAtA.length then .outOfFuel
    else if iNdEx > dAtA.length then .err ErrUnexpectedEOF else .ok m
  | fuel + 1, iNdEx, m =>
    if iNdEx < dAtA.length then
      (decodeVarint dAtA 10 0 iNdEx 0).bind fun tag =>
        if tag.1 &&& 0x7 = 4 then
          .err (endGroupForNonGroup "ClientState")
        else if fieldNumOf tag.1 = 0 ∨ fieldNumOf tag.1 ≥ 2 ^ 31 then
          .err (illegalTag "ClientState" tag.1)
        else if fieldNumOf tag.1 = 1 then
          if tag.1 &&& 0x7 ≠ 2 then .err (wrongWireType (tag.1 &&& 0x7) "Data")
          else
            (readLengthDelimited dAtA tag.2).bind fun r =>
              ClientState.unmarshalLoop hc dAtA fuel r.2 { m with Data := r.1 }
        else if fieldNumOf tag.1 = 2 then
          if tag.1 &&& 0x7 ≠ 2 then .err (wrongWireType (tag.1 &&& 0x7) "CodeHash")
          else
            (readLengthDelimited dAtA tag.2).bind fun r =>
              ClientState.unmarshalLoop hc dAtA fuel r.2 { m with CodeHash := r.1 }
        else if fieldNumOf tag.1 = 3 then
          if tag.1 &&& 0x7 ≠ 2 then .err (wrongWireType (tag.1 &&& 0x7) "LatestHeight")
          else
            (readLengthDelimited dAtA tag.2).bind fun r =>
              (hc.Unmarshal m.LatestHeight r.1).bind fun height =>
                ClientState.unmarshalLoop hc dAtA fuel r.2 { m with LatestHeight := height }
        else
          (skipUnknown dAtA iNdEx).bind fun i => ClientState.unmarshalLoop hc dAtA fuel i m
    else if iNdEx > dAtA.length then .err ErrUnexpectedEOF else .ok m

/-- Embeds `ClientState.Unmarshal`: decodes `dAtA` into the message `m`. -/
def ClientState.Unmarshal (hc : HeightCodec) (m : ClientState) (dAtA : Bytes) : Res ClientState :=
  ClientState.unmarshalLoop hc dAtA dAtA.length 0 m

/-- The little-endian base-128 encoding of `v`: seven bits per byte, low
group first, every byte but the last with the high bit set; `rounds` bounds
the number of continuation bytes (nine for a 64-bit value). -/
def varintBytes : Nat → Nat → Bytes
  | 0, v => [uint8 v]
  | rounds + 1, v =>
    if v ≥ 128 then uint8 (v % 128 + 128) :: varintBytes rounds (v / 128) else [uint8 v]

/-- The varint encoding of a 64-bit value. -/
def varint (v : Nat) : Bytes := varintBytes 9 v

/-- The buffer `d` with the bytes `xs` written at index `lo`. -/
def splice (d : Bytes) (lo : Nat) (xs : Bytes) : Bytes :=
  d.take lo ++ xs ++ d.drop (lo + xs.length)

/-- The wire form of a length-delimited field: the tag byte, the length of the
payload as a varint, and the payload. -/
def encField (tag : Fin 256) (payload : Bytes) : Bytes :=
  tag :: (varint payload.length ++ payload)

/-- The wire form of a bytes field, which is left out when empty. -/
def encBytesField (tag : Fin 256) (field : Bytes) : Bytes :=
  if field.length > 0 then encField tag field else []

/-- Whether a run returns to its caller, with a result or with an error,
rather than panicking or exhausting the bound on its rounds. -/
def Res.returns {α : Type} : Res α → Bool
  | .ok _ => true
  | .err _ => true
  | .panic => false
  | .outOfFuel => false

/-- A field that the decoders of the wasm messages do not know, with a payload
of one of the four wire types that carry one: a varint (wire type 0), eight
bytes (wire type 1), a length-delimited byte string (wire type 2) or four
bytes (wire type 5). -/
inductive UnknownField where
  | ofVarint (fieldNum value : Nat)
  | ofFixed64 (fieldNum : Nat) (payload : Bytes)
  | ofBytes (fieldNum : Nat) (payload : Bytes)
  | ofFixed32 (fieldNum : Nat) (payload : Bytes)
deriving Repr

/-- The number of the field. -/
def UnknownField.fieldNum : UnknownField → Nat
  | .ofVarint n _ => n
  | .ofFixed64 n _ => n
  | .ofBytes n _ => n
  | .ofFixed32 n _ => n

/-- The wire type of the field. -/
def UnknownField.wireType : UnknownField → Nat
  | .ofVarint _ _ => 0
  | .ofFixed64 _ _ => 1
  | .ofBytes _ _ => 2
  | .ofFixed32 _ _ => 5

/-- The bytes of the field behind its tag. -/
def UnknownField.payload : UnknownField → Bytes
  | .ofVarint _ v => varint v
  | .ofFixed64 _ p => p
  | .ofBytes _ p => varint p.length ++ p
  | .ofFixed32 _ p => p

/-- The wire form of the field: the tag `fieldNum << 3 | wireType` as a varint,
then the payload. -/
def UnknownField.encode (f : UnknownField) : Bytes :=
  varint (f.fieldNum <<< 3 ||| f.wireType) ++ f.payload

/-- Whether the wire form is that of a complete field: the number is positive
and fits an `int32`, a varint value has 64 bits, and the fixed payloads have
their eight and four bytes. -/
def UnknownField.complete : UnknownField → Bool
  | .ofVarint n v => decide (1 ≤ n ∧ n < 2 ^ 31 ∧ v < 2 ^ 64)
  | .ofFixed64 n p => decide (1 ≤ n ∧ n < 2 ^ 31 ∧ p.length = 8)
  | .ofBytes n _ => decide (1 ≤ n ∧ n < 2 ^ 31)
  | .ofFixed32 n p => decide (1 ≤ n ∧ n < 2 ^ 31 ∧ p.length = 4)

end wasm

/-! ## Transfer: conversion of v1 packet data (`transfer/internal/convert/convert.go`) -/

namespace v1types

/-- The ICS20 v1 packet data. -/
structure FungibleTokenPacketData where
  Denom : String
  Amount : String
  Sender : String
  Receiver : String
  Memo : String
deriving DecidableEq, Repr

/-- The trace of a v1 denomination: a path and a base denomination. -/
structure DenomTrace where
  Path : String
  BaseDenom : String
deriving DecidableEq, Repr

end v1types

namespace v3types

/-- A token of the v3 packet data: base denomination, amount and trace. -/
structure Token where
  Denom : String
  Amount : String
  Trace : List String
deriving DecidableEq, Repr

/-- The ICS20 v3 packet data. -/
structure FungibleTokenPacketData where
  Tokens : List Token
  Sender : String
  Receiver : String
  Memo : String
deriving DecidableEq, Repr

end v3types

namespace convert

/-- The functions of the packages `transfer/types` and `transfer/internal/denom`
that the conversion calls. Their sources are not part of the repository
snapshot, so they are parameters: `ValidateBasic` of the v1 packet data,
`ParseDenomTrace`, and `ExtractPathAndBaseFromFullDenom`. -/
structure Helpers where
  ValidateBasic : v1types.FungibleTokenPacketData → Except Error Unit
  ParseDenomTrace : String → v1types.DenomTrace
  ExtractPathAndBaseFromFullDenom : List String → List String × String

/-- The loop of `extractDenomAndTraceFromV1Denom` over a path slice of even
length: each two entries are joined by a slash into one trace entry. -/
def joinPairs : List String → List String
  | a :: b :: rest => (a ++ "/" ++ b) :: joinPairs rest
  | _ => []

/-- Embeds `extractDenomAndTraceFromV1Denom`: the base denomination and the
trace of a v1 denomination. It panics on a path slice of odd length; the panic
value, a string, is held as an error of that text. -/
def extractDenomAndTraceFromV1Denom (h : Helpers) (v1Denom : String) :
    Outcome (String × List String) :=
  let v1DenomTrace := h.ParseDenomTrace v1Denom
  let splitPath := v1Denom.splitOn "/"
  let pathSlice := (h.ExtractPathAndBaseFromFullDenom splitPath).1
  if pathSlice.length = 0 then .ret (v1DenomTrace.BaseDenom, [])
  else if pathSlice.length % 2 ≠ 0 then .panic (.sentinel "pathSlice length is not even")
  else .ret (v1DenomTrace.BaseDenom, joinPairs pathSlice)

/-- Embeds `ICS20V1ToV2`: a v1 packet data that fails `ValidateBasic` is a
panic with that error; otherwise the v3 packet data holds the one token. -/
def ICS20V1ToV2 (h : Helpers) (packetData : v1types.FungibleTokenPacketData) :
    Outcome v3types.FungibleTokenPacketData :=
  match h.ValidateBasic packetData with
  | .error err => .panic err
  | .ok _ =>
    match extractDenomAndTraceFromV1Denom h packetData.Denom with
    | .panic e => .panic e
    | .ret (v2Denom, trace) =>
      .ret {
        Tokens := [{ Denom := v2Denom, Amount := packetData.Amount, Trace := trace }]
        Sender := packetData.Sender
        Receiver := packetData.Receiver
        Memo := packetData.Memo }

end convert

/-! ## Transfer: the message server (`transfer/keeper/msg_server.go`) -/

/-- The error `sdkerrors.ErrUnauthorized` of the SDK. -/
def ErrUnauthorized : Error := .sentinel "unauthorized"

namespace transfer

/-- An amount of a denomination (`sdk.Coin`). -/
structure Coin where
  Denom : String
  Amount : Int
deriving DecidableEq, Repr

/-- The message `MsgTransfer`. -/
structure MsgTransfer where
  SourcePort : String
  SourceChannel : String
  Token : Coin
  Sender : String
  Receiver : String
  TimeoutHeight : Height
  TimeoutTimestamp : Nat
deriving DecidableEq, Repr

/-- The response `MsgTransferResponse`, which has no fields. -/
structure MsgTransferResponse where
deriving DecidableEq, Repr

/-- An attribute of an event: key and value. -/
structure Attribute where
  Key : String
  Value : String
deriving DecidableEq, Repr

/-- An event: its type (the field `Type`) and its attributes. -/
structure Event where
  Type_ : String
  Attributes : List Attribute
deriving DecidableEq, Repr

/-- The part of `sdk.Context` that a call can change: the state of the chain,
of type `σ`, and the events held by the event manager, oldest first. -/
structure Context (σ : Type) where
  state : σ
  events : List Event

/-- The collaborators of `Keeper.Transfer` that live outside `msg_server.go`:
the decoder of bech32 addresses into addresses of type `α`, the text of an
address, the bank keeper's list of blocked addresses, `Keeper.SendTransfer`
(which receives the context and returns the one it leaves behind), and the
names of the event types and attribute keys. -/
structure Keeper (σ α : Type) where
  AccAddressFromBech32 : String → Except Error α
  AddressString : α → String
  BlockedAddr : α → Bool
  SendTransfer :
    Context σ → String → String → Coin → α → String → Height → Nat → Except Error Unit × Context σ
  EventTypeTransfer : String
  AttributeKeySender : String
  AttributeKeyReceiver : String
  EventTypeMessage : String
  AttributeKeyModule : String
  ModuleName : String

/-- The two events that `Keeper.Transfer` emits. -/
def Keeper.transferEvents {σ α : Type} (k : Keeper σ α) (msg : MsgTransfer) : List Event :=
  [ { Type_ := k.EventTypeTransfer,
      Attributes := [⟨k.AttributeKeySender, msg.Sender⟩, ⟨k.AttributeKeyReceiver, msg.Receiver⟩] },
    { Type_ := k.EventTypeMessage,
      Attributes := [⟨k.AttributeKeyModule, k.ModuleName⟩] } ]

/-- Embeds `Keeper.Transfer`: decode the sender, reject a blocked sender, send
the transfer, and on success emit the two events. A nil response is `none` and
a nil error is `.ok ()`. The log line has no effect on the context and is left
out. -/
def Keeper.Transfer {σ α : Type} (k : Keeper σ α) (ctx : Context σ) (msg : MsgTransfer) :
    (Option MsgTransferResponse × Except Error Unit) × Context σ :=
  match k.AccAddressFromBech32 msg.Sender with
  | .error err => ((none, .error err), ctx)
  | .ok sender =>
    if k.BlockedAddr sender then
      ((none, .error (Wrap ErrUnauthorized
        (k.AddressString sender ++ " is not allowed to send funds"))), ctx)
    else
      match k.SendTransfer ctx msg.SourcePort msg.SourceChannel msg.Token sender msg.Receiver
          msg.TimeoutHeight msg.TimeoutTimestamp with
      | (.error err, ctx1) => ((none, .error err), ctx1)
      | (.ok _, ctx1) =>
        ((some {}, .ok ()), { ctx1 with events := ctx1.events ++ k.transferEvents msg })

end transfer

/-! ## Wasm light client: the shape and the value of a varint -/

namespace wasm

/-- Whether the bytes have the shape of one varint: every byte but the last has
its high bit set and the last has it clear. -/
def isVarint : Bytes → Bool
  | [] => false
  | [b] => decide (b.val < 0x80)
  | b :: c :: rest => decide (b.val ≥ 0x80) && isVarint (c :: rest)

/-- The value of the bytes of a varint: the sum of their 7-bit groups, the
first byte holding the lowest group. -/
def groupsValue : Bytes → Nat
  | [] => 0
  | b :: rest => b.val % 128 + 128 * groupsValue rest

end wasm

/-! ## Concrete inputs used to instantiate the theorems -/

/-- An identifier validator that accepts every identifier. -/
def acceptAnyIdentifier : String → Except Error Unit := fun _ => .ok ()

/-- Two well-formed signatures that share their signature bytes. -/
def headerEqualSignatures : DuplicateSignatureHeader :=
  ⟨"06-solomachine-0", 1, ⟨[1, 2], [3], 1, 10⟩, ⟨[1, 2], [4], 1, 10⟩⟩

/-- Two well-formed, distinct signatures over the same data. -/
def headerEqualData : DuplicateSignatureHeader :=
  ⟨"06-solomachine-0", 1, ⟨[1, 2], [3], 1, 10⟩, ⟨[7], [3], 2, 11⟩⟩

/-- Collaborators over a store that holds at most one client state: the store
accessor reads it, decoding reads the first byte as the sequence, validation
accepts, and the delegated methods succeed without writing. -/
def sampleCollaborators : Collaborators (Option ClientState) Unit Unit where
  UnmarshalClientState := fun bz =>
    match bz with
    | [] => .error (.sentinel "unexpected EOF")
    | b :: _ => .ok ⟨b.val, false, ⟨[], "", 1⟩⟩
  UnmarshalConsensusState := fun bz =>
    match bz with
    | [] => .error (.sentinel "unexpected EOF")
    | b :: _ => .ok ⟨[b], "", 1⟩
  Validate := fun _ => .ok ()
  ConsensusStateValidateBasic := fun _ => .ok ()
  Initialize := fun cs _ cons => (.ok (), some { cs with ConsensusState := cons })
  getClientState := fun store => store
  VerifyClientMessage := fun _ store _ => (.ok (), store)
  CheckForMisbehaviour := fun _ store _ => (false, store)
  UpdateStateOnMisbehaviour := fun cs _ _ => some { cs with IsFrozen := true }
  UpdateState := fun cs _ _ =>
    ([⟨0, cs.Sequence⟩], some { cs with Sequence := cs.Sequence + 1 })
  VerifyMembership := fun _ store _ _ _ _ _ _ => (.ok (), store)
  VerifyNonMembership := fun _ store _ _ _ _ _ => (.ok (), store)
  Status := fun cs store => (if cs.IsFrozen then .Frozen else .Active, store)
  GetLatestHeight := fun cs => ⟨0, cs.Sequence⟩
  GetTimestampAtHeight := fun cs store _ => ((cs.ConsensusState.Timestamp, .ok ()), store)
  CheckSubstituteAndUpdateState := fun cs _ substituteStore substitute =>
    (.ok (), some { cs with IsFrozen := false, ConsensusState := substitute.ConsensusState },
      substituteStore)
  ParseClientIdentifier := fun id =>
    if id = "06-solomachine-0" then .ok (Solomachine, 0)
    else if id = "06-solomachine-1" then .ok (Solomachine, 1)
    else if id = "07-tendermint-0" then .ok ("07-tendermint", 0)
    else .error (.sentinel "ErrInvalidClientIdentifier")

/-- Client stores holding a subject at sequence 5 and a substitute at the given
sequence; every other store is empty. -/
def sampleStores (substituteSequence : Nat) : ClientStores (Option ClientState) :=
  fun id =>
    if id = "06-solomachine-0" then some ⟨5, true, ⟨[1], "d", 1⟩⟩
    else if id = "06-solomachine-1" then some ⟨substituteSequence, false, ⟨[2], "d", 2⟩⟩
    else none

/-- A connection end in state `Open` whose single negotiated version supports
both orderings and whose counterparty connection is `connection-0`. -/
def sampleConnection : connectiontypes.ConnectionEnd :=
  ⟨"07-tendermint-0", [⟨"1", ["ORDER_ORDERED", "ORDER_UNORDERED"]⟩], .OPEN,
    ⟨"07-tendermint-0", "connection-0"⟩⟩

/-- An open, unordered channel over `connection-0` at the given upgrade
sequence. -/
def sampleChannel (upgradeSequence : Nat) : Channel :=
  ⟨.OPEN, .UNORDERED, ⟨"mock", "channel-0"⟩, ["connection-0"], "mock-version", upgradeSequence⟩

/-- A store with one channel (`mock`, `channel-0`) at the given upgrade
sequence, its connection, next send sequence 1, no upgrade and no error
receipt, at block height 1-10. -/
def sampleState (upgradeSequence : Nat) : KeeperState :=
  { channels := fun p c =>
      if p = "mock" ∧ c = "channel-0" then some (sampleChannel upgradeSequence) else none
    connections := fun id => if id = "connection-0" then some sampleConnection else none
    upgrades := fun _ _ => none
    nextSequenceSend := fun p c => if p = "mock" ∧ c = "channel-0" then some 1 else none
    upgradeErrors := fun _ _ => none
    selfHeight := ⟨1, 10⟩
    blockTime := 100 }

/-- A proof verifier that accepts every proof. -/
def acceptAll : ProofVerifier := ⟨fun _ _ _ _ _ _ => true, fun _ _ _ _ _ _ => true⟩

/-- The upgrade proposed by the counterparty: same ordering and connection, a
new version, timeout at height 1-100. -/
def sampleUpgrade : Upgrade :=
  ⟨⟨.UNORDERED, ["connection-0"], "mock-version-v2"⟩, ⟨⟨1, 100⟩, 0⟩, 0⟩

/-- The store after the local end has initialised the upgrade `sampleUpgrade`
from sequence 0: the channel is in `InitUpgrade` at sequence 1 and the upgrade
is stored (crossing hellos). -/
def sampleCrossingState : KeeperState :=
  WriteUpgradeInitChannel (sampleState 0) "mock" "channel-0" sampleUpgrade

/-- A store whose channel is in `InitUpgrade` at sequence 1 although no upgrade
is stored. -/
def sampleCrossingNoUpgrade : KeeperState :=
  (sampleState 0).SetChannel "mock" "channel-0"
    { sampleChannel 1 with State := .INITUPGRADE }

/-- A signature scheme given by a table: a signature is valid for a public key
over sign bytes exactly when the triple is listed. Public key `[1]` has signed
a header at sequence 5 (signature `[50]`), a header at sequence 6 (`[60]`), and
two different data at sequence 5 with timestamp 3 (`[71]`, `[72]`). Header data
is the new public key; the header data type is 9. -/
def sampleScheme : SignatureScheme where
  VerifySignature := fun publicKey signBytes signature =>
    [(([1] : Bytes), (⟨5, 10, "d", 9, [2]⟩ : SignBytes), ([50] : Bytes)),
     ([1], ⟨6, 10, "d", 9, [2]⟩, [60]),
     ([1], ⟨5, 3, "d", 1, [11]⟩, [71]),
     ([1], ⟨5, 3, "d", 1, [12]⟩, [72])].contains (publicKey, signBytes, signature)
  HEADER := 9
  HeaderData := fun newPublicKey _ => newPublicKey

/-- An active client at sequence 5 with public key `[1]`, diversifier `d` and
consensus timestamp 10. -/
def sampleClient : ClientState := ⟨5, false, ⟨[1], "d", 10⟩⟩

/-- The header signed at sequence 5 and timestamp 10, rotating to public key
`[2]` and diversifier `d2`. -/
def sampleHeader : Header := ⟨5, 10, [50], [2], "d2"⟩

/-- A header that claims sequence 5 but carries the signature made over
sequence 6. -/
def sampleHeaderSignedElsewhere : Header := ⟨5, 10, [60], [2], "d2"⟩

/-- Misbehaviour at sequence 5: two valid signatures over different data, both
with timestamp 3, older than the consensus timestamp 10. -/
def sampleMisbehaviour : DuplicateSignatureHeader :=
  ⟨"06-solomachine-0", 5, ⟨[71], [11], 1, 3⟩, ⟨[72], [12], 1, 3⟩⟩

/-- An attestation check for absence that accepts the proof `[1]` only. -/
def sampleAttestsAbsence : ClientState → Height → Nat → Nat → Bytes → Unit → Bool :=
  fun _ _ _ _ proof _ => decide (proof = [1])

/-- Base collaborators over client messages; the solo machine overrides the
store accessor, the verification of client messages, the state update and the
verification of non-membership. -/
def sampleBase : Collaborators (Option ClientState) ClientMessage Unit :=
  { sampleCollaborators with
    VerifyClientMessage := fun _ store _ => (.ok (), store)
    CheckForMisbehaviour := fun _ store _ => (false, store)
    UpdateStateOnMisbehaviour := fun cs _ _ => some { cs with IsFrozen := true }
    UpdateState := fun _ store _ => ([], store) }

/-- Client stores holding `sampleClient` under `06-solomachine-0`. -/
def sampleClientStores : ClientStores (Option ClientState) :=
  fun id => if id = "06-solomachine-0" then some sampleClient else none

/-- A signature with an empty signature field. -/
def sampleEmptySignature : SignatureAndData :=
  { Signature := [], Data := [1], DataType := 1, Timestamp := 10 }

/-- A wasm consensus state with three bytes of data. -/
def sampleWasmConsensusState : wasm.ConsensusState := ⟨[1, 2, 3]⟩

/-- A wasm client message with two bytes of data. -/
def sampleWasmClientMessage : wasm.ClientMessage := ⟨[4, 5]⟩

/-- A sample codec of heights: two bytes, one for each number. -/
def sampleHeightCodec : wasm.HeightCodec :=
  { Size := fun _ => 2
    Encode := fun h => .ok [wasm.uint8 h.RevisionNumber, wasm.uint8 h.RevisionHeight]
    Unmarshal := fun _ bz =>
      match bz with
      | [a, b] => .ok ⟨a.val, b.val⟩
      | _ => .err wasm.ErrUnexpectedEOF }

/-- A wasm client state with data, code hash and latest height. -/
def sampleWasmClientState : wasm.ClientState :=
  { Data := [1, 2, 3], CodeHash := [9, 9], LatestHeight := ⟨1, 7⟩ }

/-- An unknown field: number 5, four fixed bytes. -/
def sampleUnknownField : wasm.UnknownField := .ofFixed32 5 [1, 2, 3, 4]

/-- The wire form of a message whose data is `1, 2, 3`. -/
def sampleWire : Bytes := [0xa, 3, 1, 2, 3]

/-- A sample transfer keeper over a counter of sent transfers: addresses are
strings, the empty string does not decode, `blocked` is a blocked address, and
sending to the channel `closed` fails. -/
def sampleTransferKeeper : transfer.Keeper Nat String :=
  { AccAddressFromBech32 := fun s =>
      if s = "" then .error (.sentinel "empty address string is not allowed") else .ok s
    AddressString := fun a => a
    BlockedAddr := fun a => decide (a = "blocked")
    SendTransfer := fun ctx _ channel _ _ _ _ _ =>
      if channel = "closed" then (.error (.sentinel "channel is closed"), ctx)
      else (.ok (), { ctx with state := ctx.state + 1 })
    EventTypeTransfer := "ibc_transfer"
    AttributeKeySender := "sender"
    AttributeKeyReceiver := "receiver"
    EventTypeMessage := "message"
    AttributeKeyModule := "module"
    ModuleName := "transfer" }

/-- A transfer message of the given sender. -/
def sampleMsgTransfer (sender : String) : transfer.MsgTransfer :=
  { SourcePort := "transfer", SourceChannel := "channel-0", Token := ⟨"uatom", 100⟩,
    Sender := sender, Receiver := "bob", TimeoutHeight := ⟨1, 100⟩, TimeoutTimestamp := 0 }

/-- A context with no transfer sent and no event emitted. -/
def sampleContext : transfer.Context Nat := { state := 0, events := [] }

/-! ## Theorems -/

/-- An error is in its own chain. -/
theorem Error.is_self (e : Error) : e.Is e = true := by
  unfold Error.Is
  simp

/-- Wrapping keeps every error of the chain reachable. -/
theorem Error.is_wrap (c target : Error) (msg : String) (h : c.Is target = true) :
    (Wrap c msg).Is target = true := by
  unfold Wrap
  unfold Error.Is
  by_cases heq : Error.wrap c msg = target
  · simp [heq]
  · simp [heq, h]

/-- A wrapped sentinel is in the chain of its wrapper. -/
theorem Error.is_wrap_self (c : Error) (msg : String) : (Wrap c msg).Is c = true :=
  Error.is_wrap c c msg (Error.is_self c)

/-- C1: a header whose two signatures are byte-for-byte equal is never accepted:
`ValidateBasic` returns an error, and once the identifier, sequence and
per-signature checks have passed that error is `ErrInvalidMisbehaviour`. -/
theorem C1_equal_signatures_rejected
    (validator : String → Except Error Unit) (header : DuplicateSignatureHeader)
    (hsig : header.SignatureOne.Signature = header.SignatureTwo.Signature) :
    isError (header.ValidateBasic validator) = true ∧
    (validator header.ClientId = .ok () → header.Sequence ≠ 0 →
      header.SignatureOne.ValidateBasic = .ok () →
      header.SignatureTwo.ValidateBasic = .ok () →
      header.ValidateBasic validator =
        .error (Wrap ErrInvalidMisbehaviour "misbehaviour signatures cannot be equal") ∧
      failsWith (header.ValidateBasic validator) ErrInvalidMisbehaviour = true) := by
  constructor
  · unfold DuplicateSignatureHeader.ValidateBasic
    cases validator header.ClientId with
    | error e => rfl
    | ok u =>
      by_cases hs : header.Sequence = 0
      · simp [hs, isError]
      · cases h1 : header.SignatureOne.ValidateBasic with
        | error e => simp [hs, isError]
        | ok u1 =>
          cases h2 : header.SignatureTwo.ValidateBasic with
          | error e => simp [hs, isError]
          | ok u2 => simp [hs, hsig, isError]
  · intro hv hs h1 h2
    have hres : header.ValidateBasic validator =
        .error (Wrap ErrInvalidMisbehaviour "misbehaviour signatures cannot be equal") := by
      unfold DuplicateSignatureHeader.ValidateBasic
      simp [hv, hs, h1, h2, hsig]
    refine ⟨hres, ?_⟩
    rw [hres]
    exact Error.is_wrap_self _ _

/-- Witness of C1: a header with valid identifier, sequence 1 and two
well-formed signatures sharing the signature bytes `[1, 2]`. -/
theorem C1_equal_signatures_rejected_witness :
    headerEqualSignatures.SignatureOne.Signature = headerEqualSignatures.SignatureTwo.Signature ∧
    headerEqualSignatures.ValidateBasic acceptAnyIdentifier =
      .error (Wrap ErrInvalidMisbehaviour "misbehaviour signatures cannot be equal") :=
  ⟨rfl, ((C1_equal_signatures_rejected acceptAnyIdentifier headerEqualSignatures rfl).2
    rfl (by decide) rfl rfl).1⟩

/-- C2: a header whose two signatures sign byte-for-byte equal data is never
accepted, whatever the signatures, timestamps, data types, identifier and
sequence are: `ValidateBasic` returns an error; once the earlier checks have
passed and the signatures differ, that error is `ErrInvalidMisbehaviour`. -/
theorem C2_equal_data_rejected
    (validator : String → Except Error Unit) (header : DuplicateSignatureHeader)
    (hdata : header.SignatureOne.Data = header.SignatureTwo.Data) :
    isError (header.ValidateBasic validator) = true ∧
    (validator header.ClientId = .ok () → header.Sequence ≠ 0 →
      header.SignatureOne.ValidateBasic = .ok () →
      header.SignatureTwo.ValidateBasic = .ok () →
      header.SignatureOne.Signature ≠ header.SignatureTwo.Signature →
      header.ValidateBasic validator =
        .error (Wrap ErrInvalidMisbehaviour
          "misbehaviour signature data must be signed over different messages")) := by
  constructor
  · unfold DuplicateSignatureHeader.ValidateBasic
    cases validator header.ClientId with
    | error e => rfl
    | ok u =>
      by_cases hs : header.Sequence = 0
      · simp [hs, isError]
      · cases h1 : header.SignatureOne.ValidateBasic with
        | error e => simp [hs, isError]
        | ok u1 =>
          cases h2 : header.SignatureTwo.ValidateBasic with
          | error e => simp [hs, isError]
          | ok u2 =>
            by_cases hsig : header.SignatureOne.Signature = header.SignatureTwo.Signature
            · simp [hs, hsig, isError]
            · simp [hs, hsig, hdata, isError]
  · intro hv hs h1 h2 hsig
    unfold DuplicateSignatureHeader.ValidateBasic
    simp [hv, hs, h1, h2, hsig, hdata]

/-- Witness of C2: two distinct well-formed signatures over the data `[3]`. -/
theorem C2_equal_data_rejected_witness :
    headerEqualData.SignatureOne.Data = headerEqualData.SignatureTwo.Data ∧
    isError (headerEqualData.ValidateBasic acceptAnyIdentifier) = true ∧
    headerEqualData.ValidateBasic acceptAnyIdentifier =
      .error (Wrap ErrInvalidMisbehaviour
        "misbehaviour signature data must be signed over different messages") :=
  ⟨rfl, (C2_equal_data_rejected acceptAnyIdentifier headerEqualData rfl).1,
    (C2_equal_data_rejected acceptAnyIdentifier headerEqualData rfl).2
      rfl (by decide) rfl rfl (by decide)⟩

/-- C3: when subject and substitute are both stored solo machine clients and the
subject's sequence is greater than or equal to the substitute's, `RecoverClient`
fails with `ErrInvalidHeight`, leaves every store as it was, and does so
whatever `CheckSubstituteAndUpdateState` is (it is not invoked); when the
substitute's sequence strictly exceeds the subject's, the outcome is the one of
`CheckSubstituteAndUpdateState` on the two stores. -/
theorem C3_recover_requires_higher_substitute_sequence {σ μ π : Type}
    (lcm : Collaborators σ μ π) (ctx : ClientStores σ) (clientID substituteClientID : String)
    (n : Nat) (clientState substituteClient : ClientState)
    (hparse : lcm.ParseClientIdentifier substituteClientID = .ok (Solomachine, n))
    (hsubject : lcm.getClientState (ctx clientID) = some clientState)
    (hsubstitute : lcm.getClientState (ctx substituteClientID) = some substituteClient) :
    (clientState.Sequence ≥ substituteClient.Sequence →
      ∀ check : ClientState → σ → σ → ClientState → Except Error Unit × σ × σ,
        (∃ msg, LightClientModule.RecoverClient
            { lcm with CheckSubstituteAndUpdateState := check } ctx clientID substituteClientID =
          (.error (Wrap ErrInvalidHeight msg), ctx)) ∧
        failsWith (LightClientModule.RecoverClient
            { lcm with CheckSubstituteAndUpdateState := check } ctx clientID
            substituteClientID).1 ErrInvalidHeight = true) ∧
    (clientState.Sequence < substituteClient.Sequence →
      LightClientModule.RecoverClient lcm ctx clientID substituteClientID =
        ((lcm.CheckSubstituteAndUpdateState clientState (ctx clientID)
            (ctx substituteClientID) substituteClient).1,
          Function.update (Function.update ctx substituteClientID
            (lcm.CheckSubstituteAndUpdateState clientState (ctx clientID)
              (ctx substituteClientID) substituteClient).2.2) clientID
            (lcm.CheckSubstituteAndUpdateState clientState (ctx clientID)
              (ctx substituteClientID) substituteClient).2.1)) := by
  constructor
  · intro hge check
    have hres : LightClientModule.RecoverClient
          { lcm with CheckSubstituteAndUpdateState := check } ctx clientID substituteClientID =
        (.error (Wrap ErrInvalidHeight
          ("subject client state sequence is greater or equal to substitute client state sequence ("
            ++ toString clientState.Sequence ++ " >= "
            ++ toString substituteClient.Sequence ++ ")")), ctx) := by
      unfold LightClientModule.RecoverClient
      simp [hparse, hsubject, hsubstitute, hge]
    refine ⟨⟨_, hres⟩, ?_⟩
    rw [hres]
    exact Error.is_wrap_self _ _
  · intro hlt
    have hnot : ¬ clientState.Sequence ≥ substituteClient.Sequence := by omega
    unfold LightClientModule.RecoverClient
    simp only [hparse, hsubject, hsubstitute]
    simp [hnot]

/-- Witness of C3: a subject at sequence 5 against a substitute at sequence 5
(equality included) is rejected and the stores are untouched. -/
theorem C3_recover_requires_higher_substitute_sequence_witness :
    failsWith (LightClientModule.RecoverClient
        { sampleCollaborators with
          CheckSubstituteAndUpdateState := sampleCollaborators.CheckSubstituteAndUpdateState }
        (sampleStores 5) "06-solomachine-0" "06-solomachine-1").1 ErrInvalidHeight = true :=
  ((C3_recover_requires_higher_substitute_sequence sampleCollaborators (sampleStores 5)
    "06-solomachine-0" "06-solomachine-1" 1 ⟨5, true, ⟨[1], "d", 1⟩⟩ ⟨5, false, ⟨[2], "d", 2⟩⟩
    rfl rfl rfl).1 (by decide)
    sampleCollaborators.CheckSubstituteAndUpdateState).2

/-- C4: when no client state is stored under `clientID`, each of
`VerifyClientMessage`, `VerifyMembership`, `VerifyNonMembership` and
`TimestampAtHeight` returns the error `ErrClientNotFound` wrapped with the
client identifier, for every message, proof, path, value and height, and the
client stores are unchanged. -/
theorem C4_absent_client_not_found {σ μ π : Type}
    (lcm : Collaborators σ μ π) (ctx : ClientStores σ) (clientID : String)
    (habsent : lcm.getClientState (ctx clientID) = none)
    (clientMsg : μ) (height : Height) (delayTimePeriod delayBlockPeriod : Nat)
    (proof value : Bytes) (path : π) :
    LightClientModule.VerifyClientMessage lcm ctx clientID clientMsg =
      (.error (Wrap ErrClientNotFound clientID), ctx) ∧
    LightClientModule.VerifyMembership lcm ctx clientID height delayTimePeriod delayBlockPeriod
        proof path value = (.error (Wrap ErrClientNotFound clientID), ctx) ∧
    LightClientModule.VerifyNonMembership lcm ctx clientID height delayTimePeriod
        delayBlockPeriod proof path = (.error (Wrap ErrClientNotFound clientID), ctx) ∧
    LightClientModule.TimestampAtHeight lcm ctx clientID height =
      ((0, .error (Wrap ErrClientNotFound clientID)), ctx) ∧
    (Wrap ErrClientNotFound clientID).Is ErrClientNotFound = true := by
  refine ⟨?_, ?_, ?_, ?_, Error.is_wrap_self _ _⟩
  · unfold LightClientModule.VerifyClientMessage
    simp [habsent]
  · unfold LightClientModule.VerifyMembership
    simp [habsent]
  · unfold LightClientModule.VerifyNonMembership
    simp [habsent]
  · unfold LightClientModule.TimestampAtHeight
    simp [habsent]

/-- Witness of C4: no client is stored under `06-solomachine-9`. -/
theorem C4_absent_client_not_found_witness :
    LightClientModule.VerifyClientMessage sampleCollaborators (sampleStores 6)
        "06-solomachine-9" () =
      (.error (Wrap ErrClientNotFound "06-solomachine-9"), sampleStores 6) :=
  (C4_absent_client_not_found sampleCollaborators (sampleStores 6) "06-solomachine-9"
    (by decide) () ⟨0, 1⟩ 0 0 [] [] ()).1

/-- C5: `Initialize` validates before it writes. If the client-state bytes fail
to decode, the decoded client state fails `Validate`, the consensus-state bytes
fail to decode, or the decoded consensus state fails `ValidateBasic`, the call
returns that very error and the client stores are unchanged; only when all four
checks succeed is the client store handed to the client state's `Initialize`,
whose result and store are then the outcome. -/
theorem C5_initialize_validates_before_writing {σ μ π : Type}
    (lcm : Collaborators σ μ π) (ctx : ClientStores σ) (clientID : String)
    (clientStateBz consensusStateBz : Bytes) :
    (∀ err, lcm.UnmarshalClientState clientStateBz = .error err →
      LightClientModule.Initialize lcm ctx clientID clientStateBz consensusStateBz =
        (.error err, ctx)) ∧
    (∀ clientState err, lcm.UnmarshalClientState clientStateBz = .ok clientState →
      lcm.Validate clientState = .error err →
      LightClientModule.Initialize lcm ctx clientID clientStateBz consensusStateBz =
        (.error err, ctx)) ∧
    (∀ clientState err, lcm.UnmarshalClientState clientStateBz = .ok clientState →
      lcm.Validate clientState = .ok () →
      lcm.UnmarshalConsensusState consensusStateBz = .error err →
      LightClientModule.Initialize lcm ctx clientID clientStateBz consensusStateBz =
        (.error err, ctx)) ∧
    (∀ clientState consensusState err,
      lcm.UnmarshalClientState clientStateBz = .ok clientState →
      lcm.Validate clientState = .ok () →
      lcm.UnmarshalConsensusState consensusStateBz = .ok consensusState →
      lcm.ConsensusStateValidateBasic consensusState = .error err →
      LightClientModule.Initialize lcm ctx clientID clientStateBz consensusStateBz =
        (.error err, ctx)) ∧
    ((LightClientModule.Initialize lcm ctx clientID clientStateBz consensusStateBz).2 ≠ ctx →
      ∃ clientState consensusState,
        lcm.UnmarshalClientState clientStateBz = .ok clientState ∧
        lcm.Validate clientState = .ok () ∧
        lcm.UnmarshalConsensusState consensusStateBz = .ok consensusState ∧
        lcm.ConsensusStateValidateBasic consensusState = .ok () ∧
        LightClientModule.Initialize lcm ctx clientID clientStateBz consensusStateBz =
          ((lcm.Initialize clientState (ctx clientID) consensusState).1,
            Function.update ctx clientID
              (lcm.Initialize clientState (ctx clientID) consensusState).2)) := by
  refine ⟨?_, ?_, ?_, ?_, ?_⟩
  · intro err h1
    unfold LightClientModule.Initialize
    simp [h1]
  · intro clientState err h1 h2
    unfold LightClientModule.Initialize
    simp [h1, h2]
  · intro clientState err h1 h2 h3
    unfold LightClientModule.Initialize
    simp [h1, h2, h3]
  · intro clientState consensusState err h1 h2 h3 h4
    unfold LightClientModule.Initialize
    simp [h1, h2, h3, h4]
  · unfold LightClientModule.Initialize
    cases h1 : lcm.UnmarshalClientState clientStateBz with
    | error e => simp
    | ok clientState =>
      cases h2 : lcm.Validate clientState with
      | error e => simp [h2]
      | ok u2 =>
        cases h3 : lcm.UnmarshalConsensusState consensusStateBz with
        | error e => simp [h2, h3]
        | ok consensusState =>
          cases h4 : lcm.ConsensusStateValidateBasic consensusState with
          | error e => simp [h2, h3, h4]
          | ok u4 =>
            intro _
            refine ⟨clientState, consensusState, ?_, ?_, ?_, ?_, ?_⟩ <;>
              simp [h1, h2, h3, h4]

/-- Witness of C5: empty client-state bytes fail to decode, and the stores are
returned as they were. -/
theorem C5_initialize_validates_before_writing_witness :
    LightClientModule.Initialize sampleCollaborators (sampleStores 6) "06-solomachine-2" [] [1] =
      (.error (.sentinel "unexpected EOF"), sampleStores 6) :=
  (C5_initialize_validates_before_writing sampleCollaborators (sampleStores 6)
    "06-solomachine-2" [] [1]).1 (.sentinel "unexpected EOF") rfl

/-- C6 (what the code does): `VerifyUpgradeAndUpdateState` returns `nil` on every
input, leaving the stores as they are; it never returns an error. -/
theorem C6_verify_upgrade_returns_nil {σ μ π : Type}
    (lcm : Collaborators σ μ π) (ctx : ClientStores σ) (clientID : String)
    (newClient newConsState upgradeClientProof upgradeConsensusStateProof : Bytes) :
    LightClientModule.VerifyUpgradeAndUpdateState lcm ctx clientID newClient newConsState
        upgradeClientProof upgradeConsensusStateProof = (.ok (), ctx) ∧
    isError (LightClientModule.VerifyUpgradeAndUpdateState lcm ctx clientID newClient
        newConsState upgradeClientProof upgradeConsensusStateProof).1 = false :=
  ⟨rfl, rfl⟩

/-- C7: for a stored channel in state `Open`, proposing exactly its current
ordering, connection hops and version is rejected with `ErrInvalidUpgrade`, by
`ValidateUpgradeFields` and by `ChanUpgradeInit` (which returns the empty
upgrade), and the upgrade-init transition leaves the store as it was: the stored
channel keeps its state, fields and `UpgradeSequence`. -/
theorem C7_identical_fields_rejected
    (st : KeeperState) (portID channelID : String) (channel : Channel) (upgradeTimeout : Timeout)
    (hstored : st.channels portID channelID = some channel)
    (hopen : channel.State = .OPEN) :
    failsWith (ValidateUpgradeFields st
      ⟨channel.Ordering, channel.ConnectionHops, channel.Version⟩ channel)
      ErrInvalidUpgrade = true ∧
    (ChanUpgradeInit st portID channelID
      ⟨channel.Ordering, channel.ConnectionHops, channel.Version⟩ upgradeTimeout).1 =
      Upgrade.empty ∧
    failsWith (ChanUpgradeInit st portID channelID
      ⟨channel.Ordering, channel.ConnectionHops, channel.Version⟩ upgradeTimeout).2
      ErrInvalidUpgrade = true ∧
    (ChannelUpgradeInit st portID channelID
      ⟨channel.Ordering, channel.ConnectionHops, channel.Version⟩ upgradeTimeout).2 = st ∧
    (ChannelUpgradeInit st portID channelID
      ⟨channel.Ordering, channel.ConnectionHops, channel.Version⟩
      upgradeTimeout).2.channels portID channelID = some channel := by
  have hval : ValidateUpgradeFields st
      ⟨channel.Ordering, channel.ConnectionHops, channel.Version⟩ channel =
      .error (Wrap ErrInvalidUpgrade
        "existing channel end is identical to proposed upgrade channel end") := by
    unfold ValidateUpgradeFields extractUpgradeFields
    simp
  have hinit : ChanUpgradeInit st portID channelID
      ⟨channel.Ordering, channel.ConnectionHops, channel.Version⟩ upgradeTimeout =
      (Upgrade.empty, .error (Wrap ErrInvalidUpgrade
        "existing channel end is identical to proposed upgrade channel end")) := by
    unfold ChanUpgradeInit
    simp [hstored, hopen, hval]
  have hstep : (ChannelUpgradeInit st portID channelID
      ⟨channel.Ordering, channel.ConnectionHops, channel.Version⟩ upgradeTimeout).2 = st := by
    unfold ChannelUpgradeInit
    simp [hinit]
  refine ⟨?_, ?_, ?_, hstep, ?_⟩
  · rw [hval]
    exact Error.is_wrap_self _ _
  · rw [hinit]
  · rw [hinit]
    exact Error.is_wrap_self _ _
  · rw [hstep]
    exact hstored

/-- Witness of C7: the open channel at upgrade sequence 0, proposed its own
fields. -/
theorem C7_identical_fields_rejected_witness :
    (ChannelUpgradeInit (sampleState 0) "mock" "channel-0"
      ⟨.UNORDERED, ["connection-0"], "mock-version"⟩ ⟨⟨1, 100⟩, 0⟩).2.channels
      "mock" "channel-0" = some (sampleChannel 0) :=
  (C7_identical_fields_rejected (sampleState 0) "mock" "channel-0" (sampleChannel 0)
    ⟨⟨1, 100⟩, 0⟩ rfl rfl).2.2.2.2

/-- A successful `ChanUpgradeInit` returns the proposal it was given, found the
channel `Open`, and read the next send sequence. -/
theorem ChanUpgradeInit_ok (st : KeeperState) (portID channelID : String)
    (upgradeFields : UpgradeFields) (upgradeTimeout : Timeout)
    (hok : (ChanUpgradeInit st portID channelID upgradeFields upgradeTimeout).2 = .ok ()) :
    ∃ channel seq, st.channels portID channelID = some channel ∧ channel.State = .OPEN ∧
      ValidateUpgradeFields st upgradeFields channel = .ok () ∧
      st.nextSequenceSend portID channelID = some seq ∧
      ChanUpgradeInit st portID channelID upgradeFields upgradeTimeout =
        (⟨upgradeFields, upgradeTimeout, seq - 1⟩, .ok ()) := by
  unfold ChanUpgradeInit at hok ⊢
  cases hch : st.channels portID channelID with
  | none => simp [hch] at hok
  | some channel =>
    by_cases hopen : channel.State = .OPEN
    · cases hval : ValidateUpgradeFields st upgradeFields channel with
      | error e => simp [hch, hopen, hval] at hok
      | ok u =>
        cases hseq : st.nextSequenceSend portID channelID with
        | none => simp [hch, hopen, hval, hseq] at hok
        | some seq =>
          refine ⟨channel, seq, rfl, hopen, hval, rfl, ?_⟩
          simp [hopen, hval]
    · simp [hch, hopen] at hok

/-- C8: when `ChanUpgradeInit` accepts a proposal for a stored channel with
upgrade sequence `s` (the channel is then `Open`) and `WriteUpgradeInitChannel`
is applied to the returned upgrade, the stored channel has `UpgradeSequence`
`s + 1`, state `InitUpgrade`, and still its pre-upgrade version, ordering and
connection hops; the proposal is persisted as the channel's upgrade. -/
theorem C8_init_increments_sequence
    (st : KeeperState) (portID channelID : String) (channel : Channel)
    (upgradeFields : UpgradeFields) (upgradeTimeout : Timeout)
    (hstored : st.channels portID channelID = some channel)
    (hok : (ChanUpgradeInit st portID channelID upgradeFields upgradeTimeout).2 = .ok ()) :
    channel.State = .OPEN ∧
    (WriteUpgradeInitChannel st portID channelID
      (ChanUpgradeInit st portID channelID upgradeFields upgradeTimeout).1).channels
      portID channelID =
      some { channel with
        UpgradeSequence := channel.UpgradeSequence + 1
        State := .INITUPGRADE } ∧
    (WriteUpgradeInitChannel st portID channelID
      (ChanUpgradeInit st portID channelID upgradeFields upgradeTimeout).1).upgrades
      portID channelID =
      some (ChanUpgradeInit st portID channelID upgradeFields upgradeTimeout).1 ∧
    (ChanUpgradeInit st portID channelID upgradeFields upgradeTimeout).1.Fields =
      upgradeFields ∧
    (ChannelUpgradeInit st portID channelID upgradeFields upgradeTimeout).2 =
      WriteUpgradeInitChannel st portID channelID
        (ChanUpgradeInit st portID channelID upgradeFields upgradeTimeout).1 := by
  obtain ⟨channel', seq, hch, hopen, _, _, hres⟩ :=
    ChanUpgradeInit_ok st portID channelID upgradeFields upgradeTimeout hok
  have hsame : channel' = channel := by
    rw [hstored] at hch
    exact (Option.some.inj hch).symm
  subst hsame
  refine ⟨hopen, ?_, ?_, ?_, ?_⟩
  · unfold WriteUpgradeInitChannel
    simp [hstored, KeeperState.SetUpgrade, KeeperState.SetChannel]
  · unfold WriteUpgradeInitChannel
    simp [hstored, KeeperState.SetUpgrade, KeeperState.SetChannel]
  · rw [hres]
  · unfold ChannelUpgradeInit
    rw [hres]

/-- Witness of C8: from upgrade sequence 4 the stored channel reaches sequence
5 in state `InitUpgrade` with its version `mock-version` kept. -/
theorem C8_init_increments_sequence_witness :
    (WriteUpgradeInitChannel (sampleState 4) "mock" "channel-0"
      (ChanUpgradeInit (sampleState 4) "mock" "channel-0" sampleUpgrade.Fields
        sampleUpgrade.Timeout).1).channels "mock" "channel-0" =
      some ⟨.INITUPGRADE, .UNORDERED, ⟨"mock", "channel-0"⟩, ["connection-0"],
        "mock-version", 5⟩ :=
  (C8_init_increments_sequence (sampleState 4) "mock" "channel-0" (sampleChannel 4)
    sampleUpgrade.Fields sampleUpgrade.Timeout rfl rfl).2.1

/-- A failed `ChanUpgradeTry` returns the empty upgrade next to the error. -/
theorem ChanUpgradeTry.fail_fst (st : KeeperState) (portID channelID : String) (err : Error) :
    (ChanUpgradeTry.fail st portID channelID err).1 = (Upgrade.empty, .error err) := by
  unfold ChanUpgradeTry.fail
  cases GetErrorReceipt err <;> rfl

/-- Writing the initialised channel does not touch the next send sequences. -/
theorem WriteUpgradeInitChannel_nextSequenceSend (st : KeeperState) (portID channelID : String)
    (upgrade : Upgrade) :
    (WriteUpgradeInitChannel st portID channelID upgrade).nextSequenceSend =
      st.nextSequenceSend := by
  unfold WriteUpgradeInitChannel
  cases st.channels portID channelID <;> rfl

/-- The two shapes of the result of `ChanUpgradeTry`: the empty upgrade with an
error, or the accepted upgrade built from the proposal and the next send
sequence stored when the call was made. -/
theorem ChanUpgradeTry_result (v : ProofVerifier) (st : KeeperState) (portID channelID : String)
    (proposedConnectionHops : List String) (upgradeTimeout : Timeout)
    (counterpartyProposedUpgrade : Upgrade) (counterpartyUpgradeSequence : Nat)
    (proofCounterpartyChannel proofCounterpartyUpgrade : Bytes) (proofHeight : Height) :
    (∃ err, (ChanUpgradeTry v st portID channelID proposedConnectionHops upgradeTimeout
        counterpartyProposedUpgrade counterpartyUpgradeSequence proofCounterpartyChannel
        proofCounterpartyUpgrade proofHeight).1 = (Upgrade.empty, .error err)) ∨
    (∃ seq, st.nextSequenceSend portID channelID = some seq ∧
      (ChanUpgradeTry v st portID channelID proposedConnectionHops upgradeTimeout
        counterpartyProposedUpgrade counterpartyUpgradeSequence proofCounterpartyChannel
        proofCounterpartyUpgrade proofHeight).1 =
        (⟨⟨counterpartyProposedUpgrade.Fields.Ordering, proposedConnectionHops,
            counterpartyProposedUpgrade.Fields.Version⟩, upgradeTimeout, seq - 1⟩, .ok ())) := by
  unfold ChanUpgradeTry
  split
  · exact Or.inl ⟨_, ChanUpgradeTry.fail_fst _ _ _ _⟩
  · rename_i channel hch
    split
    · exact Or.inl ⟨_, ChanUpgradeTry.fail_fst _ _ _ _⟩
    · split
      · exact Or.inl ⟨_, ChanUpgradeTry.fail_fst _ _ _ _⟩
      · split
        · exact Or.inl ⟨_, ChanUpgradeTry.fail_fst _ _ _ _⟩
        · split
          · exact Or.inl ⟨_, ChanUpgradeTry.fail_fst _ _ _ _⟩
          · simp only []
            split
            · exact Or.inl ⟨_, ChanUpgradeTry.fail_fst _ _ _ _⟩
            · rename_i st1 hst1
              split
              · exact Or.inl ⟨_, ChanUpgradeTry.fail_fst _ _ _ _⟩
              · split
                · exact Or.inl ⟨_, ChanUpgradeTry.fail_fst _ _ _ _⟩
                · split
                  · exact Or.inl ⟨_, ChanUpgradeTry.fail_fst _ _ _ _⟩
                  · rename_i seq hseq
                    refine Or.inr ⟨seq, ?_, rfl⟩
                    have hsame : st1.nextSequenceSend = st.nextSequenceSend := by
                      split at hst1
                      · split at hst1
                        · exact absurd hst1 (by simp)
                        · rw [← Except.ok.inj hst1]
                          exact WriteUpgradeInitChannel_nextSequenceSend _ _ _ _
                      · split at hst1
                        · exact absurd hst1 (by simp)
                        · split at hst1
                          · exact absurd hst1 (by simp)
                          · rw [← Except.ok.inj hst1]
                    rw [← hsame]
                    exact hseq

/-- C9: whenever `ChanUpgradeTry` succeeds, the upgrade it returns carries the
proposed fields (the caller's connection hops with the ordering and version of
the counterparty's proposal it relays) and the caller's timeout, and its
`LatestSequenceSend` is the channel's stored next send sequence minus 1 at the
time of the call; whenever it fails, the returned upgrade is the empty value. -/
theorem C9_try_returns_accepted_upgrade (v : ProofVerifier) (st : KeeperState)
    (portID channelID : String) (proposedConnectionHops : List String) (upgradeTimeout : Timeout)
    (counterpartyProposedUpgrade : Upgrade) (counterpartyUpgradeSequence : Nat)
    (proofCounterpartyChannel proofCounterpartyUpgrade : Bytes) (proofHeight : Height) :
    ((ChanUpgradeTry v st portID channelID proposedConnectionHops upgradeTimeout
        counterpartyProposedUpgrade counterpartyUpgradeSequence proofCounterpartyChannel
        proofCounterpartyUpgrade proofHeight).1.2 = .ok () →
      (ChanUpgradeTry v st portID channelID proposedConnectionHops upgradeTimeout
        counterpartyProposedUpgrade counterpartyUpgradeSequence proofCounterpartyChannel
        proofCounterpartyUpgrade proofHeight).1.1.Fields =
        ⟨counterpartyProposedUpgrade.Fields.Ordering, proposedConnectionHops,
          counterpartyProposedUpgrade.Fields.Version⟩ ∧
      (ChanUpgradeTry v st portID channelID proposedConnectionHops upgradeTimeout
        counterpartyProposedUpgrade counterpartyUpgradeSequence proofCounterpartyChannel
        proofCounterpartyUpgrade proofHeight).1.1.Timeout = upgradeTimeout ∧
      ∃ nextSequenceSend, st.nextSequenceSend portID channelID = some nextSequenceSend ∧
        (ChanUpgradeTry v st portID channelID proposedConnectionHops upgradeTimeout
          counterpartyProposedUpgrade counterpartyUpgradeSequence proofCounterpartyChannel
          proofCounterpartyUpgrade proofHeight).1.1.LatestSequenceSend =
          nextSequenceSend - 1) ∧
    (∀ err, (ChanUpgradeTry v st portID channelID proposedConnectionHops upgradeTimeout
        counterpartyProposedUpgrade counterpartyUpgradeSequence proofCounterpartyChannel
        proofCounterpartyUpgrade proofHeight).1.2 = .error err →
      (ChanUpgradeTry v st portID channelID proposedConnectionHops upgradeTimeout
        counterpartyProposedUpgrade counterpartyUpgradeSequence proofCounterpartyChannel
        proofCounterpartyUpgrade proofHeight).1.1 = Upgrade.empty) := by
  rcases ChanUpgradeTry_result v st portID channelID proposedConnectionHops upgradeTimeout
    counterpartyProposedUpgrade counterpartyUpgradeSequence proofCounterpartyChannel
    proofCounterpartyUpgrade proofHeight with ⟨err, hres⟩ | ⟨seq, hseq, hres⟩
  · rw [hres]
    exact ⟨fun h => by simp at h, fun _ _ => rfl⟩
  · rw [hres]
    exact ⟨fun _ => ⟨rfl, rfl, seq, hseq, rfl⟩, fun _ h => by simp at h⟩

/-- Witness of C9: the open channel at upgrade sequence 0 with next send
sequence 1 accepts the counterparty's proposal made at sequence 1. -/
theorem C9_try_returns_accepted_upgrade_witness :
    (ChanUpgradeTry acceptAll (sampleState 0) "mock" "channel-0" ["connection-0"]
      ⟨⟨1, 200⟩, 0⟩ sampleUpgrade 1 [] [] ⟨1, 5⟩).1.1.Fields =
      ⟨.UNORDERED, ["connection-0"], "mock-version-v2"⟩ ∧
    (ChanUpgradeTry acceptAll (sampleState 0) "mock" "channel-0" ["connection-0"]
      ⟨⟨1, 200⟩, 0⟩ sampleUpgrade 1 [] [] ⟨1, 5⟩).1.1.Timeout = ⟨⟨1, 200⟩, 0⟩ ∧
    ∃ nextSequenceSend, (sampleState 0).nextSequenceSend "mock" "channel-0" =
        some nextSequenceSend ∧
      (ChanUpgradeTry acceptAll (sampleState 0) "mock" "channel-0" ["connection-0"]
        ⟨⟨1, 200⟩, 0⟩ sampleUpgrade 1 [] [] ⟨1, 5⟩).1.1.LatestSequenceSend =
        nextSequenceSend - 1 :=
  (C9_try_returns_accepted_upgrade acceptAll (sampleState 0) "mock" "channel-0"
    ["connection-0"] ⟨⟨1, 200⟩, 0⟩ sampleUpgrade 1 [] [] ⟨1, 5⟩).1 rfl

/-- With the channel stored, its connection open and both proofs verified,
`StartFlushUpgradeHandshake` answers a sequence mismatch with the typed upgrade
error at the higher of the two sequences. -/
theorem StartFlushUpgradeHandshake_mismatch (v : ProofVerifier) (st : KeeperState)
    (portID channelID : String) (proposedUpgradeFields : UpgradeFields)
    (counterpartyChannel channel : Channel) (counterpartyUpgrade : Upgrade)
    (proofCounterpartyChannel proofCounterpartyUpgrade : Bytes) (proofHeight : Height)
    (connection : connectiontypes.ConnectionEnd)
    (hstored : st.channels portID channelID = some channel)
    (hconn : GetConnectionOfHops st channel.ConnectionHops = .ok connection)
    (hopen : connection.State = .OPEN)
    (hproofChannel : v.VerifyChannelState connection proofHeight proofCounterpartyChannel
      channel.Counterparty.PortId channel.Counterparty.ChannelId counterpartyChannel = true)
    (hproofUpgrade : v.VerifyChannelUpgrade connection proofHeight proofCounterpartyUpgrade
      channel.Counterparty.PortId channel.Counterparty.ChannelId counterpartyUpgrade = true)
    (hne : counterpartyChannel.UpgradeSequence ≠ channel.UpgradeSequence) :
    StartFlushUpgradeHandshake v st portID channelID proposedUpgradeFields counterpartyChannel
      counterpartyUpgrade proofCounterpartyChannel proofCounterpartyUpgrade proofHeight =
      .error (NewUpgradeError (max counterpartyChannel.UpgradeSequence channel.UpgradeSequence)
        (Wrap ErrIncompatibleCounterpartyUpgrade
          "expected upgrade sequence to match counterparty upgrade sequence")) := by
  unfold StartFlushUpgradeHandshake
  simp [hstored, hconn, hopen, hproofChannel, hproofUpgrade, hne]

/-- C11: when `StartFlushUpgradeHandshake` reaches the comparison of the upgrade
sequences (channel stored, its connection open, both proofs verified) and the
local channel's sequence differs from the counterparty channel's, it fails with
the typed upgrade error whose sequence is max(local, counterparty), not that
maximum plus 1, and whose cause is `ErrIncompatibleCounterpartyUpgrade`. -/
theorem C11_start_flush_sequence_mismatch (v : ProofVerifier) (st : KeeperState)
    (portID channelID : String) (proposedUpgradeFields : UpgradeFields)
    (counterpartyChannel channel : Channel) (counterpartyUpgrade : Upgrade)
    (proofCounterpartyChannel proofCounterpartyUpgrade : Bytes) (proofHeight : Height)
    (connection : connectiontypes.ConnectionEnd)
    (hstored : st.channels portID channelID = some channel)
    (hconn : GetConnectionOfHops st channel.ConnectionHops = .ok connection)
    (hopen : connection.State = .OPEN)
    (hproofChannel : v.VerifyChannelState connection proofHeight proofCounterpartyChannel
      channel.Counterparty.PortId channel.Counterparty.ChannelId counterpartyChannel = true)
    (hproofUpgrade : v.VerifyChannelUpgrade connection proofHeight proofCounterpartyUpgrade
      channel.Counterparty.PortId channel.Counterparty.ChannelId counterpartyUpgrade = true)
    (hne : channel.UpgradeSequence ≠ counterpartyChannel.UpgradeSequence) :
    StartFlushUpgradeHandshake v st portID channelID proposedUpgradeFields
        counterpartyChannel counterpartyUpgrade proofCounterpartyChannel
        proofCounterpartyUpgrade proofHeight =
      .error (NewUpgradeError
        (max channel.UpgradeSequence counterpartyChannel.UpgradeSequence)
        (Wrap ErrIncompatibleCounterpartyUpgrade
          "expected upgrade sequence to match counterparty upgrade sequence")) ∧
    (Wrap ErrIncompatibleCounterpartyUpgrade
      "expected upgrade sequence to match counterparty upgrade sequence").Is
      ErrIncompatibleCounterpartyUpgrade = true ∧
    GetErrorReceipt (NewUpgradeError
        (max channel.UpgradeSequence counterpartyChannel.UpgradeSequence)
        (Wrap ErrIncompatibleCounterpartyUpgrade
          "expected upgrade sequence to match counterparty upgrade sequence")) =
      some ⟨max channel.UpgradeSequence counterpartyChannel.UpgradeSequence,
        "ErrIncompatibleCounterpartyUpgrade"⟩ ∧
    (∀ cause, StartFlushUpgradeHandshake v st portID channelID proposedUpgradeFields
        counterpartyChannel counterpartyUpgrade proofCounterpartyChannel
        proofCounterpartyUpgrade proofHeight ≠
        .error (NewUpgradeError
          (max channel.UpgradeSequence counterpartyChannel.UpgradeSequence + 1) cause)) := by
  have hres := StartFlushUpgradeHandshake_mismatch v st portID channelID proposedUpgradeFields
    counterpartyChannel channel counterpartyUpgrade proofCounterpartyChannel
    proofCounterpartyUpgrade proofHeight connection hstored hconn hopen hproofChannel
    hproofUpgrade (fun h => hne h.symm)
  rw [Nat.max_comm] at hres
  refine ⟨hres, Error.is_wrap_self _ _, rfl, ?_⟩
  intro cause hcontra
  rw [hres] at hcontra
  simp [NewUpgradeError] at hcontra

/-- Witness of C11: local sequence 2 against a counterparty channel at sequence
1 gives the upgrade error at sequence 2. -/
theorem C11_start_flush_sequence_mismatch_witness :
    StartFlushUpgradeHandshake acceptAll (sampleState 2) "mock" "channel-0"
        sampleUpgrade.Fields (sampleChannel 1) sampleUpgrade [] [] ⟨1, 5⟩ =
      .error (NewUpgradeError 2 (Wrap ErrIncompatibleCounterpartyUpgrade
        "expected upgrade sequence to match counterparty upgrade sequence")) :=
  (C11_start_flush_sequence_mismatch acceptAll (sampleState 2) "mock" "channel-0"
    sampleUpgrade.Fields (sampleChannel 1) (sampleChannel 2) sampleUpgrade [] [] ⟨1, 5⟩
    sampleConnection rfl rfl rfl rfl rfl (by decide)).1

/-- C13: in crossing hellos (the channel stored in `InitUpgrade`, its connection
open, the counterparty's timeout not passed), `ChanUpgradeTry` fails with the
plain error `ErrUpgradeNotFound` when no upgrade is stored, and with the plain
error `ErrInvalidUpgrade` whenever the proposed fields (the relayed ordering
and version with the caller's connection hops) are not exactly the fields of
the stored upgrade. In both cases the empty upgrade is returned, the error is
not a typed upgrade error (it has no error receipt) and the store is left as
it was. -/
theorem C13_crossing_hellos_rejections (v : ProofVerifier) (st : KeeperState)
    (portID channelID : String) (proposedConnectionHops : List String) (upgradeTimeout : Timeout)
    (counterpartyProposedUpgrade : Upgrade) (counterpartyUpgradeSequence : Nat)
    (proofCounterpartyChannel proofCounterpartyUpgrade : Bytes) (proofHeight : Height)
    (channel : Channel) (connectionEnd : connectiontypes.ConnectionEnd)
    (hstored : st.channels portID channelID = some channel)
    (hstate : channel.State = .INITUPGRADE)
    (hconn : GetConnectionOfHops st channel.ConnectionHops = .ok connectionEnd)
    (hconnOpen : connectionEnd.State = .OPEN)
    (htimeout : counterpartyProposedUpgrade.Timeout.HasPassed st = false) :
    (st.upgrades portID channelID = none →
      ChanUpgradeTry v st portID channelID proposedConnectionHops upgradeTimeout
        counterpartyProposedUpgrade counterpartyUpgradeSequence proofCounterpartyChannel
        proofCounterpartyUpgrade proofHeight =
        ((Upgrade.empty, .error (Wrap ErrUpgradeNotFound
          "current upgrade not found despite channel state being in INITUPGRADE")), st)) ∧
    (∀ upgrade, st.upgrades portID channelID = some upgrade →
      upgrade.Fields ≠ ⟨counterpartyProposedUpgrade.Fields.Ordering, proposedConnectionHops,
        counterpartyProposedUpgrade.Fields.Version⟩ →
      ChanUpgradeTry v st portID channelID proposedConnectionHops upgradeTimeout
        counterpartyProposedUpgrade counterpartyUpgradeSequence proofCounterpartyChannel
        proofCounterpartyUpgrade proofHeight =
        ((Upgrade.empty, .error (Wrap ErrInvalidUpgrade
          "upgrade fields are not equal to current upgrade fields in crossing hellos case")),
          st)) ∧
    (Wrap ErrUpgradeNotFound
      "current upgrade not found despite channel state being in INITUPGRADE").Is
      ErrUpgradeNotFound = true ∧
    (Wrap ErrInvalidUpgrade
      "upgrade fields are not equal to current upgrade fields in crossing hellos case").Is
      ErrInvalidUpgrade = true ∧
    GetErrorReceipt (Wrap ErrUpgradeNotFound
      "current upgrade not found despite channel state being in INITUPGRADE") = none ∧
    GetErrorReceipt (Wrap ErrInvalidUpgrade
      "upgrade fields are not equal to current upgrade fields in crossing hellos case") =
      none := by
  refine ⟨?_, ?_, Error.is_wrap_self _ _, Error.is_wrap_self _ _, rfl, rfl⟩
  · intro hnone
    unfold ChanUpgradeTry
    simp only [hstored, hconn, hconnOpen, htimeout, hstate, hnone]
    simp [ChanUpgradeTry.fail, GetErrorReceipt, Wrap]
  · intro upgrade hup hfields
    unfold ChanUpgradeTry
    simp only [hstored, hconn, hconnOpen, htimeout, hstate, hup]
    simp [hfields, ChanUpgradeTry.fail, GetErrorReceipt, Wrap]

/-- Witness of C13: with the upgrade `sampleUpgrade` stored, a try proposing the
connection hop `connection-9` instead is rejected with `ErrInvalidUpgrade`; and
with no upgrade stored the try is rejected with `ErrUpgradeNotFound`. -/
theorem C13_crossing_hellos_rejections_witness :
    ChanUpgradeTry acceptAll sampleCrossingState "mock" "channel-0" ["connection-9"]
        ⟨⟨1, 200⟩, 0⟩ sampleUpgrade 1 [] [] ⟨1, 5⟩ =
      ((Upgrade.empty, .error (Wrap ErrInvalidUpgrade
        "upgrade fields are not equal to current upgrade fields in crossing hellos case")),
        sampleCrossingState) ∧
    ChanUpgradeTry acceptAll sampleCrossingNoUpgrade "mock" "channel-0" ["connection-0"]
        ⟨⟨1, 200⟩, 0⟩ sampleUpgrade 1 [] [] ⟨1, 5⟩ =
      ((Upgrade.empty, .error (Wrap ErrUpgradeNotFound
        "current upgrade not found despite channel state being in INITUPGRADE")),
        sampleCrossingNoUpgrade) :=
  ⟨(C13_crossing_hellos_rejections acceptAll sampleCrossingState "mock" "channel-0"
      ["connection-9"] ⟨⟨1, 200⟩, 0⟩ sampleUpgrade 1 [] [] ⟨1, 5⟩
      ⟨.INITUPGRADE, .UNORDERED, ⟨"mock", "channel-0"⟩, ["connection-0"], "mock-version", 1⟩
      sampleConnection rfl rfl rfl rfl rfl).2.1 sampleUpgrade rfl (by decide),
    (C13_crossing_hellos_rejections acceptAll sampleCrossingNoUpgrade "mock" "channel-0"
      ["connection-0"] ⟨⟨1, 200⟩, 0⟩ sampleUpgrade 1 [] [] ⟨1, 5⟩
      ⟨.INITUPGRADE, .UNORDERED, ⟨"mock", "channel-0"⟩, ["connection-0"], "mock-version", 1⟩
      sampleConnection rfl rfl rfl rfl rfl).1 rfl⟩

/-- A typed upgrade error keeps the chain of its cause reachable. -/
theorem Error.is_upgradeError (seq : Nat) (c target : Error) (h : c.Is target = true) :
    (NewUpgradeError seq c).Is target = true := by
  unfold NewUpgradeError
  unfold Error.Is
  by_cases heq : Error.upgradeError seq c = target
  · simp [heq]
  · simp [heq, h]

/-- C14: with the channel stored and its connection open,
`StartFlushUpgradeHandshake` answers a failed inclusion proof of the
counterparty channel, or of the counterparty upgrade, with the plain error
`ErrInvalidProof` (no error receipt). Once both proofs verify and the sequences
match, it aborts with the typed upgrade error carrying the channel's current
upgrade sequence and `ErrIncompatibleCounterpartyUpgrade` whenever the proposed
ordering differs from the counterparty upgrade's ordering, or (the orderings
being equal and the proposed connection found open) the proposed connection's
counterparty connection identifier differs from the connection hop of the
counterparty's upgrade. -/
theorem C14_start_flush_aborts (v : ProofVerifier) (st : KeeperState)
    (portID channelID : String) (proposedUpgradeFields : UpgradeFields)
    (counterpartyChannel channel : Channel) (counterpartyUpgrade : Upgrade)
    (proofCounterpartyChannel proofCounterpartyUpgrade : Bytes) (proofHeight : Height)
    (connection : connectiontypes.ConnectionEnd)
    (hstored : st.channels portID channelID = some channel)
    (hconn : GetConnectionOfHops st channel.ConnectionHops = .ok connection)
    (hopen : connection.State = .OPEN) :
    (v.VerifyChannelState connection proofHeight proofCounterpartyChannel
        channel.Counterparty.PortId channel.Counterparty.ChannelId counterpartyChannel = false →
      StartFlushUpgradeHandshake v st portID channelID proposedUpgradeFields counterpartyChannel
        counterpartyUpgrade proofCounterpartyChannel proofCounterpartyUpgrade proofHeight =
        .error (Wrap ErrInvalidProof "failed to verify counterparty channel state")) ∧
    (v.VerifyChannelState connection proofHeight proofCounterpartyChannel
        channel.Counterparty.PortId channel.Counterparty.ChannelId counterpartyChannel = true →
      v.VerifyChannelUpgrade connection proofHeight proofCounterpartyUpgrade
        channel.Counterparty.PortId channel.Counterparty.ChannelId counterpartyUpgrade = false →
      StartFlushUpgradeHandshake v st portID channelID proposedUpgradeFields counterpartyChannel
        counterpartyUpgrade proofCounterpartyChannel proofCounterpartyUpgrade proofHeight =
        .error (Wrap ErrInvalidProof "failed to verify counterparty upgrade")) ∧
    (v.VerifyChannelState connection proofHeight proofCounterpartyChannel
        channel.Counterparty.PortId channel.Counterparty.ChannelId counterpartyChannel = true →
      v.VerifyChannelUpgrade connection proofHeight proofCounterpartyUpgrade
        channel.Counterparty.PortId channel.Counterparty.ChannelId counterpartyUpgrade = true →
      counterpartyChannel.UpgradeSequence = channel.UpgradeSequence →
      (proposedUpgradeFields.Ordering ≠ counterpartyUpgrade.Fields.Ordering →
        StartFlushUpgradeHandshake v st portID channelID proposedUpgradeFields
          counterpartyChannel counterpartyUpgrade proofCounterpartyChannel
          proofCounterpartyUpgrade proofHeight =
          .error (NewUpgradeError channel.UpgradeSequence
            (Wrap ErrIncompatibleCounterpartyUpgrade
              "expected upgrade ordering to match counterparty upgrade ordering"))) ∧
      (proposedUpgradeFields.Ordering = counterpartyUpgrade.Fields.Ordering →
        ∀ proposedConnection : connectiontypes.ConnectionEnd,
          GetConnectionOfHops st proposedUpgradeFields.ConnectionHops = .ok proposedConnection →
          proposedConnection.State = .OPEN →
          counterpartyUpgrade.Fields.ConnectionHops.head? ≠
            some proposedConnection.Counterparty.ConnectionId →
          StartFlushUpgradeHandshake v st portID channelID proposedUpgradeFields
            counterpartyChannel counterpartyUpgrade proofCounterpartyChannel
            proofCounterpartyUpgrade proofHeight =
            .error (NewUpgradeError channel.UpgradeSequence
              (Wrap ErrIncompatibleCounterpartyUpgrade
                "counterparty upgrade connection end is not a counterparty of the proposed connection")))) ∧
    (∀ msg, (Wrap ErrInvalidProof msg).Is ErrInvalidProof = true ∧
      GetErrorReceipt (Wrap ErrInvalidProof msg) = none) ∧
    (∀ msg, (NewUpgradeError channel.UpgradeSequence
        (Wrap ErrIncompatibleCounterpartyUpgrade msg)).Is
        ErrIncompatibleCounterpartyUpgrade = true ∧
      GetErrorReceipt (NewUpgradeError channel.UpgradeSequence
        (Wrap ErrIncompatibleCounterpartyUpgrade msg)) =
        some ⟨channel.UpgradeSequence, "ErrIncompatibleCounterpartyUpgrade"⟩) := by
  refine ⟨?_, ?_, ?_, ?_, ?_⟩
  · intro h1
    unfold StartFlushUpgradeHandshake
    simp [hstored, hconn, hopen, h1]
  · intro h1 h2
    unfold StartFlushUpgradeHandshake
    simp [hstored, hconn, hopen, h1, h2]
  · intro h1 h2 hseq
    constructor
    · intro hord
      unfold StartFlushUpgradeHandshake checkForUpgradeCompatibility
      simp [hstored, hconn, hopen, h1, h2, hseq, hord]
    · intro hord proposedConnection hpc hpopen hcp
      unfold StartFlushUpgradeHandshake checkForUpgradeCompatibility
      simp [hstored, hconn, hopen, h1, h2, hseq, hord, hpc, hpopen, hcp]
  · intro msg
    exact ⟨Error.is_wrap_self _ _, rfl⟩
  · intro msg
    refine ⟨?_, rfl⟩
    exact Error.is_upgradeError _ _ _ (Error.is_wrap_self _ _)

/-- Witness of C14: the local end proposes an ordered channel against the
counterparty's unordered proposal, both at sequence 1, and receives the upgrade
error at sequence 1. -/
theorem C14_start_flush_aborts_witness :
    StartFlushUpgradeHandshake acceptAll (sampleState 1) "mock" "channel-0"
        ⟨.ORDERED, ["connection-0"], "mock-version-v2"⟩ (sampleChannel 1) sampleUpgrade
        [] [] ⟨1, 5⟩ =
      .error (NewUpgradeError 1 (Wrap ErrIncompatibleCounterpartyUpgrade
        "expected upgrade ordering to match counterparty upgrade ordering")) :=
  ((C14_start_flush_aborts acceptAll (sampleState 1) "mock" "channel-0"
    ⟨.ORDERED, ["connection-0"], "mock-version-v2"⟩ (sampleChannel 1) (sampleChannel 1)
    sampleUpgrade [] [] ⟨1, 5⟩ sampleConnection rfl rfl rfl).2.2.1 rfl rfl rfl).1 (by decide)

/-- C15: `ValidateUpgradeFields` accepts a proposal exactly when it differs from
the channel's current fields and its first connection hop names a stored
connection that is `Open` and has at least one version whose features include
the proposed ordering. It returns an error when the connection is absent, is
not `Open`, has an empty version list, or has only versions that do not list
the proposed ordering. -/
theorem C15_validate_upgrade_fields (st : KeeperState) (proposedUpgrade : UpgradeFields)
    (currentChannel : Channel) :
    (ValidateUpgradeFields st proposedUpgrade currentChannel = .ok () ↔
      proposedUpgrade ≠ ⟨currentChannel.Ordering, currentChannel.ConnectionHops,
        currentChannel.Version⟩ ∧
      ∃ connectionID connection,
        proposedUpgrade.ConnectionHops.head? = some connectionID ∧
        st.connections connectionID = some connection ∧
        connection.State = .OPEN ∧
        ∃ version ∈ connection.Versions,
          proposedUpgrade.Ordering.String ∈ version.Features) ∧
    ((∀ connectionID, proposedUpgrade.ConnectionHops.head? = some connectionID →
        st.connections connectionID = none) →
      isError (ValidateUpgradeFields st proposedUpgrade currentChannel) = true) ∧
    (∀ connectionID connection, proposedUpgrade.ConnectionHops.head? = some connectionID →
      st.connections connectionID = some connection →
      (connection.State ≠ .OPEN ∨ connection.Versions = [] ∨
        (∀ version ∈ connection.Versions,
          proposedUpgrade.Ordering.String ∉ version.Features)) →
      isError (ValidateUpgradeFields st proposedUpgrade currentChannel) = true) := by
  have hiff : ValidateUpgradeFields st proposedUpgrade currentChannel = .ok () ↔
      proposedUpgrade ≠ ⟨currentChannel.Ordering, currentChannel.ConnectionHops,
        currentChannel.Version⟩ ∧
      ∃ connectionID connection,
        proposedUpgrade.ConnectionHops.head? = some connectionID ∧
        st.connections connectionID = some connection ∧
        connection.State = .OPEN ∧
        ∃ version ∈ connection.Versions,
          proposedUpgrade.Ordering.String ∈ version.Features := by
    unfold ValidateUpgradeFields extractUpgradeFields GetConnectionOfHops GetConnection
      supportsOrdering connectiontypes.VerifySupportedFeature
    by_cases hsame : proposedUpgrade = ⟨currentChannel.Ordering, currentChannel.ConnectionHops,
        currentChannel.Version⟩
    · simp [hsame]
    · cases hhead : proposedUpgrade.ConnectionHops.head? with
      | none => simp [hsame]
      | some connectionID =>
        cases hc : st.connections connectionID with
        | none => simp [hsame, hc]
        | some connection =>
          by_cases hopen : connection.State = .OPEN
          · simp [hsame, hc, hopen]
          · simp [hsame, hc, hopen]
  have herr : ∀ r : Except Error Unit, r ≠ .ok () → isError r = true := by
    intro r hr
    cases r with
    | error e => rfl
    | ok u => exact absurd rfl hr
  refine ⟨hiff, ?_, ?_⟩
  · intro habsent
    apply herr
    intro hok
    obtain ⟨_, connectionID, connection, hhead, hc, _⟩ := hiff.mp hok
    rw [habsent connectionID hhead] at hc
    simp at hc
  · intro connectionID connection hhead hc hbad
    apply herr
    intro hok
    obtain ⟨_, connectionID', connection', hhead', hc', hopen', version, hmem, hfeat⟩ :=
      hiff.mp hok
    rw [hhead] at hhead'
    have hid := Option.some.inj hhead'
    subst hid
    rw [hc] at hc'
    have hcn := Option.some.inj hc'
    subst hcn
    rcases hbad with hbad | hbad | hbad
    · exact hbad hopen'
    · rw [hbad] at hmem
      simp at hmem
    · exact hbad version hmem hfeat

/-- Witness of C15: in the sample store, changing only the version is accepted,
and a proposal over the absent connection `connection-100` is rejected. -/
theorem C15_validate_upgrade_fields_witness :
    ValidateUpgradeFields (sampleState 0) sampleUpgrade.Fields (sampleChannel 0) = .ok () ∧
    isError (ValidateUpgradeFields (sampleState 0)
      ⟨.UNORDERED, ["connection-100"], "mock-version-v2"⟩ (sampleChannel 0)) = true :=
  ⟨(C15_validate_upgrade_fields (sampleState 0) sampleUpgrade.Fields (sampleChannel 0)).1.mpr
      ⟨by decide, "connection-0", sampleConnection, rfl, rfl, rfl,
        ⟨"1", ["ORDER_ORDERED", "ORDER_UNORDERED"]⟩, by decide, by decide⟩,
    (C15_validate_upgrade_fields (sampleState 0)
      ⟨.UNORDERED, ["connection-100"], "mock-version-v2"⟩ (sampleChannel 0)).2.1
      (fun connectionID h => by
        have hid : connectionID = "connection-100" := (Option.some.inj h).symm
        subst hid
        rfl)⟩

/-- Verifying a client message through the module hands the solo machine's
stores back as they were and answers with the client state's verdict. -/
theorem soloMachine_VerifyClientMessage {π : Type} (scheme : SignatureScheme)
    (attestsAbsence : ClientState → Height → Nat → Nat → Bytes → π → Bool)
    (base : Collaborators (Option ClientState) ClientMessage π)
    (ctx : ClientStores (Option ClientState)) (clientID : String) (cs : ClientState)
    (clientMsg : ClientMessage) (hstored : ctx clientID = some cs) :
    LightClientModule.VerifyClientMessage (soloMachineCollaborators scheme attestsAbsence base)
      ctx clientID clientMsg = (cs.VerifyClientMessage scheme clientMsg, ctx) := by
  unfold LightClientModule.VerifyClientMessage soloMachineCollaborators
  simp [hstored]

/-- A header whose sequence is not the client's is rejected. -/
theorem verifyHeader_wrong_sequence (scheme : SignatureScheme) (cs : ClientState)
    (header : Header) (hne : header.Sequence ≠ cs.Sequence) :
    cs.verifyHeader scheme header =
      .error (Wrap ErrVerificationFailed
        "header sequence does not match the client state sequence") := by
  unfold ClientState.verifyHeader
  simp [hne]

/-- C17: for a stored solo machine client state and a header whose `Sequence`
differs from the client's current `Sequence`, `VerifyClientMessage` returns an
error (verification failed) and the client stores, the client state included,
are left unchanged. The same holds when the header's signature was produced
over sign bytes with a different sequence than the header's, a signature being
valid for the sign bytes it was produced over only. -/
theorem C17_wrong_sequence_rejected {π : Type} (scheme : SignatureScheme)
    (attestsAbsence : ClientState → Height → Nat → Nat → Bytes → π → Bool)
    (base : Collaborators (Option ClientState) ClientMessage π)
    (ctx : ClientStores (Option ClientState)) (clientID : String) (cs : ClientState)
    (header : Header) (hstored : ctx clientID = some cs) :
    (header.Sequence ≠ cs.Sequence →
      failsWith (LightClientModule.VerifyClientMessage
        (soloMachineCollaborators scheme attestsAbsence base) ctx clientID
        (.header header)).1 ErrVerificationFailed = true ∧
      (LightClientModule.VerifyClientMessage
        (soloMachineCollaborators scheme attestsAbsence base) ctx clientID
        (.header header)).2 = ctx ∧
      (LightClientModule.VerifyClientMessage
        (soloMachineCollaborators scheme attestsAbsence base) ctx clientID
        (.header header)).2 clientID = some cs) ∧
    (∀ signed : SignBytes,
      (∀ signBytes, scheme.VerifySignature cs.ConsensusState.PublicKey signBytes
        header.Signature = true → signBytes = signed) →
      signed.Sequence ≠ header.Sequence →
      failsWith (LightClientModule.VerifyClientMessage
        (soloMachineCollaborators scheme attestsAbsence base) ctx clientID
        (.header header)).1 ErrVerificationFailed = true ∧
      (LightClientModule.VerifyClientMessage
        (soloMachineCollaborators scheme attestsAbsence base) ctx clientID
        (.header header)).2 = ctx ∧
      (LightClientModule.VerifyClientMessage
        (soloMachineCollaborators scheme attestsAbsence base) ctx clientID
        (.header header)).2 clientID = some cs) := by
  have hmodule := soloMachine_VerifyClientMessage scheme attestsAbsence base ctx clientID cs
    (.header header) hstored
  constructor
  · intro hne
    rw [hmodule]
    refine ⟨?_, rfl, hstored⟩
    show failsWith (cs.verifyHeader scheme header) ErrVerificationFailed = true
    rw [verifyHeader_wrong_sequence scheme cs header hne]
    exact Error.is_wrap_self _ _
  · intro signed hunique hdiff
    rw [hmodule]
    refine ⟨?_, rfl, hstored⟩
    show failsWith (cs.verifyHeader scheme header) ErrVerificationFailed = true
    have hinvalid : scheme.VerifySignature cs.ConsensusState.PublicKey
        (HeaderSignBytes scheme cs header) header.Signature = false := by
      cases hv : scheme.VerifySignature cs.ConsensusState.PublicKey
          (HeaderSignBytes scheme cs header) header.Signature with
      | false => rfl
      | true =>
        have heq := hunique _ hv
        exact absurd (by rw [← heq]; rfl) hdiff
    unfold ClientState.verifyHeader
    split
    · exact Error.is_wrap_self _ _
    · split
      · exact Error.is_wrap_self _ _
      · split
        · exact Error.is_wrap_self _ _
        · split
          · exact Error.is_wrap_self _ _
          · rename_i hv
            simp [hinvalid] at hv

/-- Witness of C17: the client at sequence 5 rejects a header at sequence 6, and
rejects a header at sequence 5 that carries the signature made over sequence
6; the stores are unchanged. -/
theorem C17_wrong_sequence_rejected_witness :
    (failsWith (LightClientModule.VerifyClientMessage
        (soloMachineCollaborators sampleScheme sampleAttestsAbsence sampleBase)
        sampleClientStores "06-solomachine-0"
        (.header ⟨6, 10, [60], [2], "d2"⟩)).1 ErrVerificationFailed = true ∧
      (LightClientModule.VerifyClientMessage
        (soloMachineCollaborators sampleScheme sampleAttestsAbsence sampleBase)
        sampleClientStores "06-solomachine-0"
        (.header ⟨6, 10, [60], [2], "d2"⟩)).2 = sampleClientStores) ∧
    failsWith (LightClientModule.VerifyClientMessage
      (soloMachineCollaborators sampleScheme sampleAttestsAbsence sampleBase)
      sampleClientStores "06-solomachine-0"
      (.header sampleHeaderSignedElsewhere)).1 ErrVerificationFailed = true :=
  ⟨⟨((C17_wrong_sequence_rejected sampleScheme sampleAttestsAbsence sampleBase
        sampleClientStores "06-solomachine-0" sampleClient ⟨6, 10, [60], [2], "d2"⟩ rfl).1
        (by decide)).1,
      ((C17_wrong_sequence_rejected sampleScheme sampleAttestsAbsence sampleBase
        sampleClientStores "06-solomachine-0" sampleClient ⟨6, 10, [60], [2], "d2"⟩ rfl).1
        (by decide)).2.1⟩,
    ((C17_wrong_sequence_rejected sampleScheme sampleAttestsAbsence sampleBase
      sampleClientStores "06-solomachine-0" sampleClient sampleHeaderSignedElsewhere rfl).2
      ⟨6, 10, "d", 9, [2]⟩
      (fun signBytes h => by
        simp [sampleScheme, sampleClient, sampleHeaderSignedElsewhere] at h
        exact h)
      (by decide)).1⟩

/-- C18: `VerifyClientMessage` rejects every header whose `Timestamp` is less
than the timestamp of the client's current consensus state, whatever its
sequence and signature are; whereas a misbehaviour message is accepted whenever
the public key is present and both of its signatures verify, whatever the
timestamps of the signatures are, older than the consensus timestamp included. -/
theorem C18_header_timestamp_and_old_misbehaviour (scheme : SignatureScheme)
    (cs : ClientState) :
    (∀ header : Header, header.Timestamp < cs.ConsensusState.Timestamp →
      failsWith (cs.VerifyClientMessage scheme (.header header))
        ErrVerificationFailed = true) ∧
    (∀ misbehaviour : DuplicateSignatureHeader,
      cs.ConsensusState.PublicKey ≠ [] →
      scheme.VerifySignature cs.ConsensusState.PublicKey
        ⟨misbehaviour.Sequence, misbehaviour.SignatureOne.Timestamp,
          cs.ConsensusState.Diversifier, misbehaviour.SignatureOne.DataType,
          misbehaviour.SignatureOne.Data⟩ misbehaviour.SignatureOne.Signature = true →
      scheme.VerifySignature cs.ConsensusState.PublicKey
        ⟨misbehaviour.Sequence, misbehaviour.SignatureTwo.Timestamp,
          cs.ConsensusState.Diversifier, misbehaviour.SignatureTwo.DataType,
          misbehaviour.SignatureTwo.Data⟩ misbehaviour.SignatureTwo.Signature = true →
      cs.VerifyClientMessage scheme (.misbehaviour misbehaviour) = .ok ()) := by
  constructor
  · intro header hlt
    show failsWith (cs.verifyHeader scheme header) ErrVerificationFailed = true
    unfold ClientState.verifyHeader
    split
    · exact Error.is_wrap_self _ _
    · exact Error.is_wrap_self _ _
  · intro misbehaviour hkey h1 h2
    show cs.verifyMisbehaviour scheme misbehaviour = .ok ()
    unfold ClientState.verifyMisbehaviour ClientState.verifySignatureAndData
      MisbehaviourSignBytes
    simp [hkey, h1, h2]

/-- Witness of C18: the client with consensus timestamp 10 rejects a header at
timestamp 9, and accepts the misbehaviour whose two signatures carry timestamp
3. -/
theorem C18_header_timestamp_and_old_misbehaviour_witness :
    failsWith (sampleClient.VerifyClientMessage sampleScheme
      (.header ⟨5, 9, [50], [2], "d2"⟩)) ErrVerificationFailed = true ∧
    sampleMisbehaviour.SignatureOne.Timestamp < sampleClient.ConsensusState.Timestamp ∧
    sampleMisbehaviour.SignatureTwo.Timestamp < sampleClient.ConsensusState.Timestamp ∧
    sampleClient.VerifyClientMessage sampleScheme (.misbehaviour sampleMisbehaviour) = .ok () :=
  ⟨(C18_header_timestamp_and_old_misbehaviour sampleScheme sampleClient).1
      ⟨5, 9, [50], [2], "d2"⟩ (by decide),
    by decide, by decide,
    (C18_header_timestamp_and_old_misbehaviour sampleScheme sampleClient).2
      sampleMisbehaviour (by decide) rfl rfl⟩

/-- C19: replay protection. A header is verified at client sequence n through
the module and applied by `UpdateState`; then the stored client is at sequence
n + 1, and verifying any header with the same sequence again (the same header,
with its signature, included) fails, the sequence no longer matching. -/
theorem C19_replay_protection {π : Type} (scheme : SignatureScheme)
    (attestsAbsence : ClientState → Height → Nat → Nat → Bytes → π → Bool)
    (base : Collaborators (Option ClientState) ClientMessage π)
    (ctx : ClientStores (Option ClientState)) (clientID : String) (cs : ClientState)
    (header replay : Header) (hstored : ctx clientID = some cs)
    (hverified : (LightClientModule.VerifyClientMessage
      (soloMachineCollaborators scheme attestsAbsence base) ctx clientID
      (.header header)).1 = .ok ())
    (hsame : replay.Sequence = header.Sequence) :
    header.Sequence = cs.Sequence ∧
    (∃ applied, (LightClientModule.UpdateState
        (soloMachineCollaborators scheme attestsAbsence base)
        (LightClientModule.VerifyClientMessage
          (soloMachineCollaborators scheme attestsAbsence base) ctx clientID
          (.header header)).2 clientID (.header header)).2 clientID = some applied ∧
      applied.Sequence = cs.Sequence + 1) ∧
    failsWith (LightClientModule.VerifyClientMessage
      (soloMachineCollaborators scheme attestsAbsence base)
      (LightClientModule.UpdateState
        (soloMachineCollaborators scheme attestsAbsence base)
        (LightClientModule.VerifyClientMessage
          (soloMachineCollaborators scheme attestsAbsence base) ctx clientID
          (.header header)).2 clientID (.header header)).2
      clientID (.header replay)).1 ErrVerificationFailed = true := by
  have hmodule := soloMachine_VerifyClientMessage scheme attestsAbsence base ctx clientID cs
    (.header header) hstored
  rw [hmodule] at hverified ⊢
  have hverify : cs.verifyHeader scheme header = .ok () := hverified
  have hseq : header.Sequence = cs.Sequence := by
    unfold ClientState.verifyHeader at hverify
    by_contra hne
    simp [hne] at hverify
  have hupdated : (LightClientModule.UpdateState
      (soloMachineCollaborators scheme attestsAbsence base) ctx clientID
      (.header header)).2 clientID = some (update cs header).1 := by
    unfold LightClientModule.UpdateState soloMachineCollaborators
    simp [hstored]
  refine ⟨hseq, ⟨_, hupdated, rfl⟩, ?_⟩
  rw [soloMachine_VerifyClientMessage scheme attestsAbsence base _ clientID
    (update cs header).1 (.header replay) hupdated]
  show failsWith ((update cs header).1.verifyHeader scheme replay) ErrVerificationFailed = true
  rw [verifyHeader_wrong_sequence scheme _ replay (by simp [update, hsame, hseq])]
  exact Error.is_wrap_self _ _

/-- Witness of C19: the header signed at sequence 5 is verified and applied; the
same header is then rejected. -/
theorem C19_replay_protection_witness :
    failsWith (LightClientModule.VerifyClientMessage
      (soloMachineCollaborators sampleScheme sampleAttestsAbsence sampleBase)
      (LightClientModule.UpdateState
        (soloMachineCollaborators sampleScheme sampleAttestsAbsence sampleBase)
        (LightClientModule.VerifyClientMessage
          (soloMachineCollaborators sampleScheme sampleAttestsAbsence sampleBase)
          sampleClientStores "06-solomachine-0" (.header sampleHeader)).2
        "06-solomachine-0" (.header sampleHeader)).2
      "06-solomachine-0" (.header sampleHeader)).1 ErrVerificationFailed = true :=
  (C19_replay_protection sampleScheme sampleAttestsAbsence sampleBase sampleClientStores
    "06-solomachine-0" sampleClient sampleHeader sampleHeader rfl rfl rfl).2.2

/-! ### The wasm codec -/

namespace wasm

@[simp] theorem Res.bind_ok {α β : Type} (a : α) (f : α → Res β) : (Res.ok a).bind f = f a := rfl
@[simp] theorem Res.bind_err {α β : Type} (e : Error) (f : α → Res β) :
    (Res.err e : Res α).bind f = .err e := rfl
@[simp] theorem Res.bind_panic {α β : Type} (f : α → Res β) :
    (Res.panic : Res α).bind f = .panic := rfl
@[simp] theorem Res.bind_outOfFuel {α β : Type} (f : α → Res β) :
    (Res.outOfFuel : Res α).bind f = .outOfFuel := rfl

theorem Res.bind_eq_ok {α β : Type} {r : Res α} {f : α → Res β} {b : β}
    (h : r.bind f = .ok b) : ∃ a, r = .ok a ∧ f a = .ok b := by
  cases r with
  | ok a => exact ⟨a, rfl, h⟩
  | err e => simp at h
  | panic => simp at h
  | outOfFuel => simp at h

theorem uint8_val (v : Nat) (h : v < 256) : (uint8 v).val = v := by
  unfold uint8
  simp [Fin.ofNat, Nat.mod_eq_of_lt h]

theorem and_7f (n : Nat) : n &&& 0x7F = n % 128 :=
  Nat.and_pow_two_sub_one_eq_mod n 7

theorem and_7 (n : Nat) : n &&& 0x7 = n % 8 :=
  Nat.and_pow_two_sub_one_eq_mod n 3

theorem or_80 (r : Nat) (h : r < 128) : r ||| 0x80 = r + 128 := by
  have := Nat.mul_add_lt_is_or (i := 7) (b := r) h 1
  rw [Nat.lor_comm]
  simpa [Nat.add_comm] using this.symm

theorem or_shift (x c shift : Nat) (hx : x < 2 ^ shift) :
    x ||| (c <<< shift) = x + c * 2 ^ shift := by
  have := Nat.mul_add_lt_is_or (i := shift) (b := x) hx c
  rw [Nat.lor_comm, Nat.shiftLeft_eq, Nat.mul_comm c, ← this, Nat.add_comm]

theorem lenBits_le : ∀ (rounds m x : Nat), x < 2 ^ m → lenBits rounds x ≤ m := by
  intro rounds
  induction rounds with
  | zero => intro m x _; simp [lenBits]
  | succ r ih =>
    intro m x hx
    unfold lenBits
    split
    · omega
    · rename_i hx0
      cases m with
      | zero => simp at hx; omega
      | succ m =>
        have : x / 2 < 2 ^ m := by
          rw [Nat.div_lt_iff_lt_mul (by decide)]
          rw [Nat.pow_succ] at hx
          exact hx
        have := ih m (x / 2) this
        omega

theorem lt_lenBits : ∀ (rounds lo x : Nat), lo < rounds → 2 ^ lo ≤ x → lo < lenBits rounds x := by
  intro rounds
  induction rounds with
  | zero => intro lo x h; omega
  | succ r ih =>
    intro lo x hlo hx
    have hpos : 0 < 2 ^ lo := Nat.two_pow_pos lo
    unfold lenBits
    split
    · omega
    · cases lo with
      | zero => omega
      | succ lo =>
        have : 2 ^ lo ≤ x / 2 := by
          rw [Nat.le_div_iff_mul_le (by decide)]
          rw [Nat.pow_succ] at hx
          exact hx
        have := ih lo (x / 2) (by omega) this
        omega

theorem or_one_lt (v m : Nat) (hm : 0 < m) (h : v < 2 ^ m) : v ||| 1 < 2 ^ m := by
  apply Nat.or_lt_two_pow h
  calc 1 < 2 ^ 1 := by decide
    _ ≤ 2 ^ m := Nat.pow_le_pow_right (by decide) hm

theorem or_one_eq (v : Nat) : v ||| 1 = 2 * (v / 2) + 1 := by
  have e := Nat.mul_add_lt_is_or (i := 1) (b := v % 2) (Nat.mod_lt _ (by decide)) (v / 2)
  have e1 := Nat.mul_add_lt_is_or (i := 1) (b := 1) (by decide) (v / 2)
  have hv : v = 2 ^ 1 * (v / 2) + v % 2 := (Nat.div_add_mod v 2).symm
  have hb : v % 2 ||| 1 = 1 := by
    rcases Nat.mod_two_eq_zero_or_one v with h | h <;> rw [h] <;> rfl
  calc v ||| 1 = (2 ^ 1 * (v / 2) + v % 2) ||| 1 := by rw [← hv]
    _ = 2 ^ 1 * (v / 2) ||| (v % 2 ||| 1) := by rw [e, Nat.lor_assoc]
    _ = 2 ^ 1 * (v / 2) + 1 := by rw [hb, ← e1]
    _ = 2 * (v / 2) + 1 := by simp

theorem le_or_one (v : Nat) : v ≤ v ||| 1 := by
  rw [or_one_eq]; omega

theorem one_le_or_one (v : Nat) : 1 ≤ v ||| 1 := by
  rw [or_one_eq]; omega

/-- The encoding width by range: a value in the `k`-th seven-bit range takes
`k + 1` bytes. -/
theorem sovWasm_of_range (k v : Nat) (hk : k ≤ 9) (hv : v < 2 ^ 64)
    (hhi : v < 2 ^ (7 * (k + 1))) (hlo : k = 0 ∨ 2 ^ (7 * k) ≤ v) : sovWasm v = k + 1 := by
  unfold sovWasm Len64
  have hup : lenBits 64 (v ||| 1) ≤ 7 * (k + 1) :=
    lenBits_le 64 _ _ (or_one_lt v _ (by omega) hhi)
  have hup2 : lenBits 64 (v ||| 1) ≤ 64 := lenBits_le 64 _ _ (or_one_lt v _ (by omega) hv)
  have hlow : 7 * k < lenBits 64 (v ||| 1) := by
    rcases hlo with h0 | h
    · subst h0
      exact lt_lenBits 64 0 _ (by omega) (by simpa using one_le_or_one v)
    · exact lt_lenBits 64 (7 * k) _ (by omega) (Nat.le_trans h (le_or_one v))
  omega

theorem varintBytes_length_of_range : ∀ (k rounds v : Nat), k ≤ rounds →
    v < 2 ^ (7 * (k + 1)) → (k = 0 ∨ 2 ^ (7 * k) ≤ v) →
    (varintBytes rounds v).length = k + 1 := by
  intro k
  induction k with
  | zero =>
    intro rounds v _ hhi _
    have : v < 128 := by simpa using hhi
    cases rounds with
    | zero => simp [varintBytes]
    | succ r => simp [varintBytes, Nat.not_le.mpr this]
  | succ k ih =>
    intro rounds v hr hhi hlo
    have hlo2 : 2 ^ (7 * (k + 1)) ≤ v := by
      rcases hlo with h | h
      · omega
      · exact h
    have h128 : 128 ≤ v := by
      have : 2 ^ 7 ≤ 2 ^ (7 * (k + 1)) := Nat.pow_le_pow_right (by decide) (by omega)
      have h7 : (2:Nat) ^ 7 = 128 := by decide
      omega
    cases rounds with
    | zero => omega
    | succ r =>
      have e1 : 7 * (k + 1 + 1) = 7 * (k + 1) + 7 := by ring
      have e2 : 7 * (k + 1) = 7 * k + 7 := by ring
      have hd : v / 128 < 2 ^ (7 * (k + 1)) := by
        rw [Nat.div_lt_iff_lt_mul (by decide)]
        rw [e1, Nat.pow_add] at hhi
        simpa using hhi
      have hl : k = 0 ∨ 2 ^ (7 * k) ≤ v / 128 := by
        right
        rw [Nat.le_div_iff_mul_le (by decide)]
        rw [e2, Nat.pow_add] at hlo2
        simpa using hlo2
      have := ih r (v / 128) (by omega) hd hl
      simp [varintBytes, h128, this]

theorem exists_range (v : Nat) (hv : v < 2 ^ 64) :
    ∃ k, k ≤ 9 ∧ v < 2 ^ (7 * (k + 1)) ∧ (k = 0 ∨ 2 ^ (7 * k) ≤ v) := by
  by_cases h0 : v < 2 ^ (7 * (0 + 1))
  · exact ⟨0, by omega, h0, Or.inl rfl⟩
  by_cases h1 : v < 2 ^ (7 * (1 + 1))
  · exact ⟨1, by omega, h1, Or.inr (Nat.le_of_not_lt h0)⟩
  by_cases h2 : v < 2 ^ (7 * (2 + 1))
  · exact ⟨2, by omega, h2, Or.inr (Nat.le_of_not_lt h1)⟩
  by_cases h3 : v < 2 ^ (7 * (3 + 1))
  · exact ⟨3, by omega, h3, Or.inr (Nat.le_of_not_lt h2)⟩
  by_cases h4 : v < 2 ^ (7 * (4 + 1))
  · exact ⟨4, by omega, h4, Or.inr (Nat.le_of_not_lt h3)⟩
  by_cases h5 : v < 2 ^ (7 * (5 + 1))
  · exact ⟨5, by omega, h5, Or.inr (Nat.le_of_not_lt h4)⟩
  by_cases h6 : v < 2 ^ (7 * (6 + 1))
  · exact ⟨6, by omega, h6, Or.inr (Nat.le_of_not_lt h5)⟩
  by_cases h7 : v < 2 ^ (7 * (7 + 1))
  · exact ⟨7, by omega, h7, Or.inr (Nat.le_of_not_lt h6)⟩
  by_cases h8 : v < 2 ^ (7 * (8 + 1))
  · exact ⟨8, by omega, h8, Or.inr (Nat.le_of_not_lt h7)⟩
  · refine ⟨9, by omega, ?_, Or.inr (Nat.le_of_not_lt h8)⟩
    exact Nat.lt_of_lt_of_le hv (Nat.pow_le_pow_right (by decide) (by omega))

/-- The function `sovWasm` counts the bytes of the varint encoding. -/
theorem sovWasm_eq_length (v : Nat) (hv : v < 2 ^ 64) : sovWasm v = (varint v).length := by
  obtain ⟨k, hk, hhi, hlo⟩ := exists_range v hv
  rw [sovWasm_of_range k v hk hv hhi hlo]
  exact (varintBytes_length_of_range k 9 v hk hhi hlo).symm

theorem sovWasm_pos (v : Nat) (hv : v < 2 ^ 64) : 1 ≤ sovWasm v := by
  obtain ⟨k, hk, hhi, hlo⟩ := exists_range v hv
  rw [sovWasm_of_range k v hk hv hhi hlo]
  omega

theorem splice_length (d : Bytes) (lo : Nat) (xs : Bytes) (h : lo + xs.length ≤ d.length) :
    (splice d lo xs).length = d.length := by
  unfold splice
  simp
  omega

theorem setIndex_eq (d : Bytes) (i : Nat) (b : Fin 256) (h : i < d.length) :
    setIndex d i b = .ok (splice d i [b]) := by
  unfold setIndex splice
  simp [h, List.set_eq_take_append_cons_drop]

theorem copyAt_eq (d : Bytes) (i : Nat) (src : Bytes) (h : i + src.length ≤ d.length) :
    copyAt d i src = .ok (splice d i src) := by
  unfold copyAt splice
  have h1 : i ≤ d.length := by omega
  have h2 : src.length ≤ d.length - i := by omega
  simp [h1, List.take_of_length_le h2, Nat.min_eq_left h2]

theorem splice_after (d : Bytes) (lo : Nat) (xs ys : Bytes) (h : lo + xs.length ≤ d.length) :
    splice (splice d lo xs) (lo + xs.length) ys = splice d lo (xs ++ ys) := by
  unfold splice
  have h1 : (List.take lo d ++ xs).length = lo + xs.length := by simp; omega
  have e1 : List.take (lo + xs.length) (List.take lo d ++ xs ++ List.drop (lo + xs.length) d)
      = List.take lo d ++ xs := List.take_left' h1
  have e2 : List.drop (lo + xs.length + ys.length)
      (List.take lo d ++ xs ++ List.drop (lo + xs.length) d)
      = List.drop (lo + xs.length + ys.length) d := by
    rw [List.drop_append_eq_append_drop]
    rw [h1]
    have : lo + xs.length + ys.length - (lo + xs.length) = ys.length := by omega
    rw [this, List.drop_drop]
    have h3 : (List.take lo d ++ xs).length ≤ lo + xs.length + ys.length := by omega
    rw [List.drop_of_length_le h3]
    simp [Nat.add_comm, Nat.add_left_comm]
  rw [e1, e2]
  simp [Nat.add_assoc]

theorem splice_before (d : Bytes) (lo : Nat) (xs ys : Bytes)
    (h : lo + xs.length + ys.length ≤ d.length) :
    splice (splice d (lo + xs.length) ys) lo xs = splice d lo (xs ++ ys) := by
  unfold splice
  have h0 : (List.take (lo + xs.length) d).length = lo + xs.length := by simp; omega
  have e1 : List.take lo (List.take (lo + xs.length) d ++ ys ++
      List.drop (lo + xs.length + ys.length) d) = List.take lo d := by
    rw [List.append_assoc, List.take_append_of_le_length (by omega), List.take_take]
    simp
  have e2 : List.drop (lo + xs.length) (List.take (lo + xs.length) d ++ ys ++
      List.drop (lo + xs.length + ys.length) d) = ys ++ List.drop (lo + xs.length + ys.length) d := by
    rw [List.append_assoc]
    exact List.drop_left' h0
  rw [e1, e2]
  simp [Nat.add_assoc]

theorem encodeVarintLoop_eq : ∀ (rounds : Nat) (d : Bytes) (lo v : Nat),
    lo + (varintBytes rounds v).length ≤ d.length →
    encodeVarintLoop rounds d lo v = .ok (splice d lo (varintBytes rounds v)) := by
  intro rounds
  induction rounds with
  | zero =>
    intro d lo v h
    simp [varintBytes] at h
    simp [encodeVarintLoop, varintBytes]
    exact setIndex_eq d lo _ (by omega)
  | succ r ih =>
    intro d lo v h
    unfold encodeVarintLoop varintBytes
    unfold varintBytes at h
    have e7 : (1 <<< 7 : Nat) = 128 := by decide
    rw [e7]
    by_cases hv : v ≥ 128
    · simp only [hv, if_true] at h ⊢
      simp only [List.length_cons] at h
      rw [setIndex_eq d lo _ (by omega)]
      simp only [Res.bind_ok]
      have hb : v &&& 0x7f ||| 0x80 = v % 128 + 128 := by
        rw [and_7f, or_80 _ (Nat.mod_lt _ (by decide))]
      have hs : v >>> 7 = v / 128 := by rw [Nat.shiftRight_eq_div_pow]
      rw [hb, hs]
      have hlen : (splice d lo [uint8 (v % 128 + 128)]).length = d.length :=
        splice_length d lo _ (by simp; omega)
      rw [ih (splice d lo [uint8 (v % 128 + 128)]) (lo + 1) (v / 128) (by rw [hlen]; omega)]
      have := splice_after d lo [uint8 (v % 128 + 128)] (varintBytes r (v / 128))
        (by simp; omega)
      simp only [List.length_singleton, List.singleton_append] at this
      rw [this]
    · simp only [hv, if_false] at h ⊢
      simp only [List.length_singleton] at h
      exact setIndex_eq d lo _ (by omega)

theorem encodeVarintWasm_eq (d : Bytes) (offset v : Nat) (hv : v < 2 ^ 64)
    (h1 : sovWasm v ≤ offset) (h2 : offset ≤ d.length) :
    encodeVarintWasm d offset v = .ok (splice d (offset - sovWasm v) (varint v), offset - sovWasm v) := by
  unfold encodeVarintWasm
  have hl := sovWasm_eq_length v hv
  simp only [Nat.not_lt.mpr h1, if_false]
  rw [encodeVarintLoop_eq 9 d _ v (by unfold varint at hl; omega)]
  rfl

theorem putBytesField_eq (d : Bytes) (i : Nat) (tag : Fin 256) (field : Bytes)
    (hf : field.length < 2 ^ 64)
    (h1 : 1 + sovWasm field.length + field.length ≤ i) (h2 : i ≤ d.length) :
    putBytesField d i tag field =
      .ok (splice d (i - (1 + sovWasm field.length + field.length))
        (tag :: (varint field.length ++ field)), i - (1 + sovWasm field.length + field.length)) := by
  unfold putBytesField
  have hl := sovWasm_eq_length field.length hf
  have hpos := sovWasm_pos field.length hf
  simp only [Nat.not_lt.mpr (show field.length ≤ i by omega), if_false]
  rw [copyAt_eq d (i - field.length) field (by omega)]
  simp only [Res.bind_ok]
  have hlen1 : (splice d (i - field.length) field).length = d.length :=
    splice_length _ _ _ (by omega)
  rw [encodeVarintWasm_eq _ (i - field.length) field.length hf (by omega) (by rw [hlen1]; omega)]
  simp only [Res.bind_ok]
  have hne : ¬ (i - field.length - sovWasm field.length = 0) := by omega
  simp only [hne, if_false]
  have e1 : i - field.length = (i - field.length - sovWasm field.length) + (varint field.length).length := by
    omega
  have hsp : splice (splice d (i - field.length) field) (i - field.length - sovWasm field.length)
      (varint field.length) = splice d (i - field.length - sovWasm field.length)
        (varint field.length ++ field) := by
    have := splice_before d (i - field.length - sovWasm field.length) (varint field.length) field
      (by omega)
    rw [← e1] at this
    exact this
  rw [hsp]
  have hlen2 : (splice d (i - field.length - sovWasm field.length)
      (varint field.length ++ field)).length = d.length :=
    splice_length _ _ _ (by simp; omega)
  rw [setIndex_eq _ _ _ (by rw [hlen2]; omega)]
  simp only [Res.bind_ok]
  have e2 : i - field.length - sovWasm field.length
      = (i - field.length - sovWasm field.length - 1) + [tag].length := by
    simp; omega
  have hsp2 := splice_before d (i - field.length - sovWasm field.length - 1) [tag]
    (varint field.length ++ field) (by simp; omega)
  rw [← e2] at hsp2
  rw [hsp2]
  have e3 : i - field.length - sovWasm field.length - 1
      = i - (1 + sovWasm field.length + field.length) := by omega
  rw [e3]
  rfl

theorem encField_length (tag : Fin 256) (payload : Bytes) (h : payload.length < 2 ^ 64) :
    (encField tag payload).length = 1 + sovWasm payload.length + payload.length := by
  unfold encField
  rw [sovWasm_eq_length _ h]
  simp
  omega

theorem encBytesField_length (tag : Fin 256) (field : Bytes) (h : field.length < 2 ^ 64) :
    (encBytesField tag field).length = sizeBytesField field := by
  unfold encBytesField sizeBytesField
  split
  · rw [encField_length tag field h]; omega
  · rfl

theorem sizeBytesField_bound (field : Bytes) (n : Nat) (h : sizeBytesField field ≤ n) :
    field.length ≤ n := by
  unfold sizeBytesField at h
  split at h <;> omega

theorem splice_nil (d : Bytes) (i : Nat) : splice d i [] = d := by
  unfold splice
  simp

theorem splice_append (pre buf xs : Bytes) (h : xs.length = buf.length) :
    splice (pre ++ buf) pre.length xs = pre ++ xs := by
  unfold splice
  rw [List.take_left]
  have : List.drop (pre.length + xs.length) (pre ++ buf) = [] := by
    apply List.drop_of_length_le
    simp
    omega
  rw [this]
  simp

/-- A bytes field that is written only when not empty. -/
theorem putOptional_eq (d : Bytes) (i : Nat) (tag : Fin 256) (field : Bytes)
    (hf : field.length < 2 ^ 64) (h1 : sizeBytesField field ≤ i) (h2 : i ≤ d.length) :
    (if field.length > 0 then putBytesField d i tag field else .ok (d, i)) =
      .ok (splice d (i - sizeBytesField field) (encBytesField tag field),
        i - sizeBytesField field) := by
  unfold sizeBytesField encBytesField at *
  by_cases h : field.length > 0
  · simp only [h, if_true] at h1 ⊢
    rw [putBytesField_eq d i tag field hf (by omega) h2]
    have e : 1 + sovWasm field.length + field.length = 1 + field.length + sovWasm field.length := by
      omega
    rw [e]
    rfl
  · simp only [h, if_false]
    rw [splice_nil]
    rfl

theorem marshalDataToSizedBuffer_eq (data pre buf : Bytes) (hd : data.length < 2 ^ 64)
    (hbuf : buf.length = sizeBytesField data) :
    marshalDataToSizedBuffer data (pre ++ buf) =
      .ok (pre ++ encBytesField 0xa data, sizeBytesField data) := by
  have hopt := putOptional_eq (pre ++ buf) (pre ++ buf).length 0xa data hd
    (by simp; omega) (Nat.le_refl _)
  have hlen : (pre ++ buf).length - sizeBytesField data = pre.length := by simp; omega
  rw [hlen, splice_append pre buf _ (by rw [encBytesField_length _ _ hd, hbuf])] at hopt
  unfold marshalDataToSizedBuffer
  by_cases h : data.length > 0
  · simp only [h, if_true] at hopt ⊢
    rw [hopt]
    simp only [Res.bind_ok]
    congr 2
    simp
    exact hbuf
  · have h0 : sizeBytesField data = 0 := by unfold sizeBytesField; simp [h]
    have hb : buf = [] := List.eq_nil_of_length_eq_zero (by omega)
    have he : encBytesField 0xa data = [] := by unfold encBytesField; simp [h]
    simp only [h, if_false]
    rw [h0, he, hb]

theorem marshalWith_eq (size : Nat) (fill : Bytes → Res (Bytes × Nat)) (enc : Bytes)
    (hlen : enc.length = size) (h : fill (List.replicate size 0) = .ok (enc, size)) :
    marshalWith size fill = .ok enc := by
  unfold marshalWith slice
  rw [h]
  simp [hlen]

/-- The wire form of a wasm client state, given the bytes of its height. -/
theorem ClientState.MarshalToSizedBuffer_eq (hc : HeightCodec) (m : ClientState)
    (heightBytes pre buf : Bytes) (henc : hc.Encode m.LatestHeight = .ok heightBytes)
    (hd : m.Data.length < 2 ^ 64) (hch : m.CodeHash.length < 2 ^ 64)
    (hh : heightBytes.length < 2 ^ 64)
    (hbuf : buf.length = sizeBytesField m.Data + sizeBytesField m.CodeHash +
      (1 + sovWasm heightBytes.length + heightBytes.length)) :
    m.MarshalToSizedBuffer hc (pre ++ buf) =
      .ok (pre ++ (encBytesField 0xa m.Data ++ (encBytesField 0x12 m.CodeHash ++
        encField 0x1a heightBytes)), buf.length) := by
  unfold ClientState.MarshalToSizedBuffer
  rw [henc]
  simp only
  have hl : (pre ++ buf).length = pre.length + buf.length := by simp
  rw [putBytesField_eq _ _ 0x1a heightBytes hh (by omega) (Nat.le_refl _)]
  simp only [Res.bind_ok]
  have hl1 : (splice (pre ++ buf)
      ((pre ++ buf).length - (1 + sovWasm heightBytes.length + heightBytes.length))
      (0x1a :: (varint heightBytes.length ++ heightBytes))).length = (pre ++ buf).length :=
    splice_length _ _ _ (by
      have := encField_length 0x1a heightBytes hh
      unfold encField at this
      rw [this]; omega)
  have hopt1 := putOptional_eq (splice (pre ++ buf)
      ((pre ++ buf).length - (1 + sovWasm heightBytes.length + heightBytes.length))
      (0x1a :: (varint heightBytes.length ++ heightBytes)))
      ((pre ++ buf).length - (1 + sovWasm heightBytes.length + heightBytes.length))
      0x12 m.CodeHash hch (by omega) (by rw [hl1]; omega)
  have hfold : (if m.CodeHash.length > 0 then
      putBytesField (splice (pre ++ buf)
        ((pre ++ buf).length - (1 + sovWasm heightBytes.length + heightBytes.length))
        (0x1a :: (varint heightBytes.length ++ heightBytes)))
        ((pre ++ buf).length - (1 + sovWasm heightBytes.length + heightBytes.length))
        0x12 m.CodeHash
      else Res.ok (splice (pre ++ buf)
        ((pre ++ buf).length - (1 + sovWasm heightBytes.length + heightBytes.length))
        (0x1a :: (varint heightBytes.length ++ heightBytes)),
        (pre ++ buf).length - (1 + sovWasm heightBytes.length + heightBytes.length))) = _ := hopt1
  rw [hfold]
  simp only [Res.bind_ok]
  have hE3 := encField_length 0x1a heightBytes hh
  have hE2 := encBytesField_length 0x12 m.CodeHash hch
  have hE1 := encBytesField_length 0xa m.Data hd
  have hs2 : splice (splice (pre ++ buf)
      ((pre ++ buf).length - (1 + sovWasm heightBytes.length + heightBytes.length))
      (0x1a :: (varint heightBytes.length ++ heightBytes)))
      ((pre ++ buf).length - (1 + sovWasm heightBytes.length + heightBytes.length) -
        sizeBytesField m.CodeHash) (encBytesField 0x12 m.CodeHash) =
      splice (pre ++ buf) (pre.length + sizeBytesField m.Data)
        (encBytesField 0x12 m.CodeHash ++ encField 0x1a heightBytes) := by
    have := splice_before (pre ++ buf) (pre.length + sizeBytesField m.Data)
      (encBytesField 0x12 m.CodeHash) (encField 0x1a heightBytes) (by omega)
    have e1 : pre.length + sizeBytesField m.Data + (encBytesField 0x12 m.CodeHash).length =
        (pre ++ buf).length - (1 + sovWasm heightBytes.length + heightBytes.length) := by omega
    have e2 : (pre ++ buf).length - (1 + sovWasm heightBytes.length + heightBytes.length) -
        sizeBytesField m.CodeHash = pre.length + sizeBytesField m.Data := by omega
    rw [e1] at this
    rw [e2]
    exact this
  rw [hs2]
  have hl2 : (splice (pre ++ buf) (pre.length + sizeBytesField m.Data)
      (encBytesField 0x12 m.CodeHash ++ encField 0x1a heightBytes)).length = (pre ++ buf).length :=
    splice_length _ _ _ (by simp; omega)
  have hopt2 := putOptional_eq (splice (pre ++ buf) (pre.length + sizeBytesField m.Data)
      (encBytesField 0x12 m.CodeHash ++ encField 0x1a heightBytes))
      ((pre ++ buf).length - (1 + sovWasm heightBytes.length + heightBytes.length) -
        sizeBytesField m.CodeHash) 0xa m.Data hd (by omega) (by rw [hl2]; omega)
  have hfold2 : (if m.Data.length > 0 then
      putBytesField (splice (pre ++ buf) (pre.length + sizeBytesField m.Data)
        (encBytesField 0x12 m.CodeHash ++ encField 0x1a heightBytes))
        ((pre ++ buf).length - (1 + sovWasm heightBytes.length + heightBytes.length) -
          sizeBytesField m.CodeHash) 0xa m.Data
      else Res.ok (splice (pre ++ buf) (pre.length + sizeBytesField m.Data)
        (encBytesField 0x12 m.CodeHash ++ encField 0x1a heightBytes),
        (pre ++ buf).length - (1 + sovWasm heightBytes.length + heightBytes.length) -
          sizeBytesField m.CodeHash)) = _ := hopt2
  rw [hfold2]
  simp only [Res.bind_ok]
  have hs3 : splice (splice (pre ++ buf) (pre.length + sizeBytesField m.Data)
      (encBytesField 0x12 m.CodeHash ++ encField 0x1a heightBytes))
      ((pre ++ buf).length - (1 + sovWasm heightBytes.length + heightBytes.length) -
        sizeBytesField m.CodeHash - sizeBytesField m.Data) (encBytesField 0xa m.Data) =
      pre ++ (encBytesField 0xa m.Data ++ (encBytesField 0x12 m.CodeHash ++
        encField 0x1a heightBytes)) := by
    have := splice_before (pre ++ buf) pre.length (encBytesField 0xa m.Data)
      (encBytesField 0x12 m.CodeHash ++ encField 0x1a heightBytes) (by simp; omega)
    have e1 : pre.length + (encBytesField 0xa m.Data).length =
        pre.length + sizeBytesField m.Data := by omega
    have e2 : (pre ++ buf).length - (1 + sovWasm heightBytes.length + heightBytes.length) -
        sizeBytesField m.CodeHash - sizeBytesField m.Data = pre.length := by omega
    rw [e1] at this
    rw [e2, this]
    exact splice_append pre buf _ (by simp; omega)
  rw [hs3]
  congr 2
  omega

theorem index_append (pre : Bytes) (b : Fin 256) (rest : Bytes) :
    index (pre ++ b :: rest) pre.length = .ok b := by
  unfold index
  rw [List.getElem?_append_right (Nat.le_refl _)]
  simp

/-- The last byte of a varint: below `0x80`, it ends the loop. -/
theorem decodeVarint_last (pre post : Bytes) (rounds shift x v : Nat) (hv : v < 128)
    (hx : x < 2 ^ shift) (hsum : x + v * 2 ^ shift < 2 ^ 64) :
    decodeVarint (pre ++ uint8 v :: post) (rounds + 1) shift pre.length x =
      .ok (x + v * 2 ^ shift, pre.length + 1) := by
  unfold decodeVarint
  have hlt : ¬ (pre.length ≥ (pre ++ uint8 v :: post).length) := by simp
  simp only [hlt, if_false, index_append, Res.bind_ok]
  have hval : (uint8 v).val = v := uint8_val v (by omega)
  rw [hval]
  have hv2 : v < 0x80 := hv
  simp only [hv2, if_true]
  have hand : v &&& 0x7F = v := by rw [and_7f]; exact Nat.mod_eq_of_lt hv
  have hmod : (v <<< shift) % 2 ^ 64 = v <<< shift := by
    apply Nat.mod_eq_of_lt
    rw [Nat.shiftLeft_eq]
    omega
  rw [hand, hmod, or_shift x v shift hx]

theorem decodeVarint_varintBytes : ∀ (rounds shift x v : Nat) (pre post : Bytes),
    x < 2 ^ shift → x + v * 2 ^ shift < 2 ^ 64 → v < 2 ^ (7 * (rounds + 1)) →
    decodeVarint (pre ++ (varintBytes rounds v ++ post)) (rounds + 1) shift pre.length x =
      .ok (x + v * 2 ^ shift, pre.length + (varintBytes rounds v).length) := by
  intro rounds
  induction rounds with
  | zero =>
    intro shift x v pre post hx hsum hv
    have hv128 : v < 128 := by simpa using hv
    simp only [varintBytes, List.singleton_append, List.length_singleton]
    exact decodeVarint_last pre post 0 shift x v hv128 hx hsum
  | succ r ih =>
    intro shift x v pre post hx hsum hv
    by_cases h128 : v ≥ 128
    · have hvb : varintBytes (r + 1) v = uint8 (v % 128 + 128) :: varintBytes r (v / 128) := by
        simp [varintBytes, h128]
      rw [hvb]
      unfold decodeVarint
      have hlt : ¬ (pre.length ≥
          (pre ++ (uint8 (v % 128 + 128) :: varintBytes r (v / 128) ++ post)).length) := by
        simp
      simp only [hlt, if_false, List.cons_append, index_append, Res.bind_ok]
      have hval : (uint8 (v % 128 + 128)).val = v % 128 + 128 := uint8_val _ (by omega)
      rw [hval]
      have hge : ¬ (v % 128 + 128 < 0x80) := by omega
      simp only [hge, if_false]
      have hand : (v % 128 + 128) &&& 0x7F = v % 128 := by rw [and_7f]; omega
      have hP : 0 < 2 ^ shift := Nat.two_pow_pos shift
      have hle : v % 128 * 2 ^ shift ≤ v * 2 ^ shift :=
        Nat.mul_le_mul_right _ (Nat.mod_le v 128)
      have hle2 : v % 128 * 2 ^ shift ≤ 127 * 2 ^ shift :=
        Nat.mul_le_mul_right _ (by omega)
      have hmod : ((v % 128) <<< shift) % 2 ^ 64 = (v % 128) <<< shift := by
        apply Nat.mod_eq_of_lt
        rw [Nat.shiftLeft_eq]
        omega
      rw [hand, hmod, or_shift x (v % 128) shift hx]
      have hpow : 2 ^ (shift + 7) = 2 ^ shift * 128 := by rw [Nat.pow_add]
      have hsplit : v * 2 ^ shift = v % 128 * 2 ^ shift + v / 128 * 2 ^ (shift + 7) := by
        rw [hpow]
        have := Nat.div_add_mod v 128
        calc v * 2 ^ shift = (128 * (v / 128) + v % 128) * 2 ^ shift := by rw [this]
          _ = v % 128 * 2 ^ shift + v / 128 * (2 ^ shift * 128) := by ring
      have hd : v / 128 < 2 ^ (7 * (r + 1)) := by
        rw [Nat.div_lt_iff_lt_mul (by decide)]
        have e1 : 7 * (r + 1 + 1) = 7 * (r + 1) + 7 := by ring
        rw [e1, Nat.pow_add] at hv
        simpa using hv
      have hrec := ih (shift + 7) (x + v % 128 * 2 ^ shift) (v / 128)
        (pre ++ [uint8 (v % 128 + 128)]) post (by rw [hpow]; omega) (by omega) hd
      simp only [List.append_assoc, List.singleton_append, List.length_append,
        List.length_singleton] at hrec
      rw [hrec]
      simp only [List.length_cons]
      have e1 : x + v % 128 * 2 ^ shift + v / 128 * 2 ^ (shift + 7) = x + v * 2 ^ shift := by
        rw [hsplit, Nat.add_assoc]
      have e2 : pre.length + 1 + (varintBytes r (v / 128)).length =
          pre.length + ((varintBytes r (v / 128)).length + 1) := by omega
      rw [e1, e2]
      simp
    · have hv128 : v < 128 := by omega
      have hvb : varintBytes (r + 1) v = [uint8 v] := by
        simp [varintBytes, h128]
      rw [hvb]
      simp only [List.singleton_append, List.length_singleton]
      exact decodeVarint_last pre post (r + 1) shift x v hv128 hx hsum

/-- Reading back a varint. -/
theorem decodeVarint_varint (pre post : Bytes) (v : Nat) (hv : v < 2 ^ 64) :
    decodeVarint (pre ++ (varint v ++ post)) 10 0 pre.length 0 =
      .ok (v, pre.length + sovWasm v) := by
  have := decodeVarint_varintBytes 9 0 0 v pre post (by decide) (by simpa using hv)
    (Nat.lt_of_lt_of_le hv (Nat.pow_le_pow_right (by decide) (by decide)))
  rw [sovWasm_eq_length v hv]
  unfold varint
  simpa using this

/-- Reading a tag of one byte. -/
theorem decodeVarint_byte (pre post : Bytes) (t : Fin 256) (ht : t.val < 128) :
    decodeVarint (pre ++ t :: post) 10 0 pre.length 0 = .ok (t.val, pre.length + 1) := by
  have := decodeVarint_last pre post 9 0 0 t.val ht (by decide) (by simp; omega)
  have e : uint8 t.val = t := by
    apply Fin.ext
    exact uint8_val t.val t.isLt
  rw [e] at this
  simpa using this

theorem slice_append (pre p post : Bytes) :
    slice (pre ++ (p ++ post)) pre.length (pre.length + p.length) = .ok p := by
  unfold slice
  simp

/-- Reading back a length-delimited payload. -/
theorem readLengthDelimited_eq (pre p post : Bytes)
    (hlen : (pre ++ (varint p.length ++ (p ++ post))).length < 2 ^ 63) :
    readLengthDelimited (pre ++ (varint p.length ++ (p ++ post))) pre.length =
      .ok (p, pre.length + sovWasm p.length + p.length) := by
  have hp : p.length < 2 ^ 64 := by
    simp at hlen
    omega
  unfold readLengthDelimited
  rw [decodeVarint_varint pre (p ++ post) p.length hp]
  simp only [Res.bind_ok, intSign]
  have hsov := sovWasm_eq_length p.length hp
  simp only [List.length_append] at hlen
  have h1 : ¬ (p.length ≥ 2 ^ 63) := by omega
  have h2 : ¬ (pre.length + sovWasm p.length + p.length ≥ 2 ^ 63) := by omega
  have h3 : ¬ (pre.length + sovWasm p.length + p.length >
      (pre ++ (varint p.length ++ (p ++ post))).length) := by
    simp only [List.length_append]
    omega
  simp only [h1, h2, h3, if_false]
  have := slice_append (pre ++ varint p.length) p post
  simp only [List.append_assoc, List.length_append] at this
  rw [← hsov] at this
  rw [this]
  rfl

theorem index_lt (d : Bytes) (i : Nat) (h : i < d.length) : ∃ b, index d i = .ok b := by
  unfold index
  rw [List.getElem?_eq_getElem h]
  exact ⟨_, rfl⟩

/-- The varint loop returns, and a varint it reads ends after where it starts
and within the data. -/
theorem decodeVarint_total (d : Bytes) : ∀ (rounds shift i x : Nat),
    (∃ v j, decodeVarint d rounds shift i x = .ok (v, j) ∧ i < j ∧ j ≤ d.length) ∨
    (∃ e, decodeVarint d rounds shift i x = .err e) := by
  intro rounds
  induction rounds with
  | zero => intro shift i x; exact Or.inr ⟨_, rfl⟩
  | succ r ih =>
    intro shift i x
    unfold decodeVarint
    by_cases hi : i ≥ d.length
    · simp only [hi, if_true]; exact Or.inr ⟨_, rfl⟩
    · simp only [hi, if_false]
      obtain ⟨b, hb⟩ := index_lt d i (by omega)
      rw [hb]
      simp only [Res.bind_ok]
      by_cases hlast : b.val < 0x80
      · simp only [hlast, if_true]
        exact Or.inl ⟨_, _, rfl, by omega, by omega⟩
      · simp only [hlast, if_false]
        rcases ih (shift + 7) (i + 1) (x ||| (((b.val &&& 0x7F) <<< shift) % 2 ^ 64)) with
          ⟨v, j, h, h1, h2⟩ | ⟨e, h⟩
        · exact Or.inl ⟨v, j, h, by omega, h2⟩
        · exact Or.inr ⟨e, h⟩

theorem skipVarint_total (d : Bytes) : ∀ (rounds i : Nat),
    (∃ j, skipVarint d rounds i = .ok j ∧ i < j ∧ j ≤ d.length) ∨
    (∃ e, skipVarint d rounds i = .err e) := by
  intro rounds
  induction rounds with
  | zero => intro i; exact Or.inr ⟨_, rfl⟩
  | succ r ih =>
    intro i
    unfold skipVarint
    by_cases hi : i ≥ d.length
    · simp only [hi, if_true]; exact Or.inr ⟨_, rfl⟩
    · simp only [hi, if_false]
      obtain ⟨b, hb⟩ := index_lt d i (by omega)
      rw [hb]
      simp only [Res.bind_ok]
      by_cases hlast : b.val < 0x80
      · simp only [hlast, if_true]
        exact Or.inl ⟨_, rfl, by omega, by omega⟩
      · simp only [hlast, if_false]
        rcases ih (i + 1) with ⟨j, h, h1, h2⟩ | ⟨e, h⟩
        · exact Or.inl ⟨j, h, by omega, h2⟩
        · exact Or.inr ⟨e, h⟩

theorem skipPayload_total (d : Bytes) (wireType i depth : Nat) :
    (∃ j dep, skipPayload d wireType i depth = .ok (j, dep) ∧ i ≤ j) ∨
    (∃ e, skipPayload d wireType i depth = .err e) := by
  unfold skipPayload
  split
  · rcases skipVarint_total d 10 i with ⟨j, h, h1, _⟩ | ⟨e, h⟩
    · rw [h]; exact Or.inl ⟨j, depth, rfl, by omega⟩
    · rw [h]; exact Or.inr ⟨e, rfl⟩
  · exact Or.inl ⟨_, _, rfl, by omega⟩
  · rcases decodeVarint_total d 10 0 i 0 with ⟨v, j, h, h1, _⟩ | ⟨e, h⟩
    · rw [h]
      simp only [Res.bind_ok]
      split
      · exact Or.inr ⟨_, rfl⟩
      · exact Or.inl ⟨_, _, rfl, by omega⟩
    · rw [h]; exact Or.inr ⟨e, rfl⟩
  · exact Or.inl ⟨_, _, rfl, by omega⟩
  · split
    · exact Or.inr ⟨_, rfl⟩
    · exact Or.inl ⟨_, _, rfl, by omega⟩
  · exact Or.inl ⟨_, _, rfl, by omega⟩
  · exact Or.inr ⟨_, rfl⟩

/-- The loop of `skipWasm` returns within as many rounds as there are bytes
left; the length it reports is beyond its start and is not negative as an
`int`. -/
theorem skipLoop_total (d : Bytes) : ∀ (fuel i depth : Nat), d.length - i ≤ fuel →
    (∃ n, skipLoop d fuel i depth = .ok n ∧ i < n ∧ n < intSign) ∨
    (∃ e, skipLoop d fuel i depth = .err e) := by
  intro fuel
  induction fuel with
  | zero =>
    intro i depth h
    unfold skipLoop
    have : ¬ (i < d.length) := by omega
    simp only [this, if_false]
    exact Or.inr ⟨_, rfl⟩
  | succ f ih =>
    intro i depth h
    unfold skipLoop
    by_cases hi : i < d.length
    · simp only [hi, if_true]
      rcases decodeVarint_total d 10 0 i 0 with ⟨v, j, hv, h1, h2⟩ | ⟨e, he⟩
      · rw [hv]
        simp only [Res.bind_ok]
        rcases skipPayload_total d (v &&& 0x7) j depth with ⟨j2, dep, hp, h3⟩ | ⟨e, he⟩
        · rw [hp]
          simp only [Res.bind_ok]
          by_cases hneg : j2 ≥ intSign
          · simp only [hneg, if_true]; exact Or.inr ⟨_, rfl⟩
          · simp only [hneg, if_false]
            by_cases hdep : dep = 0
            · simp only [hdep, if_true]
              exact Or.inl ⟨j2, rfl, by omega, by omega⟩
            · simp only [hdep, if_false]
              rcases ih j2 dep (by omega) with ⟨n, hn, h4, h5⟩ | ⟨e, he⟩
              · exact Or.inl ⟨n, hn, by omega, h5⟩
              · exact Or.inr ⟨e, he⟩
        · rw [he]; exact Or.inr ⟨e, rfl⟩
      · rw [he]; exact Or.inr ⟨e, rfl⟩
    · simp only [hi, if_false]
      exact Or.inr ⟨_, rfl⟩

theorem skipWasm_total (d : Bytes) :
    (∃ n, skipWasm d = .ok n ∧ 0 < n ∧ n < intSign) ∨ (∃ e, skipWasm d = .err e) :=
  skipLoop_total d d.length 0 0 (by omega)

/-- Reading a length-delimited payload returns; the payload ends within the
data, at or after the index where its length starts. -/
theorem readLengthDelimited_total (d : Bytes) (i : Nat) :
    (∃ p j, readLengthDelimited d i = .ok (p, j) ∧ i < j ∧ j ≤ d.length) ∨
    (∃ e, readLengthDelimited d i = .err e) := by
  unfold readLengthDelimited
  rcases decodeVarint_total d 10 0 i 0 with ⟨v, j, hv, h1, h2⟩ | ⟨e, he⟩
  · rw [hv]
    simp only [Res.bind_ok]
    by_cases c1 : v ≥ intSign
    · simp only [c1, if_true]; exact Or.inr ⟨_, rfl⟩
    · simp only [c1, if_false]
      by_cases c2 : j + v ≥ intSign
      · simp only [c2, if_true]; exact Or.inr ⟨_, rfl⟩
      · simp only [c2, if_false]
        by_cases c3 : j + v > d.length
        · simp only [c3, if_true]; exact Or.inr ⟨_, rfl⟩
        · simp only [c3, if_false]
          unfold slice
          have : j ≤ j + v ∧ j + v ≤ d.length := ⟨by omega, by omega⟩
          simp only [this, and_self, if_true, Res.bind_ok]
          exact Or.inl ⟨_, _, rfl, by omega, by omega⟩
  · rw [he]; exact Or.inr ⟨e, rfl⟩

/-- Skipping an unknown field returns; the field ends within the data, after
where it starts. -/
theorem skipUnknown_total (d : Bytes) (i : Nat) (hi : i ≤ d.length) :
    (∃ j, skipUnknown d i = .ok j ∧ i < j ∧ j ≤ d.length) ∨
    (∃ e, skipUnknown d i = .err e) := by
  unfold skipUnknown sliceFrom
  simp only [hi, if_true, Res.bind_ok]
  rcases skipWasm_total (d.drop i) with ⟨n, hn, h1, h2⟩ | ⟨e, he⟩
  · rw [hn]
    simp only [Res.bind_ok]
    by_cases c1 : n ≥ intSign ∨ i + n ≥ intSign
    · simp only [c1, if_true]; exact Or.inr ⟨_, rfl⟩
    · simp only [c1, if_false]
      by_cases c2 : i + n > d.length
      · simp only [c2, if_true]; exact Or.inr ⟨_, rfl⟩
      · simp only [c2, if_false]
        exact Or.inl ⟨_, rfl, by omega, by omega⟩
  · rw [he]; exact Or.inr ⟨e, rfl⟩

theorem returns_of_ok {α : Type} {r : Res α} {a : α} (h : r = .ok a) : r.returns = true := by
  rw [h]; rfl

theorem returns_of_err {α : Type} {r : Res α} {e : Error} (h : r = .err e) :
    r.returns = true := by
  rw [h]; rfl

/-- The loop of `Unmarshal` returns within as many rounds as there are bytes
left. -/
theorem unmarshalDataLoop_total (typeName : String) (d : Bytes) :
    ∀ (fuel i : Nat) (data : Bytes), d.length - i ≤ fuel →
    (unmarshalDataLoop typeName d fuel i data).returns = true := by
  intro fuel
  induction fuel with
  | zero =>
    intro i data h
    unfold unmarshalDataLoop
    have : ¬ (i < d.length) := by omega
    simp only [this, if_false]
    split <;> rfl
  | succ f ih =>
    intro i data h
    unfold unmarshalDataLoop
    by_cases hi : i < d.length
    · simp only [hi, if_true]
      rcases decodeVarint_total d 10 0 i 0 with ⟨v, j, hv, h1, h2⟩ | ⟨e, he⟩
      · rw [hv]
        simp only [Res.bind_ok]
        split
        · rfl
        · split
          · rfl
          · split
            · split
              · rfl
              · rcases readLengthDelimited_total d j with ⟨p, j2, hp, h3, h4⟩ | ⟨e, he⟩
                · rw [hp]
                  simp only [Res.bind_ok]
                  exact ih j2 p (by omega)
                · rw [he]; rfl
            · rcases skipUnknown_total d i (by omega) with ⟨j2, hp, h3, h4⟩ | ⟨e, he⟩
              · rw [hp]
                simp only [Res.bind_ok]
                exact ih j2 data (by omega)
              · rw [he]; rfl
      · rw [he]; rfl
    · simp only [hi, if_false]
      split <;> rfl

theorem ClientState.unmarshalLoop_total (hc : HeightCodec) (d : Bytes)
    (hheight : ∀ h bz, (hc.Unmarshal h bz).returns = true) :
    ∀ (fuel i : Nat) (m : ClientState), d.length - i ≤ fuel →
    (ClientState.unmarshalLoop hc d fuel i m).returns = true := by
  intro fuel
  induction fuel with
  | zero =>
    intro i m h
    unfold ClientState.unmarshalLoop
    have : ¬ (i < d.length) := by omega
    simp only [this, if_false]
    split <;> rfl
  | succ f ih =>
    intro i m h
    unfold ClientState.unmarshalLoop
    by_cases hi : i < d.length
    · simp only [hi, if_true]
      rcases decodeVarint_total d 10 0 i 0 with ⟨v, j, hv, h1, h2⟩ | ⟨e, he⟩
      · rw [hv]
        simp only [Res.bind_ok]
        split
        · rfl
        · split
          · rfl
          · split
            · split
              · rfl
              · rcases readLengthDelimited_total d j with ⟨p, j2, hp, h3, h4⟩ | ⟨e, he⟩
                · rw [hp]
                  simp only [Res.bind_ok]
                  exact ih j2 _ (by omega)
                · rw [he]; rfl
            · split
              · split
                · rfl
                · rcases readLengthDelimited_total d j with ⟨p, j2, hp, h3, h4⟩ | ⟨e, he⟩
                  · rw [hp]
                    simp only [Res.bind_ok]
                    exact ih j2 _ (by omega)
                  · rw [he]; rfl
              · split
                · split
                  · rfl
                  · rcases readLengthDelimited_total d j with ⟨p, j2, hp, h3, h4⟩ | ⟨e, he⟩
                    · rw [hp]
                      simp only [Res.bind_ok]
                      have hh := hheight m.LatestHeight p
                      cases hu : hc.Unmarshal m.LatestHeight p with
                      | ok height =>
                        simp only [Res.bind_ok]
                        exact ih j2 _ (by omega)
                      | err e => rfl
                      | panic => rw [hu] at hh; exact absurd hh (by decide)
                      | outOfFuel => rw [hu] at hh; exact absurd hh (by decide)
                    · rw [he]; rfl
                · rcases skipUnknown_total d i (by omega) with ⟨j2, hp, h3, h4⟩ | ⟨e, he⟩
                  · rw [hp]
                    simp only [Res.bind_ok]
                    exact ih j2 m (by omega)
                  · rw [he]; rfl
      · rw [he]; rfl
    · simp only [hi, if_false]
      split <;> rfl

theorem index_embed (u b post : Bytes) (i : Nat) (h : i < b.length) :
    index (u ++ (b ++ post)) (u.length + i) = index b i := by
  unfold index
  rw [List.getElem?_append_right (Nat.le_add_right _ _)]
  simp only [Nat.add_sub_cancel_left]
  rw [List.getElem?_append_left h]

/-- A varint read from `b` is read alike from `b` between other bytes. -/
theorem decodeVarint_embed (u b post : Bytes) : ∀ (rounds shift i x v j : Nat),
    decodeVarint b rounds shift i x = .ok (v, j) →
    decodeVarint (u ++ (b ++ post)) rounds shift (u.length + i) x = .ok (v, u.length + j) := by
  intro rounds
  induction rounds with
  | zero => intro shift i x v j h; simp [decodeVarint] at h
  | succ r ih =>
    intro shift i x v j h
    unfold decodeVarint at h ⊢
    by_cases hi : i ≥ b.length
    · simp [hi] at h
    · simp only [hi, if_false] at h
      have hi2 : ¬ (u.length + i ≥ (u ++ (b ++ post)).length) := by
        simp only [List.length_append]; omega
      simp only [hi2, if_false]
      rw [index_embed u b post i (by omega)]
      obtain ⟨bb, hbb, h⟩ := Res.bind_eq_ok h
      rw [hbb]
      simp only [Res.bind_ok]
      by_cases hlast : bb.val < 0x80
      · simp only [hlast, if_true] at h ⊢
        injection h with h
        injection h with h1 h2
        rw [h1, ← h2]
        rfl
      · simp only [hlast, if_false] at h ⊢
        exact ih _ _ _ _ _ h

theorem decodeVarint_ext (b post : Bytes) (rounds shift i x v j : Nat)
    (h : decodeVarint b rounds shift i x = .ok (v, j)) :
    decodeVarint (b ++ post) rounds shift i x = .ok (v, j) := by
  have := decodeVarint_embed [] b post rounds shift i x v j h
  simpa using this

theorem skipVarint_ext (b post : Bytes) : ∀ (rounds i j : Nat),
    skipVarint b rounds i = .ok j → skipVarint (b ++ post) rounds i = .ok j := by
  intro rounds
  induction rounds with
  | zero => intro i j h; simp [skipVarint] at h
  | succ r ih =>
    intro i j h
    unfold skipVarint at h ⊢
    by_cases hi : i ≥ b.length
    · simp [hi] at h
    · simp only [hi, if_false] at h
      have hi2 : ¬ (i ≥ (b ++ post).length) := by
        simp only [List.length_append]; omega
      simp only [hi2, if_false]
      have hidx : index (b ++ post) i = index b i := by
        have := index_embed [] b post i (by omega)
        simpa using this
      rw [hidx]
      obtain ⟨bb, hbb, h⟩ := Res.bind_eq_ok h
      rw [hbb]
      simp only [Res.bind_ok]
      by_cases hlast : bb.val < 0x80
      · simp only [hlast, if_true] at h ⊢
        exact h
      · simp only [hlast, if_false] at h ⊢
        exact ih _ _ h

theorem skipPayload_ext (b post : Bytes) (wireType i depth : Nat) (r : Nat × Nat)
    (h : skipPayload b wireType i depth = .ok r) :
    skipPayload (b ++ post) wireType i depth = .ok r := by
  unfold skipPayload at h ⊢
  split
  · simp only at h
    obtain ⟨j, hj, h⟩ := Res.bind_eq_ok h
    rw [skipVarint_ext b post 10 i j hj]
    exact h
  · exact h
  · simp only at h
    obtain ⟨t, ht, h⟩ := Res.bind_eq_ok h
    rw [decodeVarint_ext b post 10 0 i 0 t.1 t.2 ht]
    exact h
  · exact h
  · exact h
  · exact h
  · rename_i h0 h1 h2 h3 h4 h5
    split at h
    · exact absurd rfl h0
    · exact absurd rfl h1
    · exact absurd rfl h2
    · exact absurd rfl h3
    · exact absurd rfl h4
    · exact absurd rfl h5
    · exact h

/-- A field that `skipWasm` passes over in `b` is passed over alike when more
bytes follow, and with more rounds allowed. -/
theorem skipLoop_ext (b post : Bytes) : ∀ (fuel i depth n : Nat),
    skipLoop b fuel i depth = .ok n →
    ∀ k, skipLoop (b ++ post) (fuel + k) i depth = .ok n := by
  intro fuel
  induction fuel with
  | zero =>
    intro i depth n h
    unfold skipLoop at h
    split at h <;> simp at h
  | succ f ih =>
    intro i depth n h k
    have e : f + 1 + k = (f + k) + 1 := by omega
    rw [e]
    unfold skipLoop at h ⊢
    by_cases hi : i < b.length
    · simp only [hi, if_true] at h
      have hi2 : i < (b ++ post).length := by simp only [List.length_append]; omega
      simp only [hi2, if_true]
      obtain ⟨tag, htag, h⟩ := Res.bind_eq_ok h
      rw [decodeVarint_ext b post 10 0 i 0 tag.1 tag.2 htag]
      simp only [Res.bind_ok]
      obtain ⟨r, hr, h⟩ := Res.bind_eq_ok h
      rw [skipPayload_ext b post _ _ _ r hr]
      simp only [Res.bind_ok]
      by_cases c1 : r.1 ≥ intSign
      · rw [if_pos c1] at h; cases h
      · simp only [c1, if_false] at h ⊢
        by_cases c2 : r.2 = 0
        · simp only [c2, if_true] at h ⊢
          exact h
        · simp only [c2, if_false] at h ⊢
          exact ih _ _ _ h k
    · simp [hi] at h

theorem slice_embed (u b post : Bytes) (lo hi : Nat) (p : Bytes)
    (h : slice b lo hi = .ok p) :
    slice (u ++ (b ++ post)) (u.length + lo) (u.length + hi) = .ok p := by
  unfold slice at h ⊢
  by_cases c : lo ≤ hi ∧ hi ≤ b.length
  · simp only [c, and_self, if_true] at h
    have c2 : u.length + lo ≤ u.length + hi ∧ u.length + hi ≤ (u ++ (b ++ post)).length := by
      simp only [List.length_append]; omega
    simp only [c2, and_self, if_true]
    injection h with h
    rw [← h]
    congr 1
    have e1 : List.drop (u.length + lo) (u ++ (b ++ post)) = List.drop lo b ++ post := by
      rw [List.drop_append_eq_append_drop]
      have : List.drop (u.length + lo) u = [] := List.drop_of_length_le (by omega)
      rw [this, List.nil_append, Nat.add_sub_cancel_left]
      exact List.drop_append_of_le_length (by omega)
    rw [e1]
    have e2 : u.length + hi - (u.length + lo) = hi - lo := by omega
    rw [e2]
    exact List.take_append_of_le_length (by simp; omega)
  · simp [c] at h

theorem readLengthDelimited_embed (u b post : Bytes) (i : Nat) (r : Bytes × Nat)
    (hlen : (u ++ (b ++ post)).length < intSign)
    (h : readLengthDelimited b i = .ok r) :
    readLengthDelimited (u ++ (b ++ post)) (u.length + i) = .ok (r.1, u.length + r.2) ∧
      r.2 ≤ b.length := by
  unfold readLengthDelimited at h ⊢
  obtain ⟨t, ht, h⟩ := Res.bind_eq_ok h
  rw [decodeVarint_embed u b post 10 0 i 0 t.1 t.2 ht]
  simp only [Res.bind_ok]
  by_cases c1 : t.1 ≥ intSign
  · rw [if_pos c1] at h; cases h
  · simp only [c1, if_false] at h ⊢
    by_cases c2 : t.2 + t.1 ≥ intSign
    · rw [if_pos c2] at h; cases h
    · simp only [c2, if_false] at h
      by_cases c3 : t.2 + t.1 > b.length
      · rw [if_pos c3] at h; cases h
      · simp only [c3, if_false] at h
        obtain ⟨p, hp, h⟩ := Res.bind_eq_ok h
        injection h with h
        simp only [List.length_append] at hlen
        have d2 : ¬ (u.length + t.2 + t.1 ≥ intSign) := by omega
        have d3 : ¬ (u.length + t.2 + t.1 > (u ++ (b ++ post)).length) := by
          simp only [List.length_append]; omega
        simp only [d2, d3, if_false]
        have := slice_embed u b post t.2 (t.2 + t.1) p hp
        rw [← Nat.add_assoc] at this
        rw [this, ← h]
        simp only [Res.bind_ok]
        exact ⟨by rw [Nat.add_assoc], by omega⟩

theorem skipUnknown_embed (u b post : Bytes) (i j : Nat)
    (hlen : (u ++ (b ++ post)).length < intSign)
    (h : skipUnknown b i = .ok j) :
    skipUnknown (u ++ (b ++ post)) (u.length + i) = .ok (u.length + j) ∧ j ≤ b.length := by
  unfold skipUnknown sliceFrom at h ⊢
  by_cases hi : i ≤ b.length
  · simp only [hi, if_true, Res.bind_ok] at h
    have hi2 : u.length + i ≤ (u ++ (b ++ post)).length := by
      simp only [List.length_append]; omega
    simp only [hi2, if_true, Res.bind_ok]
    obtain ⟨skippy, hs, h⟩ := Res.bind_eq_ok h
    have e1 : List.drop (u.length + i) (u ++ (b ++ post)) = List.drop i b ++ post := by
      rw [List.drop_append_eq_append_drop]
      have : List.drop (u.length + i) u = [] := List.drop_of_length_le (by omega)
      rw [this, List.nil_append, Nat.add_sub_cancel_left]
      exact List.drop_append_of_le_length hi
    rw [e1]
    have hs2 : skipWasm (List.drop i b ++ post) = .ok skippy := by
      unfold skipWasm at hs ⊢
      have := skipLoop_ext (List.drop i b) post _ 0 0 skippy hs post.length
      simpa using this
    rw [hs2]
    simp only [Res.bind_ok]
    by_cases c1 : skippy ≥ intSign ∨ i + skippy ≥ intSign
    · rw [if_pos c1] at h; cases h
    · simp only [c1, if_false] at h
      by_cases c2 : i + skippy > b.length
      · rw [if_pos c2] at h; cases h
      · simp only [c2, if_false] at h
        injection h with h
        simp only [List.length_append] at hlen
        have d1 : ¬ (skippy ≥ intSign ∨ u.length + i + skippy ≥ intSign) := by omega
        have d2 : ¬ (u.length + i + skippy > (u ++ (b ++ post)).length) := by
          simp only [List.length_append]; omega
        simp only [d1, d2, if_false]
        exact ⟨by rw [← h, Nat.add_assoc], by omega⟩
  · simp [hi] at h

/-- A successful run of the loop of `Unmarshal` over `b` is repeated over `b`
between other bytes, and goes on behind `b` with what it decoded. -/
theorem unmarshalDataLoop_embed (typeName : String) (u b post : Bytes)
    (hlen : (u ++ (b ++ post)).length < intSign) :
    ∀ (fuel i : Nat) (data r : Bytes), unmarshalDataLoop typeName b fuel i data = .ok r →
    ∀ (fuel2 : Nat) (res : Bytes),
      (∀ k, unmarshalDataLoop typeName (u ++ (b ++ post)) (fuel2 + k) (u.length + b.length) r
        = .ok res) →
      ∀ k, unmarshalDataLoop typeName (u ++ (b ++ post)) (fuel + fuel2 + k) (u.length + i) data
        = .ok res := by
  intro fuel
  induction fuel with
  | zero =>
    intro i data r h fuel2 res hcont k
    unfold unmarshalDataLoop at h
    by_cases hi : i < b.length
    · simp [hi] at h
    · simp only [hi, if_false] at h
      by_cases hi2 : i > b.length
      · simp [hi2] at h
      · simp only [hi2, if_false] at h
        injection h with h
        have : i = b.length := by omega
        rw [this, h, Nat.zero_add]
        exact hcont k
  | succ f ih =>
    intro i data r h fuel2 res hcont k
    unfold unmarshalDataLoop at h
    by_cases hi : i < b.length
    · simp only [hi, if_true] at h
      have e : f + 1 + fuel2 + k = (f + fuel2 + k) + 1 := by omega
      rw [e]
      unfold unmarshalDataLoop
      have hi2 : u.length + i < (u ++ (b ++ post)).length := by
        simp only [List.length_append]; omega
      simp only [hi2, if_true]
      obtain ⟨tag, htag, h⟩ := Res.bind_eq_ok h
      rw [decodeVarint_embed u b post 10 0 i 0 tag.1 tag.2 htag]
      simp only [Res.bind_ok]
      by_cases c1 : tag.1 &&& 0x7 = 4
      · rw [if_pos c1] at h; cases h
      · simp only [c1, if_false] at h ⊢
        by_cases c2 : fieldNumOf tag.1 = 0 ∨ fieldNumOf tag.1 ≥ 2 ^ 31
        · rw [if_pos c2] at h; cases h
        · simp only [c2, if_false] at h ⊢
          by_cases c3 : fieldNumOf tag.1 = 1
          · simp only [c3, if_true] at h ⊢
            by_cases c4 : tag.1 &&& 0x7 ≠ 2
            · rw [if_pos c4] at h; cases h
            · simp only [c4, if_false] at h ⊢
              obtain ⟨rr, hrr, h⟩ := Res.bind_eq_ok h
              obtain ⟨hrd, _⟩ := readLengthDelimited_embed u b post tag.2 rr hlen hrr
              rw [hrd]
              simp only [Res.bind_ok]
              exact ih _ _ _ h fuel2 res hcont k
          · simp only [c3, if_false] at h ⊢
            obtain ⟨j, hj, h⟩ := Res.bind_eq_ok h
            obtain ⟨hsk, _⟩ := skipUnknown_embed u b post i j hlen hj
            rw [hsk]
            simp only [Res.bind_ok]
            exact ih _ _ _ h fuel2 res hcont k
    · simp only [hi, if_false] at h
      by_cases hi2 : i > b.length
      · simp [hi2] at h
      · simp only [hi2, if_false] at h
        injection h with h
        have hib : i = b.length := by omega
        have := hcont (f + 1 + k)
        have e : fuel2 + (f + 1 + k) = f + 1 + fuel2 + k := by omega
        rw [e] at this
        rw [hib, h]
        exact this

/-- At the end of the data the loop of `Unmarshal` returns what it has. -/
theorem unmarshalDataLoop_end (typeName : String) (d : Bytes) (fuel : Nat) (data : Bytes) :
    unmarshalDataLoop typeName d fuel d.length data = .ok data := by
  cases fuel <;> simp [unmarshalDataLoop]

theorem skipVarint_last (pre post : Bytes) (rounds v : Nat) (hv : v < 128) :
    skipVarint (pre ++ uint8 v :: post) (rounds + 1) pre.length = .ok (pre.length + 1) := by
  unfold skipVarint
  have hlt : ¬ (pre.length ≥ (pre ++ uint8 v :: post).length) := by simp
  simp only [hlt, if_false, index_append, Res.bind_ok]
  have hval : (uint8 v).val = v := uint8_val v (by omega)
  rw [hval]
  have hv2 : v < 0x80 := hv
  simp only [hv2, if_true]

theorem skipVarint_varintBytes : ∀ (rounds v : Nat) (pre post : Bytes),
    v < 2 ^ (7 * (rounds + 1)) →
    skipVarint (pre ++ (varintBytes rounds v ++ post)) (rounds + 1) pre.length =
      .ok (pre.length + (varintBytes rounds v).length) := by
  intro rounds
  induction rounds with
  | zero =>
    intro v pre post hv
    have hv128 : v < 128 := by simpa using hv
    simp only [varintBytes, List.singleton_append, List.length_singleton]
    exact skipVarint_last pre post 0 v hv128
  | succ r ih =>
    intro v pre post hv
    by_cases h128 : v ≥ 128
    · have hvb : varintBytes (r + 1) v = uint8 (v % 128 + 128) :: varintBytes r (v / 128) := by
        simp [varintBytes, h128]
      rw [hvb]
      unfold skipVarint
      simp only [List.cons_append, index_append, Res.bind_ok]
      have hval : (uint8 (v % 128 + 128)).val = v % 128 + 128 := uint8_val _ (by omega)
      rw [hval]
      have hge : ¬ (v % 128 + 128 < 0x80) := by omega
      simp only [hge, if_false]
      have hd : v / 128 < 2 ^ (7 * (r + 1)) := by
        rw [Nat.div_lt_iff_lt_mul (by decide)]
        have e1 : 7 * (r + 1 + 1) = 7 * (r + 1) + 7 := by ring
        rw [e1, Nat.pow_add] at hv
        simpa using hv
      have hrec := ih (v / 128) (pre ++ [uint8 (v % 128 + 128)]) post hd
      simp only [List.append_assoc, List.singleton_append, List.length_append,
        List.length_singleton] at hrec
      rw [hrec]
      simp only [List.length_cons]
      have e2 : pre.length + 1 + (varintBytes r (v / 128)).length =
          pre.length + ((varintBytes r (v / 128)).length + 1) := by omega
      rw [e2]
      simp
    · have hv128 : v < 128 := by omega
      have hvb : varintBytes (r + 1) v = [uint8 v] := by
        simp [varintBytes, h128]
      rw [hvb]
      simp only [List.singleton_append, List.length_singleton]
      exact skipVarint_last pre post (r + 1) v hv128

theorem skipVarint_varint (pre post : Bytes) (v : Nat) (hv : v < 2 ^ 64) :
    skipVarint (pre ++ (varint v ++ post)) 10 pre.length = .ok (pre.length + sovWasm v) := by
  have := skipVarint_varintBytes 9 v pre post
    (Nat.lt_of_lt_of_le hv (Nat.pow_le_pow_right (by decide) (by decide)))
  rw [sovWasm_eq_length v hv]
  exact this

theorem tag_eq (n wt : Nat) (hwt : wt < 8) : n <<< 3 ||| wt = 8 * n + wt := by
  have := Nat.mul_add_lt_is_or (i := 3) (b := wt) hwt n
  rw [Nat.shiftLeft_eq, Nat.mul_comm n, ← this]

theorem tag_wireType (n wt : Nat) (hwt : wt < 8) : (8 * n + wt) &&& 0x7 = wt := by
  rw [and_7]; omega

theorem tag_fieldNum (n wt : Nat) (hwt : wt < 8) (hn : n < 2 ^ 31) :
    fieldNumOf (8 * n + wt) = n := by
  unfold fieldNumOf
  rw [Nat.shiftRight_eq_div_pow]
  have : (8 * n + wt) / 2 ^ 3 = n := by
    have h8 : (2:Nat) ^ 3 = 8 := by decide
    rw [h8]; omega
  rw [this]
  exact Nat.mod_eq_of_lt (by omega)

theorem UnknownField.wireType_lt (f : UnknownField) : f.wireType < 8 := by
  cases f <;> simp [UnknownField.wireType]

theorem UnknownField.fieldNum_bounds (f : UnknownField) (hc : f.complete = true) :
    1 ≤ f.fieldNum ∧ f.fieldNum < 2 ^ 31 := by
  cases f <;> simp [UnknownField.complete] at hc <;> simp [UnknownField.fieldNum] <;> omega

theorem UnknownField.tag_lt (f : UnknownField) (hc : f.complete = true) :
    8 * f.fieldNum + f.wireType < 2 ^ 64 := by
  have := f.fieldNum_bounds hc
  have := f.wireType_lt
  omega

/-- The payload of a complete unknown field is passed over exactly. -/
theorem skipPayload_unknown (f : UnknownField) (hc : f.complete = true) (pre post : Bytes)
    (depth : Nat)
    (hlen : (pre ++ (f.payload ++ post)).length < intSign) :
    skipPayload (pre ++ (f.payload ++ post)) f.wireType pre.length depth =
      .ok (pre.length + f.payload.length, depth) := by
  cases f with
  | ofVarint n v =>
    simp only [UnknownField.complete, decide_eq_true_eq] at hc
    simp only [UnknownField.wireType, UnknownField.payload, skipPayload]
    rw [skipVarint_varint pre post v hc.2.2, sovWasm_eq_length v hc.2.2]
    rfl
  | ofFixed64 n p =>
    simp only [UnknownField.complete, decide_eq_true_eq] at hc
    simp only [UnknownField.wireType, UnknownField.payload, skipPayload]
    rw [hc.2.2]
  | ofBytes n p =>
    simp only [UnknownField.wireType, UnknownField.payload, skipPayload] at hlen ⊢
    have hp : p.length < 2 ^ 64 := by
      simp only [List.length_append, intSign] at hlen
      omega
    have e : pre ++ ((varint p.length ++ p) ++ post) = pre ++ (varint p.length ++ (p ++ post)) := by
      simp
    rw [e, decodeVarint_varint pre (p ++ post) p.length hp]
    simp only [Res.bind_ok]
    have hsov := sovWasm_eq_length p.length hp
    have c1 : ¬ (p.length ≥ intSign) := by
      simp only [List.length_append] at hlen
      omega
    simp only [c1, if_false, List.length_append]
    rw [← hsov, Nat.add_assoc]
  | ofFixed32 n p =>
    simp only [UnknownField.complete, decide_eq_true_eq] at hc
    simp only [UnknownField.wireType, UnknownField.payload, skipPayload]
    rw [hc.2.2]

/-- The helper `skipWasm` passes over exactly one complete unknown field. -/
theorem skipWasm_unknown (f : UnknownField) (hc : f.complete = true) (post : Bytes)
    (hlen : (f.encode ++ post).length < intSign) :
    skipWasm (f.encode ++ post) = .ok f.encode.length := by
  have hwt := f.wireType_lt
  have htag := f.tag_lt hc
  have hsov := sovWasm_eq_length _ htag
  have hpos := sovWasm_pos _ htag
  unfold skipWasm
  have henc : f.encode ++ post =
      [] ++ (varint (8 * f.fieldNum + f.wireType) ++ (f.payload ++ post)) := by
    unfold UnknownField.encode
    rw [tag_eq _ _ hwt]
    simp
  have hl : (f.encode ++ post).length =
      sovWasm (8 * f.fieldNum + f.wireType) + f.payload.length + post.length := by
    rw [henc, hsov]
    simp only [List.nil_append, List.length_append]
    omega
  have hel : f.encode.length = sovWasm (8 * f.fieldNum + f.wireType) + f.payload.length := by
    simp only [List.length_append] at hl
    omega
  obtain ⟨F, hF⟩ : ∃ F, (f.encode ++ post).length = F + 1 := ⟨_, (Nat.succ_pred_eq_of_pos
    (by omega)).symm⟩
  rw [hF]
  unfold skipLoop
  have hi : 0 < (f.encode ++ post).length := by omega
  simp only [hi, if_true]
  have hdec := decodeVarint_varint [] (f.payload ++ post) _ htag
  rw [← henc] at hdec
  simp only [List.length_nil, Nat.zero_add] at hdec
  rw [hdec]
  simp only [Res.bind_ok, tag_wireType _ _ hwt]
  have hpay := skipPayload_unknown f hc (varint (8 * f.fieldNum + f.wireType)) post 0 (by
    have e2 : varint (8 * f.fieldNum + f.wireType) ++ (f.payload ++ post) = f.encode ++ post := by
      rw [henc]; simp
    rw [e2]; exact hlen)
  have e2 : varint (8 * f.fieldNum + f.wireType) ++ (f.payload ++ post) = f.encode ++ post := by
    rw [henc]; simp
  rw [e2, ← hsov] at hpay
  rw [hpay]
  simp only [Res.bind_ok]
  have c1 : ¬ (sovWasm (8 * f.fieldNum + f.wireType) + f.payload.length ≥ intSign) := by omega
  simp only [c1, if_false, if_true]
  rw [hel]

/-- One round of the loop of `Unmarshal` over a complete unknown field with
another number than 1: the field is skipped. -/
theorem unmarshalDataLoop_unknown (typeName : String) (f : UnknownField)
    (hc : f.complete = true) (hn : f.fieldNum ≠ 1) (pre post : Bytes)
    (hlen : (pre ++ (f.encode ++ post)).length < intSign) (fuel : Nat) (data : Bytes) :
    unmarshalDataLoop typeName (pre ++ (f.encode ++ post)) (fuel + 1) pre.length data =
      unmarshalDataLoop typeName (pre ++ (f.encode ++ post)) fuel
        (pre.length + f.encode.length) data := by
  have hwt := f.wireType_lt
  have htag := f.tag_lt hc
  have hb := f.fieldNum_bounds hc
  have hpos := sovWasm_pos _ htag
  have hsov := sovWasm_eq_length _ htag
  have henc : f.encode = varint (8 * f.fieldNum + f.wireType) ++ f.payload := by
    unfold UnknownField.encode
    rw [tag_eq _ _ hwt]
  have hel : 0 < f.encode.length := by
    rw [henc]; simp only [List.length_append]; omega
  rw [unmarshalDataLoop]
  have hi : pre.length < (pre ++ (f.encode ++ post)).length := by
    simp only [List.length_append]; omega
  simp only [hi, if_true]
  have hdec := decodeVarint_varint pre (f.payload ++ post) _ htag
  have e1 : pre ++ (varint (8 * f.fieldNum + f.wireType) ++ (f.payload ++ post)) =
      pre ++ (f.encode ++ post) := by
    rw [henc]; simp
  rw [e1] at hdec
  rw [hdec]
  simp only [Res.bind_ok, tag_wireType _ _ hwt, tag_fieldNum _ _ hwt hb.2]
  have c1 : ¬ (f.wireType = 4) := by cases f <;> simp [UnknownField.wireType]
  have c2 : ¬ (f.fieldNum = 0 ∨ f.fieldNum ≥ 2 ^ 31) := by omega
  simp only [c1, c2, hn, if_false]
  unfold skipUnknown sliceFrom
  have hi2 : pre.length ≤ (pre ++ (f.encode ++ post)).length := by omega
  simp only [hi2, if_true, Res.bind_ok, List.drop_left]
  simp only [List.length_append] at hlen
  rw [skipWasm_unknown f hc post (by simp only [List.length_append]; omega)]
  simp only [Res.bind_ok]
  have d1 : ¬ (f.encode.length ≥ intSign ∨ pre.length + f.encode.length ≥ intSign) := by omega
  have d2 : ¬ (pre.length + f.encode.length > (pre ++ (f.encode ++ post)).length) := by
    simp only [List.length_append]; omega
  simp only [d1, d2, if_false, Res.bind_ok]

/-- Unknown fields before or after the data do not change what the loop of
`Unmarshal` decodes. -/
theorem unmarshalDataLoop_skips (typeName : String) (f : UnknownField)
    (hc : f.complete = true) (hn : f.fieldNum ≠ 1) (b data r : Bytes)
    (hlen : f.encode.length + b.length < intSign)
    (h : unmarshalDataLoop typeName b b.length 0 data = .ok r) :
    unmarshalDataLoop typeName (f.encode ++ b) (f.encode ++ b).length 0 data = .ok r ∧
    unmarshalDataLoop typeName (b ++ f.encode) (b ++ f.encode).length 0 data = .ok r := by
  have hwt := f.wireType_lt
  have htag := f.tag_lt hc
  have hpos := sovWasm_pos _ htag
  have hsov := sovWasm_eq_length _ htag
  have hel : 0 < f.encode.length := by
    unfold UnknownField.encode
    rw [tag_eq _ _ hwt]
    simp only [List.length_append]; omega
  constructor
  · -- the unknown field first
    have hstep := unmarshalDataLoop_unknown typeName f hc hn [] b
      (by simp only [List.nil_append, List.length_append]; omega)
    simp only [List.nil_append, List.length_nil, Nat.zero_add] at hstep
    have hemb := unmarshalDataLoop_embed typeName f.encode b []
      (by simp only [List.append_nil, List.length_append]; omega) b.length 0 data r h 0 r
      (fun k => by
        have := unmarshalDataLoop_end typeName (f.encode ++ (b ++ [])) (0 + k) r
        simpa using this)
      (f.encode.length - 1)
    simp only [List.append_nil, Nat.add_zero] at hemb
    have e : (f.encode ++ b).length = (b.length + (f.encode.length - 1)) + 1 := by
      simp only [List.length_append]; omega
    rw [e, hstep]
    exact hemb
  · -- the unknown field last
    have hcont : ∀ k, unmarshalDataLoop typeName ([] ++ (b ++ f.encode)) (1 + k)
        (([] : Bytes).length + b.length) r = .ok r := by
      intro k
      have hstep := unmarshalDataLoop_unknown typeName f hc hn b []
        (by simp only [List.append_nil, List.length_append]; omega) k r
      simp only [List.append_nil] at hstep
      have e : 1 + k = k + 1 := by omega
      simp only [List.nil_append, List.length_nil, Nat.zero_add]
      rw [e, hstep]
      have hend := unmarshalDataLoop_end typeName (b ++ f.encode) k r
      simp only [List.length_append] at hend
      exact hend
    have hemb := unmarshalDataLoop_embed typeName [] b f.encode
      (by simp only [List.nil_append, List.length_append]; omega) b.length 0 data r h 1 r hcont
      (f.encode.length - 1)
    simp only [List.nil_append, List.length_nil, Nat.zero_add] at hemb
    have e : (b ++ f.encode).length = b.length + 1 + (f.encode.length - 1) := by
      simp only [List.length_append]; omega
    rw [e]
    exact hemb

/-- Reading back a length-delimited field with a tag of one byte: the tag,
then the payload. -/
theorem readField (t : Fin 256) (ht : t.val < 128) (pre p post : Bytes)
    (hlen : (pre ++ (encField t p ++ post)).length < intSign) :
    decodeVarint (pre ++ (encField t p ++ post)) 10 0 pre.length 0 = .ok (t.val, pre.length + 1) ∧
    readLengthDelimited (pre ++ (encField t p ++ post)) (pre.length + 1) =
      .ok (p, pre.length + (encField t p).length) := by
  have hp : p.length < 2 ^ 64 := by
    simp only [encField, List.length_append, List.length_cons, intSign] at hlen
    omega
  have e1 : pre ++ (encField t p ++ post) = pre ++ t :: (varint p.length ++ (p ++ post)) := by
    simp [encField]
  have e2 : pre ++ (encField t p ++ post) = (pre ++ [t]) ++ (varint p.length ++ (p ++ post)) := by
    simp [encField]
  constructor
  · rw [e1]
    exact decodeVarint_byte pre _ t ht
  · have := readLengthDelimited_eq (pre ++ [t]) p post (by rw [← e2]; exact hlen)
    rw [← e2] at this
    simp only [List.length_append, List.length_singleton] at this
    rw [this, encField_length t p hp]
    congr 2
    omega

theorem encField_pos (t : Fin 256) (p : Bytes) : 0 < (encField t p).length := by
  simp [encField]

/-- One round of the loop of `Unmarshal` over the `Data` field, when there is
one. -/
theorem unmarshalDataLoop_data (typeName : String) (pre f post : Bytes)
    (hlen : (pre ++ (encBytesField 0xa f ++ post)).length < intSign) (fuel : Nat) :
    unmarshalDataLoop typeName (pre ++ (encBytesField 0xa f ++ post))
      ((if f.length > 0 then 1 else 0) + fuel) pre.length [] =
    unmarshalDataLoop typeName (pre ++ (encBytesField 0xa f ++ post)) fuel
      (pre.length + (encBytesField 0xa f).length) f := by
  unfold encBytesField at *
  by_cases h : f.length > 0
  · simp only [h, if_true] at hlen ⊢
    have e : 1 + fuel = fuel + 1 := by omega
    rw [e, unmarshalDataLoop]
    have hpos := encField_pos 0xa f
    have hi : pre.length < (pre ++ (encField 0xa f ++ post)).length := by
      simp only [List.length_append]; omega
    simp only [hi, if_true]
    obtain ⟨h1, h2⟩ := readField 0xa (by decide) pre f post hlen
    rw [h1]
    simp only [Res.bind_ok]
    have t1 : ¬ ((0xa : Fin 256).val &&& 0x7 = 4) := by decide
    have t2 : ¬ ((1 : Nat) = 0 ∨ (1 : Nat) ≥ 2 ^ 31) := by decide
    have t3 : fieldNumOf (0xa : Fin 256).val = 1 := by decide
    have t4 : ¬ ((0xa : Fin 256).val &&& 0x7 ≠ 2) := by decide
    simp only [t3]
    simp only [t1, t2, t4, if_true, if_false]
    rw [h2]
    simp only [Res.bind_ok]
  · have hf : f = [] := List.eq_nil_of_length_eq_zero (by omega)
    subst hf
    simp

/-- Decode undoes encode for the messages that hold `Data` alone. -/
theorem unmarshalData_roundTrip (typeName : String) (data : Bytes)
    (hlen : (encBytesField 0xa data).length < intSign) :
    unmarshalDataLoop typeName (encBytesField 0xa data) (encBytesField 0xa data).length 0 [] =
      .ok data := by
  have hstep := unmarshalDataLoop_data typeName [] data []
    (by simpa using hlen)
  simp only [List.nil_append, List.append_nil, List.length_nil, Nat.zero_add] at hstep
  have hge : (if data.length > 0 then 1 else 0) ≤ (encBytesField 0xa data).length := by
    unfold encBytesField
    split
    · exact encField_pos _ _
    · omega
  obtain ⟨k, hk⟩ := Nat.exists_eq_add_of_le hge
  rw [hk, hstep k]
  exact unmarshalDataLoop_end typeName _ k data

theorem ClientState.unmarshalLoop_end (hc : HeightCodec) (d : Bytes) (fuel : Nat)
    (m : ClientState) : ClientState.unmarshalLoop hc d fuel d.length m = .ok m := by
  cases fuel <;> simp [ClientState.unmarshalLoop]

theorem ClientState.unmarshalLoop_data (hc : HeightCodec) (pre f post : Bytes)
    (codeHash : Bytes) (height : Height)
    (hlen : (pre ++ (encBytesField 0xa f ++ post)).length < intSign) (fuel : Nat) :
    ClientState.unmarshalLoop hc (pre ++ (encBytesField 0xa f ++ post))
      ((if f.length > 0 then 1 else 0) + fuel) pre.length ⟨[], codeHash, height⟩ =
    ClientState.unmarshalLoop hc (pre ++ (encBytesField 0xa f ++ post)) fuel
      (pre.length + (encBytesField 0xa f).length) ⟨f, codeHash, height⟩ := by
  unfold encBytesField at *
  by_cases h : f.length > 0
  · simp only [h, if_true] at hlen ⊢
    have e : 1 + fuel = fuel + 1 := by omega
    rw [e, ClientState.unmarshalLoop]
    have hpos := encField_pos 0xa f
    have hi : pre.length < (pre ++ (encField 0xa f ++ post)).length := by
      simp only [List.length_append]; omega
    simp only [hi, if_true]
    obtain ⟨h1, h2⟩ := readField 0xa (by decide) pre f post hlen
    rw [h1]
    simp only [Res.bind_ok]
    have t1 : ¬ ((0xa : Fin 256).val &&& 0x7 = 4) := by decide
    have t2 : ¬ ((1 : Nat) = 0 ∨ (1 : Nat) ≥ 2 ^ 31) := by decide
    have t3 : fieldNumOf (0xa : Fin 256).val = 1 := by decide
    have t4 : ¬ ((0xa : Fin 256).val &&& 0x7 ≠ 2) := by decide
    simp only [t3]
    simp only [t1, t2, t4, if_true, if_false]
    rw [h2]
    simp only [Res.bind_ok]
  · have hf : f = [] := List.eq_nil_of_length_eq_zero (by omega)
    subst hf
    simp

theorem ClientState.unmarshalLoop_codeHash (hc : HeightCodec) (pre f post : Bytes)
    (data : Bytes) (height : Height)
    (hlen : (pre ++ (encBytesField 0x12 f ++ post)).length < intSign) (fuel : Nat) :
    ClientState.unmarshalLoop hc (pre ++ (encBytesField 0x12 f ++ post))
      ((if f.length > 0 then 1 else 0) + fuel) pre.length ⟨data, [], height⟩ =
    ClientState.unmarshalLoop hc (pre ++ (encBytesField 0x12 f ++ post)) fuel
      (pre.length + (encBytesField 0x12 f).length) ⟨data, f, height⟩ := by
  unfold encBytesField at *
  by_cases h : f.length > 0
  · simp only [h, if_true] at hlen ⊢
    have e : 1 + fuel = fuel + 1 := by omega
    rw [e, ClientState.unmarshalLoop]
    have hpos := encField_pos 0x12 f
    have hi : pre.length < (pre ++ (encField 0x12 f ++ post)).length := by
      simp only [List.length_append]; omega
    simp only [hi, if_true]
    obtain ⟨h1, h2⟩ := readField 0x12 (by decide) pre f post hlen
    rw [h1]
    simp only [Res.bind_ok]
    have t1 : ¬ ((0x12 : Fin 256).val &&& 0x7 = 4) := by decide
    have t2 : ¬ ((2 : Nat) = 0 ∨ (2 : Nat) ≥ 2 ^ 31) := by decide
    have t3 : ¬ ((2 : Nat) = 1) := by decide
    have t3b : fieldNumOf (0x12 : Fin 256).val = 2 := by decide
    have t4 : ¬ ((0x12 : Fin 256).val &&& 0x7 ≠ 2) := by decide
    simp only [t3b]
    simp only [t1, t2, t3, t4, if_true, if_false]
    rw [h2]
    simp only [Res.bind_ok]
  · have hf : f = [] := List.eq_nil_of_length_eq_zero (by omega)
    subst hf
    simp

theorem ClientState.unmarshalLoop_height (hc : HeightCodec) (pre heightBytes post : Bytes)
    (data codeHash : Bytes) (height decoded : Height)
    (hdec : hc.Unmarshal height heightBytes = .ok decoded)
    (hlen : (pre ++ (encField 0x1a heightBytes ++ post)).length < intSign) (fuel : Nat) :
    ClientState.unmarshalLoop hc (pre ++ (encField 0x1a heightBytes ++ post))
      (1 + fuel) pre.length ⟨data, codeHash, height⟩ =
    ClientState.unmarshalLoop hc (pre ++ (encField 0x1a heightBytes ++ post)) fuel
      (pre.length + (encField 0x1a heightBytes).length) ⟨data, codeHash, decoded⟩ := by
  have e : 1 + fuel = fuel + 1 := by omega
  rw [e, ClientState.unmarshalLoop]
  have hpos := encField_pos 0x1a heightBytes
  have hi : pre.length < (pre ++ (encField 0x1a heightBytes ++ post)).length := by
    simp only [List.length_append]; omega
  simp only [hi, if_true]
  obtain ⟨h1, h2⟩ := readField 0x1a (by decide) pre heightBytes post hlen
  rw [h1]
  simp only [Res.bind_ok]
  have t1 : ¬ ((0x1a : Fin 256).val &&& 0x7 = 4) := by decide
  have t2 : ¬ ((3 : Nat) = 0 ∨ (3 : Nat) ≥ 2 ^ 31) := by decide
  have t3 : ¬ ((3 : Nat) = 1) := by decide
  have t3b : ¬ ((3 : Nat) = 2) := by decide
  have t3c : fieldNumOf (0x1a : Fin 256).val = 3 := by decide
  have t4 : ¬ ((0x1a : Fin 256).val &&& 0x7 ≠ 2) := by decide
  simp only [t3c]
  simp only [t1, t2, t3, t3b, t4, if_true, if_false]
  rw [h2]
  simp only [Res.bind_ok, hdec]

/-- Decode undoes encode for the wasm client state, given that decoding the
bytes of the height into `height` yields the height of `m`. -/
theorem ClientState.unmarshal_roundTrip (hc : HeightCodec) (m : ClientState)
    (heightBytes : Bytes) (height : Height)
    (hdec : hc.Unmarshal height heightBytes = .ok m.LatestHeight)
    (hlen : (encBytesField 0xa m.Data ++ (encBytesField 0x12 m.CodeHash ++
      encField 0x1a heightBytes)).length < intSign) :
    ClientState.Unmarshal hc ⟨[], [], height⟩ (encBytesField 0xa m.Data ++
      (encBytesField 0x12 m.CodeHash ++ encField 0x1a heightBytes)) = .ok m := by
  unfold ClientState.Unmarshal
  have hpos := encField_pos 0x1a heightBytes
  have hge1 : (if m.Data.length > 0 then 1 else 0) ≤ (encBytesField 0xa m.Data).length := by
    unfold encBytesField
    split
    · exact encField_pos _ _
    · omega
  have hge2 : (if m.CodeHash.length > 0 then 1 else 0) ≤
      (encBytesField 0x12 m.CodeHash).length := by
    unfold encBytesField
    split
    · exact encField_pos _ _
    · omega
  obtain ⟨k, hk⟩ : ∃ k, (encBytesField 0xa m.Data ++ (encBytesField 0x12 m.CodeHash ++
      encField 0x1a heightBytes)).length = (if m.Data.length > 0 then 1 else 0) +
        ((if m.CodeHash.length > 0 then 1 else 0) + (1 + k)) := by
    refine ⟨(encBytesField 0xa m.Data).length - (if m.Data.length > 0 then 1 else 0) +
      ((encBytesField 0x12 m.CodeHash).length - (if m.CodeHash.length > 0 then 1 else 0)) +
      ((encField 0x1a heightBytes).length - 1), ?_⟩
    simp only [List.length_append]
    omega
  rw [hk]
  have s1 := ClientState.unmarshalLoop_data hc [] m.Data
    (encBytesField 0x12 m.CodeHash ++ encField 0x1a heightBytes) [] height
    (by simpa using hlen) ((if m.CodeHash.length > 0 then 1 else 0) + (1 + k))
  simp only [List.nil_append, List.length_nil, Nat.zero_add] at s1
  rw [s1]
  have s2 := ClientState.unmarshalLoop_codeHash hc (encBytesField 0xa m.Data) m.CodeHash
    (encField 0x1a heightBytes) m.Data height hlen (1 + k)
  rw [s2]
  have s3 := ClientState.unmarshalLoop_height hc
    (encBytesField 0xa m.Data ++ encBytesField 0x12 m.CodeHash) heightBytes []
    m.Data m.CodeHash height m.LatestHeight hdec
    (by simpa using hlen) k
  simp only [List.append_assoc, List.append_nil, List.length_append] at s3
  rw [s3]
  have hend := ClientState.unmarshalLoop_end hc (encBytesField 0xa m.Data ++
    (encBytesField 0x12 m.CodeHash ++ encField 0x1a heightBytes)) k m
  simp only [List.length_append] at hend
  rw [Nat.add_assoc]
  exact hend

theorem sizeBytesField_lt (field : Bytes) (h : sizeBytesField field < intSign) :
    field.length < 2 ^ 64 := by
  have := sizeBytesField_bound field _ (Nat.le_refl _)
  unfold intSign at h
  omega

/-- The bytes that `Marshal` returns for a message that holds `Data` alone. -/
theorem marshalData_eq (data : Bytes) (h : sizeBytesField data < intSign) :
    marshalWith (sizeBytesField data) (marshalDataToSizedBuffer data) =
      .ok (encBytesField 0xa data) := by
  have hd := sizeBytesField_lt data h
  apply marshalWith_eq _ _ _ (encBytesField_length 0xa data hd)
  have := marshalDataToSizedBuffer_eq data [] (List.replicate (sizeBytesField data) 0) hd
    (by simp)
  simpa using this

theorem ClientState.sizes (hc : HeightCodec) (m : ClientState) (heightBytes : Bytes)
    (hsize : hc.Size m.LatestHeight = heightBytes.length) (h : m.Size hc < intSign) :
    m.Data.length < 2 ^ 64 ∧ m.CodeHash.length < 2 ^ 64 ∧ heightBytes.length < 2 ^ 64 ∧
    m.Size hc = sizeBytesField m.Data + sizeBytesField m.CodeHash +
      (1 + sovWasm heightBytes.length + heightBytes.length) := by
  unfold ClientState.Size intSign at *
  rw [hsize] at h ⊢
  have h1 := sizeBytesField_bound m.Data _ (Nat.le_refl _)
  have h2 := sizeBytesField_bound m.CodeHash _ (Nat.le_refl _)
  refine ⟨by omega, by omega, by omega, by omega⟩

theorem ClientState.encoding_length (m : ClientState) (heightBytes : Bytes)
    (hd : m.Data.length < 2 ^ 64) (hch : m.CodeHash.length < 2 ^ 64)
    (hh : heightBytes.length < 2 ^ 64) :
    (encBytesField 0xa m.Data ++ (encBytesField 0x12 m.CodeHash ++
      encField 0x1a heightBytes)).length = sizeBytesField m.Data + sizeBytesField m.CodeHash +
      (1 + sovWasm heightBytes.length + heightBytes.length) := by
  simp only [List.length_append, encBytesField_length _ _ hd, encBytesField_length _ _ hch,
    encField_length _ _ hh]
  omega

/-- The bytes that `Marshal` returns for a wasm client state. -/
theorem ClientState.Marshal_eq (hc : HeightCodec) (m : ClientState) (heightBytes : Bytes)
    (henc : hc.Encode m.LatestHeight = .ok heightBytes)
    (hsize : hc.Size m.LatestHeight = heightBytes.length) (h : m.Size hc < intSign) :
    m.Marshal hc = .ok (encBytesField 0xa m.Data ++ (encBytesField 0x12 m.CodeHash ++
      encField 0x1a heightBytes)) := by
  obtain ⟨hd, hch, hh, hs⟩ := ClientState.sizes hc m heightBytes hsize h
  unfold ClientState.Marshal
  apply marshalWith_eq
  · rw [ClientState.encoding_length m heightBytes hd hch hh, hs]
  · have := ClientState.MarshalToSizedBuffer_eq hc m heightBytes []
      (List.replicate (m.Size hc) 0) henc hd hch hh (by simp [hs])
    simpa using this

theorem returns_bind_ok {α β : Type} (r : Res α) (f : α → β) (h : r.returns = true) :
    (r.bind fun a => .ok (f a)).returns = true := by
  cases r with
  | ok a => rfl
  | err e => rfl
  | panic => simp [Res.returns] at h
  | outOfFuel => simp [Res.returns] at h

end wasm

/-! ### Claims C21 to C30 -/

/-- C21: decode undoes encode for the wasm `ConsensusState` and
`ClientMessage`. For every message whose size fits an `int`, `Marshal` returns
bytes without error, and `Unmarshal` of those bytes into a zero-valued message
succeeds and yields the same `Data`. -/
theorem C21_data_round_trip (cs : wasm.ConsensusState) (cm : wasm.ClientMessage)
    (hcs : cs.Size < wasm.intSign) (hcm : cm.Size < wasm.intSign) :
    (∃ bz, cs.Marshal = .ok bz ∧ wasm.ConsensusState.Unmarshal ⟨[]⟩ bz = .ok ⟨cs.Data⟩) ∧
    (∃ bz, cm.Marshal = .ok bz ∧ wasm.ClientMessage.Unmarshal ⟨[]⟩ bz = .ok ⟨cm.Data⟩) := by
  constructor
  · refine ⟨wasm.encBytesField 0xa cs.Data, wasm.marshalData_eq cs.Data hcs, ?_⟩
    unfold wasm.ConsensusState.Unmarshal
    have hl : (wasm.encBytesField 0xa cs.Data).length < wasm.intSign := by
      rw [wasm.encBytesField_length _ _ (wasm.sizeBytesField_lt _ hcs)]; exact hcs
    rw [wasm.unmarshalData_roundTrip "ConsensusState" cs.Data hl]
    rfl
  · refine ⟨wasm.encBytesField 0xa cm.Data, wasm.marshalData_eq cm.Data hcm, ?_⟩
    unfold wasm.ClientMessage.Unmarshal
    have hl : (wasm.encBytesField 0xa cm.Data).length < wasm.intSign := by
      rw [wasm.encBytesField_length _ _ (wasm.sizeBytesField_lt _ hcm)]; exact hcm
    rw [wasm.unmarshalData_roundTrip "ClientMessage" cm.Data hl]
    rfl

/-- Witness for C21: the sample consensus state and client message. -/
theorem C21_data_round_trip_witness :
    (∃ bz, sampleWasmConsensusState.Marshal = .ok bz ∧
      wasm.ConsensusState.Unmarshal ⟨[]⟩ bz = .ok ⟨sampleWasmConsensusState.Data⟩) ∧
    (∃ bz, sampleWasmClientMessage.Marshal = .ok bz ∧
      wasm.ClientMessage.Unmarshal ⟨[]⟩ bz = .ok ⟨sampleWasmClientMessage.Data⟩) :=
  C21_data_round_trip sampleWasmConsensusState sampleWasmClientMessage (by decide) (by decide)

/-- C22: decode undoes encode for the wasm `ClientState`. Given a codec of
heights that round-trips on the latest height (it encodes the height without
error into as many bytes as its size says, and decodes them into a zero height
as that height), `Unmarshal` of `Marshal m` into a zero-valued message succeeds
and yields `m`: the same `Data`, `CodeHash` and `LatestHeight`. -/
theorem C22_client_state_round_trip (hc : wasm.HeightCodec) (m : wasm.ClientState)
    (heightBytes : Bytes)
    (henc : hc.Encode m.LatestHeight = .ok heightBytes)
    (hsize : hc.Size m.LatestHeight = heightBytes.length)
    (hdec : hc.Unmarshal ZeroHeight heightBytes = .ok m.LatestHeight)
    (hfits : m.Size hc < wasm.intSign) :
    ∃ bz, m.Marshal hc = .ok bz ∧
      wasm.ClientState.Unmarshal hc ⟨[], [], ZeroHeight⟩ bz = .ok m := by
  obtain ⟨hd, hch, hh, hs⟩ := wasm.ClientState.sizes hc m heightBytes hsize hfits
  refine ⟨_, wasm.ClientState.Marshal_eq hc m heightBytes henc hsize hfits, ?_⟩
  apply wasm.ClientState.unmarshal_roundTrip hc m heightBytes ZeroHeight hdec
  rw [wasm.ClientState.encoding_length m heightBytes hd hch hh, ← hs]
  exact hfits

/-- Witness for C22: the sample client state with the sample codec of heights. -/
theorem C22_client_state_round_trip_witness :
    ∃ bz, sampleWasmClientState.Marshal sampleHeightCodec = .ok bz ∧
      wasm.ClientState.Unmarshal sampleHeightCodec ⟨[], [], ZeroHeight⟩ bz =
        .ok sampleWasmClientState :=
  C22_client_state_round_trip sampleHeightCodec sampleWasmClientState [1, 7] rfl rfl rfl
    (by decide)

/-- C23: `Unmarshal` is a total, fallible function. For every byte string the
three `Unmarshal` functions and `skipWasm` return a result or an error within
as many rounds as there are bytes: they never panic on an index or a slice
bound and never exhaust the bound on their rounds (for the client state, given
that the `Unmarshal` of the height returns). Every round moves forward: a
varint that is read, a length-delimited payload and a skipped field all end
after the index where they start and within the data, and `skipWasm` reports a
positive length. -/
theorem C23_unmarshal_total (hc : wasm.HeightCodec)
    (hheight : ∀ h bz, (hc.Unmarshal h bz).returns = true) (dAtA : Bytes)
    (cs : wasm.ConsensusState) (cm : wasm.ClientMessage) (m : wasm.ClientState) :
    (wasm.ConsensusState.Unmarshal cs dAtA).returns = true ∧
    (wasm.ClientMessage.Unmarshal cm dAtA).returns = true ∧
    (wasm.ClientState.Unmarshal hc m dAtA).returns = true ∧
    (wasm.skipWasm dAtA).returns = true ∧
    (∀ i v j, wasm.decodeVarint dAtA 10 0 i 0 = .ok (v, j) → i < j ∧ j ≤ dAtA.length) ∧
    (∀ i p j, wasm.readLengthDelimited dAtA i = .ok (p, j) → i < j ∧ j ≤ dAtA.length) ∧
    (∀ i j, i ≤ dAtA.length → wasm.skipUnknown dAtA i = .ok j → i < j ∧ j ≤ dAtA.length) ∧
    (∀ n, wasm.skipWasm dAtA = .ok n → 0 < n ∧ n < wasm.intSign) := by
  refine ⟨?_, ?_, ?_, ?_, ?_, ?_, ?_, ?_⟩
  · exact wasm.returns_bind_ok _ _
      (wasm.unmarshalDataLoop_total "ConsensusState" dAtA dAtA.length 0 cs.Data (by omega))
  · exact wasm.returns_bind_ok _ _
      (wasm.unmarshalDataLoop_total "ClientMessage" dAtA dAtA.length 0 cm.Data (by omega))
  · exact wasm.ClientState.unmarshalLoop_total hc dAtA hheight dAtA.length 0 m (by omega)
  · rcases wasm.skipWasm_total dAtA with ⟨n, hn, _⟩ | ⟨e, he⟩
    · exact wasm.returns_of_ok hn
    · exact wasm.returns_of_err he
  · intro i v j h
    rcases wasm.decodeVarint_total dAtA 10 0 i 0 with ⟨v2, j2, h2, h3, h4⟩ | ⟨e, he⟩
    · rw [h] at h2
      injection h2 with h2
      injection h2 with _ hj
      rw [hj]; exact ⟨h3, h4⟩
    · rw [h] at he; cases he
  · intro i p j h
    rcases wasm.readLengthDelimited_total dAtA i with ⟨p2, j2, h2, h3, h4⟩ | ⟨e, he⟩
    · rw [h] at h2
      injection h2 with h2
      injection h2 with _ hj
      rw [hj]; exact ⟨h3, h4⟩
    · rw [h] at he; cases he
  · intro i j hi h
    rcases wasm.skipUnknown_total dAtA i hi with ⟨j2, h2, h3, h4⟩ | ⟨e, he⟩
    · rw [h] at h2
      injection h2 with hj
      rw [hj]; exact ⟨h3, h4⟩
    · rw [h] at he; cases he
  · intro n h
    rcases wasm.skipWasm_total dAtA with ⟨n2, h2, h3, h4⟩ | ⟨e, he⟩
    · rw [h] at h2
      injection h2 with hn
      rw [hn]; exact ⟨h3, h4⟩
    · rw [h] at he; cases he

/-- Witness for C23: a field 1 whose length runs past the end of the data. -/
theorem C23_unmarshal_total_witness :
    (wasm.ConsensusState.Unmarshal ⟨[]⟩ [0xa, 5, 1]).returns = true ∧
    (wasm.ClientState.Unmarshal sampleHeightCodec ⟨[], [], ZeroHeight⟩ [0xa, 5, 1]).returns
      = true :=
  have h := C23_unmarshal_total sampleHeightCodec
    (fun _ bz => by unfold sampleHeightCodec; simp only; split <;> rfl)
    [0xa, 5, 1] ⟨[]⟩ ⟨[]⟩ ⟨[], [], ZeroHeight⟩
  ⟨h.1, h.2.2.1⟩

/-- C24: for every wasm `ClientState`, `ConsensusState` and `ClientMessage`
whose size fits an `int`, `Size` is the length of what `Marshal` returns.
`MarshalToSizedBuffer` fills the last `Size` bytes of its buffer, whatever they
held, with that encoding, leaves the bytes before them alone and reports `Size`
bytes written (for the client state, given that the height encodes without
error into as many bytes as its size says). -/
theorem C24_size_is_marshal_length (hc : wasm.HeightCodec) (cs : wasm.ConsensusState)
    (cm : wasm.ClientMessage) (m : wasm.ClientState) (heightBytes : Bytes)
    (hcs : cs.Size < wasm.intSign) (hcm : cm.Size < wasm.intSign)
    (hm : m.Size hc < wasm.intSign)
    (henc : hc.Encode m.LatestHeight = .ok heightBytes)
    (hsize : hc.Size m.LatestHeight = heightBytes.length) :
    (∃ bz, cs.Marshal = .ok bz ∧ bz.length = cs.Size ∧
      ∀ pre buf, buf.length = cs.Size →
        cs.MarshalToSizedBuffer (pre ++ buf) = .ok (pre ++ bz, cs.Size)) ∧
    (∃ bz, cm.Marshal = .ok bz ∧ bz.length = cm.Size ∧
      ∀ pre buf, buf.length = cm.Size →
        cm.MarshalToSizedBuffer (pre ++ buf) = .ok (pre ++ bz, cm.Size)) ∧
    (∃ bz, m.Marshal hc = .ok bz ∧ bz.length = m.Size hc ∧
      ∀ pre buf, buf.length = m.Size hc →
        m.MarshalToSizedBuffer hc (pre ++ buf) = .ok (pre ++ bz, m.Size hc)) := by
  refine ⟨?_, ?_, ?_⟩
  · refine ⟨_, wasm.marshalData_eq cs.Data hcs,
      wasm.encBytesField_length _ _ (wasm.sizeBytesField_lt _ hcs), ?_⟩
    intro pre buf hbuf
    exact wasm.marshalDataToSizedBuffer_eq cs.Data pre buf (wasm.sizeBytesField_lt _ hcs) hbuf
  · refine ⟨_, wasm.marshalData_eq cm.Data hcm,
      wasm.encBytesField_length _ _ (wasm.sizeBytesField_lt _ hcm), ?_⟩
    intro pre buf hbuf
    exact wasm.marshalDataToSizedBuffer_eq cm.Data pre buf (wasm.sizeBytesField_lt _ hcm) hbuf
  · obtain ⟨hd, hch, hh, hs⟩ := wasm.ClientState.sizes hc m heightBytes hsize hm
    refine ⟨_, wasm.ClientState.Marshal_eq hc m heightBytes henc hsize hm, ?_, ?_⟩
    · rw [wasm.ClientState.encoding_length m heightBytes hd hch hh, hs]
    · intro pre buf hbuf
      have := wasm.ClientState.MarshalToSizedBuffer_eq hc m heightBytes pre buf henc hd hch hh
        (by rw [hbuf, hs])
      rw [this, hbuf]

/-- Witness for C24: the sample messages with the sample codec of heights. -/
theorem C24_size_is_marshal_length_witness :
    ∃ bz, sampleWasmClientState.Marshal sampleHeightCodec = .ok bz ∧
      bz.length = sampleWasmClientState.Size sampleHeightCodec ∧
      ∀ pre buf, buf.length = sampleWasmClientState.Size sampleHeightCodec →
        sampleWasmClientState.MarshalToSizedBuffer sampleHeightCodec (pre ++ buf) =
          .ok (pre ++ bz, sampleWasmClientState.Size sampleHeightCodec) :=
  (C24_size_is_marshal_length sampleHeightCodec sampleWasmConsensusState
    sampleWasmClientMessage sampleWasmClientState [1, 7] (by decide) (by decide) (by decide)
    rfl rfl).2.2

/-- C25: unknown fields are skipped. For every byte string `b` that
`ConsensusState.Unmarshal` or `ClientMessage.Unmarshal` decodes successfully
and every complete encoding of a field with a number other than 1 and wire type
varint, fixed64, length-delimited or fixed32, `Unmarshal` of the field followed
by `b` and of `b` followed by the field both succeed and decode the same
message as `b` alone (the two together fitting an `int` in length). -/
theorem C25_unknown_fields_skipped (f : wasm.UnknownField) (b : Bytes)
    (hcomplete : f.complete = true) (hnum : f.fieldNum ≠ 1)
    (hfits : f.encode.length + b.length < wasm.intSign) :
    (∀ m0 m, wasm.ConsensusState.Unmarshal m0 b = .ok m →
      wasm.ConsensusState.Unmarshal m0 (f.encode ++ b) = .ok m ∧
      wasm.ConsensusState.Unmarshal m0 (b ++ f.encode) = .ok m) ∧
    (∀ m0 m, wasm.ClientMessage.Unmarshal m0 b = .ok m →
      wasm.ClientMessage.Unmarshal m0 (f.encode ++ b) = .ok m ∧
      wasm.ClientMessage.Unmarshal m0 (b ++ f.encode) = .ok m) := by
  constructor
  · intro m0 m h
    unfold wasm.ConsensusState.Unmarshal at h ⊢
    obtain ⟨data, hdata, hm⟩ := wasm.Res.bind_eq_ok h
    obtain ⟨h1, h2⟩ := wasm.unmarshalDataLoop_skips "ConsensusState" f hcomplete hnum b
      m0.Data data hfits hdata
    rw [h1, h2]
    exact ⟨hm, hm⟩
  · intro m0 m h
    unfold wasm.ClientMessage.Unmarshal at h ⊢
    obtain ⟨data, hdata, hm⟩ := wasm.Res.bind_eq_ok h
    obtain ⟨h1, h2⟩ := wasm.unmarshalDataLoop_skips "ClientMessage" f hcomplete hnum b
      m0.Data data hfits hdata
    rw [h1, h2]
    exact ⟨hm, hm⟩

/-- Witness for C25: the sample unknown field before and after the sample wire
form. -/
theorem C25_unknown_fields_skipped_witness :
    wasm.ConsensusState.Unmarshal ⟨[]⟩ (sampleUnknownField.encode ++ sampleWire) =
      .ok ⟨[1, 2, 3]⟩ ∧
    wasm.ConsensusState.Unmarshal ⟨[]⟩ (sampleWire ++ sampleUnknownField.encode) =
      .ok ⟨[1, 2, 3]⟩ :=
  (C25_unknown_fields_skipped sampleUnknownField sampleWire rfl (by decide) (by decide)).1
    ⟨[]⟩ ⟨[1, 2, 3]⟩ rfl

/-- C26: `SignatureAndData.ValidateBasic` returns nil if and only if the
signature is not empty, the data is not empty, the data type is not
`UNSPECIFIED` and the timestamp is not 0; otherwise it returns
`ErrInvalidSignatureAndData`, wrapped with the message of the first check that
fails, in that order. -/
theorem C26_signature_and_data_validate_basic (sd : SignatureAndData) :
    (sd.ValidateBasic = .ok () ↔
      sd.Signature ≠ [] ∧ sd.Data ≠ [] ∧ sd.DataType ≠ UNSPECIFIED ∧ sd.Timestamp ≠ 0) ∧
    (sd.Signature = [] →
      sd.ValidateBasic = .error (Wrap ErrInvalidSignatureAndData "signature cannot be empty")) ∧
    (sd.Signature ≠ [] → sd.Data = [] →
      sd.ValidateBasic =
        .error (Wrap ErrInvalidSignatureAndData "data for signature cannot be empty")) ∧
    (sd.Signature ≠ [] → sd.Data ≠ [] → sd.DataType = UNSPECIFIED →
      sd.ValidateBasic =
        .error (Wrap ErrInvalidSignatureAndData "data type cannot be UNSPECIFIED")) ∧
    (sd.Signature ≠ [] → sd.Data ≠ [] → sd.DataType ≠ UNSPECIFIED → sd.Timestamp = 0 →
      sd.ValidateBasic = .error (Wrap ErrInvalidSignatureAndData "timestamp cannot be 0")) ∧
    (sd.ValidateBasic ≠ .ok () →
      failsWith sd.ValidateBasic ErrInvalidSignatureAndData = true) := by
  unfold SignatureAndData.ValidateBasic
  by_cases h1 : sd.Signature = []
  · simp [h1, failsWith, Error.is_wrap_self]
  · by_cases h2 : sd.Data = []
    · simp [h1, h2, failsWith, Error.is_wrap_self]
    · by_cases h3 : sd.DataType = UNSPECIFIED
      · simp [h1, h2, h3, failsWith, Error.is_wrap_self]
      · by_cases h4 : sd.Timestamp = 0
        · simp [h1, h2, h3, h4, failsWith, Error.is_wrap_self]
        · simp [h1, h2, h3, h4]

/-- Witness for C26: a signature with an empty signature field. -/
theorem C26_signature_and_data_validate_basic_witness :
    sampleEmptySignature.ValidateBasic =
      .error (Wrap ErrInvalidSignatureAndData "signature cannot be empty") :=
  (C26_signature_and_data_validate_basic sampleEmptySignature).2.1 rfl

/-- C29: `LightClientModule.Status` returns `Unknown` whenever no client state
is stored under `clientID`, leaving the stores alone, and otherwise returns
exactly the status that the stored client state computes over the client
store. -/
theorem C29_status_unknown_or_stored {σ μ π : Type} (lcm : Collaborators σ μ π)
    (ctx : ClientStores σ) (clientID : String) :
    (lcm.getClientState (ctx clientID) = none →
      LightClientModule.Status lcm ctx clientID = (.Unknown, ctx)) ∧
    (∀ clientState, lcm.getClientState (ctx clientID) = some clientState →
      (LightClientModule.Status lcm ctx clientID).1 =
        (lcm.Status clientState (ctx clientID)).1) := by
  constructor
  · intro h
    unfold LightClientModule.Status
    simp only [h]
  · intro clientState h
    unfold LightClientModule.Status
    simp only [h]

/-- Witness for C29: no client is stored under `06-solomachine-9`, and the
client stored under `06-solomachine-0` is frozen. -/
theorem C29_status_unknown_or_stored_witness :
    LightClientModule.Status sampleCollaborators (sampleStores 6) "06-solomachine-9" =
      (.Unknown, sampleStores 6) ∧
    (LightClientModule.Status sampleCollaborators (sampleStores 6) "06-solomachine-0").1 =
      .Frozen :=
  ⟨(C29_status_unknown_or_stored sampleCollaborators (sampleStores 6) "06-solomachine-9").1 rfl,
    (C29_status_unknown_or_stored sampleCollaborators (sampleStores 6) "06-solomachine-0").2
      ⟨5, true, ⟨[1], "d", 1⟩⟩ rfl⟩

/-- C30: `DuplicateSignatureHeader.ValidateBasic` returns nil if and only if the
client identifier is valid, `Sequence` is not 0, both signatures pass
`SignatureAndData.ValidateBasic`, the two `Signature` byte strings differ and
the two `Data` byte strings differ; the checks run in that order and the first
one that fails determines the error. -/
theorem C30_duplicate_signature_header_validate_basic
    (validator : String → Except Error Unit) (header : DuplicateSignatureHeader) :
    (header.ValidateBasic validator = .ok () ↔
      validator header.ClientId = .ok () ∧ header.Sequence ≠ 0 ∧
      header.SignatureOne.ValidateBasic = .ok () ∧
      header.SignatureTwo.ValidateBasic = .ok () ∧
      header.SignatureOne.Signature ≠ header.SignatureTwo.Signature ∧
      header.SignatureOne.Data ≠ header.SignatureTwo.Data) ∧
    (∀ err, validator header.ClientId = .error err →
      header.ValidateBasic validator =
        .error (Wrap err "invalid client identifier for solo machine")) ∧
    (validator header.ClientId = .ok () → header.Sequence = 0 →
      header.ValidateBasic validator =
        .error (Wrap ErrInvalidMisbehaviour "sequence cannot be 0")) ∧
    (validator header.ClientId = .ok () → header.Sequence ≠ 0 →
      ∀ err, header.SignatureOne.ValidateBasic = .error err →
      header.ValidateBasic validator =
        .error (Wrap err "signature one failed basic validation")) ∧
    (validator header.ClientId = .ok () → header.Sequence ≠ 0 →
      header.SignatureOne.ValidateBasic = .ok () →
      ∀ err, header.SignatureTwo.ValidateBasic = .error err →
      header.ValidateBasic validator =
        .error (Wrap err "signature two failed basic validation")) ∧
    (validator header.ClientId = .ok () → header.Sequence ≠ 0 →
      header.SignatureOne.ValidateBasic = .ok () →
      header.SignatureTwo.ValidateBasic = .ok () →
      header.SignatureOne.Signature = header.SignatureTwo.Signature →
      header.ValidateBasic validator =
        .error (Wrap ErrInvalidMisbehaviour "misbehaviour signatures cannot be equal")) ∧
    (validator header.ClientId = .ok () → header.Sequence ≠ 0 →
      header.SignatureOne.ValidateBasic = .ok () →
      header.SignatureTwo.ValidateBasic = .ok () →
      header.SignatureOne.Signature ≠ header.SignatureTwo.Signature →
      header.SignatureOne.Data = header.SignatureTwo.Data →
      header.ValidateBasic validator =
        .error (Wrap ErrInvalidMisbehaviour
          "misbehaviour signature data must be signed over different messages")) := by
  unfold DuplicateSignatureHeader.ValidateBasic
  cases hv : validator header.ClientId with
  | error e => simp
  | ok u =>
    by_cases hseq : header.Sequence = 0
    · simp [hseq]
    · cases h1 : header.SignatureOne.ValidateBasic with
      | error e1 => simp [hseq]
      | ok u1 =>
        cases h2 : header.SignatureTwo.ValidateBasic with
        | error e2 => simp [hseq]
        | ok u2 =>
          by_cases hs : header.SignatureOne.Signature = header.SignatureTwo.Signature
          · simp [hseq, hs]
          · by_cases hd : header.SignatureOne.Data = header.SignatureTwo.Data
            · simp [hseq, hs, hd]
            · simp [hseq, hs, hd]

/-- Witness for C30: a header whose sequence is 0, with an identifier that is
accepted. -/
theorem C30_duplicate_signature_header_validate_basic_witness :
    DuplicateSignatureHeader.ValidateBasic acceptAnyIdentifier
        { headerEqualSignatures with Sequence := 0 } =
      .error (Wrap ErrInvalidMisbehaviour "sequence cannot be 0") :=
  (C30_duplicate_signature_header_validate_basic acceptAnyIdentifier
    { headerEqualSignatures with Sequence := 0 }).2.2.1 rfl rfl

/-! ### Lemmas for the claims C31 to C38 -/

/-- The header passes `ValidateBasic` exactly when its six checks pass. -/
theorem DuplicateSignatureHeader.ValidateBasic_ok_iff
    (validator : String → Except Error Unit) (header : DuplicateSignatureHeader) :
    header.ValidateBasic validator = .ok () ↔
      validator header.ClientId = .ok () ∧ header.Sequence ≠ 0 ∧
      header.SignatureOne.ValidateBasic = .ok () ∧
      header.SignatureTwo.ValidateBasic = .ok () ∧
      header.SignatureOne.Signature ≠ header.SignatureTwo.Signature ∧
      header.SignatureOne.Data ≠ header.SignatureTwo.Data := by
  unfold DuplicateSignatureHeader.ValidateBasic
  cases hv : validator header.ClientId with
  | error e => simp
  | ok u =>
    by_cases hseq : header.Sequence = 0
    · simp [hseq]
    · cases h1 : header.SignatureOne.ValidateBasic with
      | error e1 => simp [hseq]
      | ok u1 =>
        cases h2 : header.SignatureTwo.ValidateBasic with
        | error e2 => simp [hseq]
        | ok u2 =>
          by_cases hs : header.SignatureOne.Signature = header.SignatureTwo.Signature
          · simp [hseq, hs]
          · by_cases hd : header.SignatureOne.Data = header.SignatureTwo.Data
            · simp [hseq, hs, hd]
            · simp [hseq, hs, hd]

namespace wasm

/-- A varint that is cut short ends the data before its last byte. -/
theorem decodeVarint_truncated : ∀ (rounds shift x v k : Nat) (pre : Bytes),
    k < (varintBytes rounds v).length →
    decodeVarint (pre ++ (varintBytes rounds v).take k) (rounds + 1) shift pre.length x =
      .err ErrUnexpectedEOF := by
  intro rounds
  induction rounds with
  | zero =>
    intro shift x v k pre hk
    simp only [varintBytes, List.length_singleton] at hk
    have hk0 : k = 0 := by omega
    subst hk0
    unfold decodeVarint
    simp
  | succ r ih =>
    intro shift x v k pre hk
    cases k with
    | zero =>
      unfold decodeVarint
      simp
    | succ k =>
      by_cases h128 : v ≥ 128
      · have hvb : varintBytes (r + 1) v = uint8 (v % 128 + 128) :: varintBytes r (v / 128) := by
          simp [varintBytes, h128]
        rw [hvb] at hk ⊢
        simp only [List.length_cons] at hk
        simp only [List.take_succ_cons]
        unfold decodeVarint
        have hlt : ¬ (pre.length ≥
            (pre ++ uint8 (v % 128 + 128) :: List.take k (varintBytes r (v / 128))).length) := by
          simp
        simp only [hlt, if_false, index_append, Res.bind_ok]
        have hval : (uint8 (v % 128 + 128)).val = v % 128 + 128 := uint8_val _ (by omega)
        rw [hval]
        have hge : ¬ (v % 128 + 128 < 0x80) := by omega
        simp only [hge, if_false]
        have hrec := ih (shift + 7) (x ||| (((v % 128 + 128) &&& 0x7F) <<< shift) % 2 ^ 64)
          (v / 128) k (pre ++ [uint8 (v % 128 + 128)]) (by omega)
        simp only [List.append_assoc, List.singleton_append, List.length_append,
          List.length_singleton] at hrec
        exact hrec
      · have hvb : varintBytes (r + 1) v = [uint8 v] := by
          simp [varintBytes, h128]
        rw [hvb] at hk
        simp only [List.length_singleton] at hk
        omega

/-- One round of the loop of `Unmarshal` over a field 1: its payload replaces
the data decoded so far. -/
theorem unmarshalDataLoop_field (typeName : String) (pre p post : Bytes)
    (hlen : (pre ++ (encField 0xa p ++ post)).length < intSign) (fuel : Nat) (data : Bytes) :
    unmarshalDataLoop typeName (pre ++ (encField 0xa p ++ post)) (fuel + 1) pre.length data =
    unmarshalDataLoop typeName (pre ++ (encField 0xa p ++ post)) fuel
      (pre.length + (encField 0xa p).length) p := by
  rw [unmarshalDataLoop]
  have hpos := encField_pos 0xa p
  have hi : pre.length < (pre ++ (encField 0xa p ++ post)).length := by
    simp only [List.length_append]; omega
  simp only [hi, if_true]
  obtain ⟨h1, h2⟩ := readField 0xa (by decide) pre p post hlen
  rw [h1]
  simp only [Res.bind_ok]
  have t1 : ¬ ((0xa : Fin 256).val &&& 0x7 = 4) := by decide
  have t2 : ¬ ((1 : Nat) = 0 ∨ (1 : Nat) ≥ 2 ^ 31) := by decide
  have t3 : fieldNumOf (0xa : Fin 256).val = 1 := by decide
  have t4 : ¬ ((0xa : Fin 256).val &&& 0x7 ≠ 2) := by decide
  simp only [t3]
  simp only [t1, t2, t4, if_true, if_false]
  rw [h2]
  simp only [Res.bind_ok]

/-- A field 1 behind a byte string that decodes: its payload is what is
decoded. -/
theorem unmarshalDataLoop_last (typeName : String) (b p : Bytes) (data r : Bytes)
    (hlen : b.length + (encField 0xa p).length < intSign)
    (h : unmarshalDataLoop typeName b b.length 0 data = .ok r) :
    unmarshalDataLoop typeName (b ++ encField 0xa p) (b ++ encField 0xa p).length 0 data =
      .ok p := by
  have hpos := encField_pos 0xa p
  have hcont : ∀ k, unmarshalDataLoop typeName ([] ++ (b ++ encField 0xa p)) (1 + k)
      (([] : Bytes).length + b.length) r = .ok p := by
    intro k
    have hstep := unmarshalDataLoop_field typeName b p []
      (by simp only [List.append_nil, List.length_append]; omega) k r
    simp only [List.append_nil] at hstep
    have e : 1 + k = k + 1 := by omega
    simp only [List.nil_append, List.length_nil, Nat.zero_add]
    rw [e, hstep]
    have hend := unmarshalDataLoop_end typeName (b ++ encField 0xa p) k p
    simp only [List.length_append] at hend
    exact hend
  have hemb := unmarshalDataLoop_embed typeName [] b (encField 0xa p)
    (by simp only [List.nil_append, List.length_append]; omega) b.length 0 data r h 1 p hcont
    ((encField 0xa p).length - 1)
  simp only [List.nil_append, List.length_nil, Nat.zero_add] at hemb
  have e : (b ++ encField 0xa p).length = b.length + 1 + ((encField 0xa p).length - 1) := by
    simp only [List.length_append]; omega
  rw [e]
  exact hemb

/-- A field 1 that is cut short, after the tag, inside the length or inside
the payload, is an unexpected end of the data. -/
theorem unmarshalDataLoop_truncated (typeName : String) (data : Bytes)
    (hsize : (encField 0xa data).length < intSign) (n : Nat) (h1 : 0 < n)
    (h2 : n < (encField 0xa data).length) (init : Bytes) :
    unmarshalDataLoop typeName ((encField 0xa data).take n)
      ((encField 0xa data).take n).length 0 init = .err ErrUnexpectedEOF := by
  obtain ⟨m, hm⟩ : ∃ m, n = m + 1 := ⟨n - 1, by omega⟩
  subst hm
  have hd : data.length < 2 ^ 64 := by
    simp only [encField, List.length_cons, List.length_append, intSign] at hsize
    omega
  have hsov := sovWasm_eq_length data.length hd
  have hE := encField_length 0xa data hd
  have htake : (encField 0xa data).take (m + 1) =
      0xa :: (varint data.length ++ data).take m := by
    simp [encField]
  have hl : ((encField 0xa data).take (m + 1)).length = m + 1 := by
    rw [List.length_take]; omega
  rw [hl, unmarshalDataLoop]
  have hi : 0 < ((encField 0xa data).take (m + 1)).length := by omega
  simp only [hi, if_true]
  have hdec : decodeVarint ((encField 0xa data).take (m + 1)) 10 0 0 0 = .ok (10, 1) := by
    rw [htake]
    have := decodeVarint_byte [] ((varint data.length ++ data).take m) 0xa (by decide)
    simpa using this
  rw [hdec]
  simp only [Res.bind_ok]
  have t1 : ¬ ((10 : Nat) &&& 0x7 = 4) := by decide
  have t2 : ¬ ((1 : Nat) = 0 ∨ (1 : Nat) ≥ 2 ^ 31) := by decide
  have t3 : fieldNumOf 10 = 1 := by decide
  have t4 : ¬ ((10 : Nat) &&& 0x7 ≠ 2) := by decide
  simp only [t3]
  simp only [t1, t2, t4, if_true, if_false]
  have hread : readLengthDelimited ((encField 0xa data).take (m + 1)) 1 =
      .err ErrUnexpectedEOF := by
    unfold readLengthDelimited
    by_cases hcut : m < (varint data.length).length
    · -- the cut falls inside the length
      have e : (encField 0xa data).take (m + 1) = [0xa] ++ (varint data.length).take m := by
        rw [htake, List.take_append_of_le_length (by omega)]
        rfl
      rw [e]
      have := decodeVarint_truncated 9 0 0 data.length m [0xa] hcut
      simp only [List.length_singleton] at this
      unfold varint
      rw [this]
      rfl
    · -- the cut falls behind the length
      have e : (encField 0xa data).take (m + 1) =
          [0xa] ++ (varint data.length ++ data.take (m - (varint data.length).length)) := by
        rw [htake, List.take_append_eq_append_take,
          List.take_of_length_le (by omega)]
        rfl
      have hl2 : ([0xa] ++ (varint data.length ++
          data.take (m - (varint data.length).length)) : Bytes).length = m + 1 := by
        rw [← e, hl]
      rw [e]
      have := decodeVarint_varint [0xa] (data.take (m - (varint data.length).length))
        data.length hd
      simp only [List.length_singleton] at this
      rw [this]
      simp only [Res.bind_ok]
      have c1 : ¬ (data.length ≥ intSign) := by unfold intSign; unfold intSign at hsize; omega
      have c2 : ¬ (1 + sovWasm data.length + data.length ≥ intSign) := by omega
      have c3 : 1 + sovWasm data.length + data.length >
          ([0xa] ++ (varint data.length ++
            data.take (m - (varint data.length).length)) : Bytes).length := by
        rw [hl2]; omega
      simp only [c1, c2, c3, if_true, if_false]
  rw [hread]
  rfl

/-- The encoding of a value has the shape of a varint. -/
theorem varintBytes_isVarint : ∀ (rounds v : Nat), v < 2 ^ (7 * (rounds + 1)) →
    isVarint (varintBytes rounds v) = true := by
  intro rounds
  induction rounds with
  | zero =>
    intro v hv
    have hv128 : v < 128 := by simpa using hv
    simp [varintBytes, isVarint, uint8_val v (by omega), hv128]
  | succ r ih =>
    intro v hv
    by_cases h128 : v ≥ 128
    · have hvb : varintBytes (r + 1) v = uint8 (v % 128 + 128) :: varintBytes r (v / 128) := by
        simp [varintBytes, h128]
      have hd : v / 128 < 2 ^ (7 * (r + 1)) := by
        rw [Nat.div_lt_iff_lt_mul (by decide)]
        have e1 : 7 * (r + 1 + 1) = 7 * (r + 1) + 7 := by ring
        rw [e1, Nat.pow_add] at hv
        simpa using hv
      have hrec := ih (v / 128) hd
      rw [hvb]
      have hval : (uint8 (v % 128 + 128)).val = v % 128 + 128 := uint8_val _ (by omega)
      match hrest : varintBytes r (v / 128) with
      | [] =>
        rw [hrest] at hrec
        simp [isVarint] at hrec
      | c :: rest =>
        rw [hrest] at hrec
        simp only [isVarint, hval, hrec, Bool.and_true, decide_eq_true_eq]
        omega
    · have hv128 : v < 128 := by omega
      simp [varintBytes, h128, isVarint, uint8_val v (by omega), hv128]

/-- The 7-bit groups of the encoding of a value sum back to the value. -/
theorem varintBytes_groupsValue : ∀ (rounds v : Nat), v < 2 ^ (7 * (rounds + 1)) →
    groupsValue (varintBytes rounds v) = v := by
  intro rounds
  induction rounds with
  | zero =>
    intro v hv
    have hv128 : v < 128 := by simpa using hv
    simp only [varintBytes, groupsValue, uint8_val v (by omega)]
    omega
  | succ r ih =>
    intro v hv
    by_cases h128 : v ≥ 128
    · have hvb : varintBytes (r + 1) v = uint8 (v % 128 + 128) :: varintBytes r (v / 128) := by
        simp [varintBytes, h128]
      have hd : v / 128 < 2 ^ (7 * (r + 1)) := by
        rw [Nat.div_lt_iff_lt_mul (by decide)]
        have e1 : 7 * (r + 1 + 1) = 7 * (r + 1) + 7 := by ring
        rw [e1, Nat.pow_add] at hv
        simpa using hv
      have hval : (uint8 (v % 128 + 128)).val = v % 128 + 128 := uint8_val _ (by omega)
      rw [hvb]
      simp only [groupsValue, hval, ih (v / 128) hd]
      omega
    · have hv128 : v < 128 := by omega
      have hvb : varintBytes (r + 1) v = [uint8 v] := by
        simp [varintBytes, h128]
      rw [hvb]
      simp only [groupsValue, uint8_val v (by omega)]
      omega

end wasm

/-! ### Claims C31 to C38 -/

/-- C31: acceptance of misbehaviour evidence does not depend on the order of the
two signatures: `ValidateBasic` accepts a header if and only if it accepts the
header with `SignatureOne` and `SignatureTwo` swapped. -/
theorem C31_validate_basic_signature_order
    (validator : String → Except Error Unit) (header : DuplicateSignatureHeader) :
    header.ValidateBasic validator = .ok () ↔
      DuplicateSignatureHeader.ValidateBasic validator
        { header with SignatureOne := header.SignatureTwo,
                      SignatureTwo := header.SignatureOne } = .ok () := by
  rw [DuplicateSignatureHeader.ValidateBasic_ok_iff,
    DuplicateSignatureHeader.ValidateBasic_ok_iff]
  constructor
  · rintro ⟨h1, h2, h3, h4, h5, h6⟩
    exact ⟨h1, h2, h4, h3, fun h => h5 h.symm, fun h => h6 h.symm⟩
  · rintro ⟨h1, h2, h3, h4, h5, h6⟩
    exact ⟨h1, h2, h4, h3, fun h => h5 h.symm, fun h => h6 h.symm⟩

/-- C32: `LightClientModule.RecoverClient` rejects a substitute client
identifier that does not parse with the error of the parser, and one whose
client type is not `06-solomachine` with `ErrInvalidClientType`, whatever the
client stores hold; it returns `ErrClientNotFound` when the subject or the
substitute has no stored client state. In all these cases the client stores
are unchanged. -/
theorem C32_recover_client_rejections {σ μ π : Type} (lcm : Collaborators σ μ π)
    (clientID substituteClientID : String) :
    (∀ err, lcm.ParseClientIdentifier substituteClientID = .error err →
      ∀ ctx : ClientStores σ,
        LightClientModule.RecoverClient lcm ctx clientID substituteClientID =
          (.error err, ctx)) ∧
    (∀ clientType n, lcm.ParseClientIdentifier substituteClientID = .ok (clientType, n) →
      clientType ≠ Solomachine →
      ∀ ctx : ClientStores σ,
        LightClientModule.RecoverClient lcm ctx clientID substituteClientID =
          (.error (Wrap ErrInvalidClientType
            ("expected: " ++ Solomachine ++ ", got: " ++ clientType)), ctx) ∧
        failsWith (LightClientModule.RecoverClient lcm ctx clientID substituteClientID).1
          ErrInvalidClientType = true) ∧
    (∀ n, lcm.ParseClientIdentifier substituteClientID = .ok (Solomachine, n) →
      ∀ ctx : ClientStores σ, lcm.getClientState (ctx clientID) = none →
        LightClientModule.RecoverClient lcm ctx clientID substituteClientID =
          (.error (Wrap ErrClientNotFound clientID), ctx)) ∧
    (∀ n, lcm.ParseClientIdentifier substituteClientID = .ok (Solomachine, n) →
      ∀ (ctx : ClientStores σ) (clientState : ClientState),
        lcm.getClientState (ctx clientID) = some clientState →
        lcm.getClientState (ctx substituteClientID) = none →
        LightClientModule.RecoverClient lcm ctx clientID substituteClientID =
          (.error (Wrap ErrClientNotFound substituteClientID), ctx)) ∧
    (Wrap ErrClientNotFound clientID).Is ErrClientNotFound = true ∧
    (Wrap ErrClientNotFound substituteClientID).Is ErrClientNotFound = true := by
  refine ⟨?_, ?_, ?_, ?_, Error.is_wrap_self _ _, Error.is_wrap_self _ _⟩
  · intro err hparse ctx
    unfold LightClientModule.RecoverClient
    simp only [hparse]
  · intro clientType n hparse hne ctx
    have hres : LightClientModule.RecoverClient lcm ctx clientID substituteClientID =
        (.error (Wrap ErrInvalidClientType
          ("expected: " ++ Solomachine ++ ", got: " ++ clientType)), ctx) := by
      unfold LightClientModule.RecoverClient
      simp only [hparse]
      simp [hne]
    refine ⟨hres, ?_⟩
    rw [hres]
    exact Error.is_wrap_self _ _
  · intro n hparse ctx habsent
    unfold LightClientModule.RecoverClient
    simp only [hparse]
    simp [habsent]
  · intro n hparse ctx clientState hsubject habsent
    unfold LightClientModule.RecoverClient
    simp only [hparse]
    simp [hsubject, habsent]

/-- Witness for C32: a substitute that is a tendermint client, and a subject
under which no client is stored. -/
theorem C32_recover_client_rejections_witness :
    failsWith (LightClientModule.RecoverClient sampleCollaborators (sampleStores 6)
      "06-solomachine-0" "07-tendermint-0").1 ErrInvalidClientType = true ∧
    LightClientModule.RecoverClient sampleCollaborators (sampleStores 6)
      "06-solomachine-9" "06-solomachine-1" =
        (.error (Wrap ErrClientNotFound "06-solomachine-9"), sampleStores 6) :=
  ⟨((C32_recover_client_rejections sampleCollaborators "06-solomachine-0"
      "07-tendermint-0").2.1 "07-tendermint" 0 rfl (by decide) (sampleStores 6)).2,
    (C32_recover_client_rejections sampleCollaborators "06-solomachine-9"
      "06-solomachine-1").2.2.1 1 rfl (sampleStores 6) rfl⟩

/-- C33: when no client state is stored under `clientID`, each of
`CheckForMisbehaviour`, `UpdateState` and `UpdateStateOnMisbehaviour` panics
with the error `ErrClientNotFound` wrapped with the client identifier, for
every client message, and the client stores are unchanged. -/
theorem C33_absent_client_panics {σ μ π : Type} (lcm : Collaborators σ μ π)
    (ctx : ClientStores σ) (clientID : String) (clientMsg : μ)
    (habsent : lcm.getClientState (ctx clientID) = none) :
    LightClientModule.CheckForMisbehaviour lcm ctx clientID clientMsg =
      (.panic (Wrap ErrClientNotFound clientID), ctx) ∧
    LightClientModule.UpdateState lcm ctx clientID clientMsg =
      (.panic (Wrap ErrClientNotFound clientID), ctx) ∧
    LightClientModule.UpdateStateOnMisbehaviour lcm ctx clientID clientMsg =
      (.panic (Wrap ErrClientNotFound clientID), ctx) ∧
    (Wrap ErrClientNotFound clientID).Is ErrClientNotFound = true := by
  refine ⟨?_, ?_, ?_, Error.is_wrap_self _ _⟩
  · unfold LightClientModule.CheckForMisbehaviour
    simp [habsent]
  · unfold LightClientModule.UpdateState
    simp [habsent]
  · unfold LightClientModule.UpdateStateOnMisbehaviour
    simp [habsent]

/-- Witness for C33: no client is stored under `06-solomachine-9`. -/
theorem C33_absent_client_panics_witness :
    LightClientModule.UpdateState sampleCollaborators (sampleStores 6) "06-solomachine-9" () =
      (.panic (Wrap ErrClientNotFound "06-solomachine-9"), sampleStores 6) :=
  (C33_absent_client_panics sampleCollaborators (sampleStores 6) "06-solomachine-9" ()
    rfl).2.1

/-- C35: `Keeper.Transfer` sends nothing for an unusable sender. If the sender
is not a valid bech32 address the result is a nil response and the error of
the decoder; if the decoded sender is a blocked address it is a nil response
and `ErrUnauthorized`. In both cases the context is unchanged, so no event is
emitted, and the outcome is the same whatever `SendTransfer` is: it is not
invoked. When `SendTransfer` fails, its error is returned with a nil response
and the context is left as `SendTransfer` left it, with no event added; the two
events are added only when `SendTransfer` has succeeded. -/
theorem C35_transfer_unusable_sender {σ α : Type} (k : transfer.Keeper σ α)
    (ctx : transfer.Context σ) (msg : transfer.MsgTransfer) :
    (∀ err, k.AccAddressFromBech32 msg.Sender = .error err →
      k.Transfer ctx msg = ((none, .error err), ctx) ∧
      ∀ send, ({ k with SendTransfer := send } : transfer.Keeper σ α).Transfer ctx msg =
        k.Transfer ctx msg) ∧
    (∀ sender, k.AccAddressFromBech32 msg.Sender = .ok sender → k.BlockedAddr sender = true →
      k.Transfer ctx msg = ((none, .error (Wrap ErrUnauthorized
        (k.AddressString sender ++ " is not allowed to send funds"))), ctx) ∧
      failsWith (k.Transfer ctx msg).1.2 ErrUnauthorized = true ∧
      ∀ send, ({ k with SendTransfer := send } : transfer.Keeper σ α).Transfer ctx msg =
        k.Transfer ctx msg) ∧
    (∀ sender, k.AccAddressFromBech32 msg.Sender = .ok sender → k.BlockedAddr sender = false →
      ∀ err ctx1, k.SendTransfer ctx msg.SourcePort msg.SourceChannel msg.Token sender
          msg.Receiver msg.TimeoutHeight msg.TimeoutTimestamp = (.error err, ctx1) →
        k.Transfer ctx msg = ((none, .error err), ctx1)) ∧
    (∀ sender, k.AccAddressFromBech32 msg.Sender = .ok sender → k.BlockedAddr sender = false →
      ∀ ctx1, k.SendTransfer ctx msg.SourcePort msg.SourceChannel msg.Token sender
          msg.Receiver msg.TimeoutHeight msg.TimeoutTimestamp = (.ok (), ctx1) →
        k.Transfer ctx msg = ((some {}, .ok ()),
          { ctx1 with events := ctx1.events ++ k.transferEvents msg })) := by
  refine ⟨?_, ?_, ?_, ?_⟩
  · intro err herr
    refine ⟨?_, ?_⟩
    · unfold transfer.Keeper.Transfer
      simp only [herr]
    · intro send
      unfold transfer.Keeper.Transfer
      simp only [herr]
  · intro sender hsender hblocked
    have hres : k.Transfer ctx msg = ((none, .error (Wrap ErrUnauthorized
        (k.AddressString sender ++ " is not allowed to send funds"))), ctx) := by
      unfold transfer.Keeper.Transfer
      simp only [hsender, hblocked, if_true]
    refine ⟨hres, ?_, ?_⟩
    · rw [hres]
      exact Error.is_wrap_self _ _
    · intro send
      unfold transfer.Keeper.Transfer
      simp only [hsender, hblocked, if_true]
  · intro sender hsender hblocked err ctx1 hsend
    unfold transfer.Keeper.Transfer
    simp only [hsender, hblocked, hsend]
    simp
  · intro sender hsender hblocked ctx1 hsend
    unfold transfer.Keeper.Transfer
    simp only [hsender, hblocked, hsend]
    simp

/-- Witness for C35: a blocked sender, and a sender that does not decode. -/
theorem C35_transfer_unusable_sender_witness :
    failsWith (sampleTransferKeeper.Transfer sampleContext (sampleMsgTransfer "blocked")).1.2
      ErrUnauthorized = true ∧
    sampleTransferKeeper.Transfer sampleContext (sampleMsgTransfer "") =
      ((none, .error (.sentinel "empty address string is not allowed")), sampleContext) :=
  ⟨((C35_transfer_unusable_sender sampleTransferKeeper sampleContext
      (sampleMsgTransfer "blocked")).2.1 "blocked" rfl rfl).2.1,
    ((C35_transfer_unusable_sender sampleTransferKeeper sampleContext
      (sampleMsgTransfer "")).1 (.sentinel "empty address string is not allowed") rfl).1⟩

/-- C36: truncated input is rejected. For every `ConsensusState` or
`ClientMessage` with data that is not empty and a size that fits an `int`, and
every proper prefix, not empty, of what `Marshal` returns, `Unmarshal` of the
prefix into any message fails with `io.ErrUnexpectedEOF`. -/
theorem C36_truncated_input_rejected (cs : wasm.ConsensusState) (cm : wasm.ClientMessage)
    (hcs : cs.Data ≠ []) (hcm : cm.Data ≠ [])
    (hcsfits : cs.Size < wasm.intSign) (hcmfits : cm.Size < wasm.intSign) :
    (∀ bz p m0, cs.Marshal = .ok bz → p <+: bz → p ≠ [] → p ≠ bz →
      wasm.ConsensusState.Unmarshal m0 p = .err wasm.ErrUnexpectedEOF) ∧
    (∀ bz p m0, cm.Marshal = .ok bz → p <+: bz → p ≠ [] → p ≠ bz →
      wasm.ClientMessage.Unmarshal m0 p = .err wasm.ErrUnexpectedEOF) := by
  have key : ∀ (data : Bytes), data ≠ [] → wasm.sizeBytesField data < wasm.intSign →
      ∀ bz p, wasm.marshalWith (wasm.sizeBytesField data) (wasm.marshalDataToSizedBuffer data)
        = .ok bz → p <+: bz → p ≠ [] → p ≠ bz →
      ∃ n, 0 < n ∧ n < (wasm.encField 0xa data).length ∧
        (wasm.encField 0xa data).length < wasm.intSign ∧
        p = (wasm.encField 0xa data).take n := by
    intro data hdata hfits bz p hbz hpre hne hneq
    have hlenpos : data.length > 0 := List.length_pos.mpr hdata
    have henc : wasm.encBytesField 0xa data = wasm.encField 0xa data := by
      unfold wasm.encBytesField; simp [hlenpos]
    rw [wasm.marshalData_eq data hfits] at hbz
    injection hbz with hbz
    rw [henc] at hbz
    subst hbz
    have hl := wasm.encBytesField_length 0xa data (wasm.sizeBytesField_lt _ hfits)
    rw [henc] at hl
    refine ⟨p.length, List.length_pos.mpr hne, ?_, by rw [hl]; exact hfits,
      List.prefix_iff_eq_take.mp hpre⟩
    have hle := hpre.length_le
    rcases Nat.lt_or_ge p.length (wasm.encField 0xa data).length with hlt | hge
    · exact hlt
    · exact absurd (hpre.eq_of_length (by omega)) hneq
  constructor
  · intro bz p m0 hbz hpre hne hneq
    obtain ⟨n, h1, h2, h3, hp⟩ := key cs.Data hcs hcsfits bz p hbz hpre hne hneq
    unfold wasm.ConsensusState.Unmarshal
    rw [hp, wasm.unmarshalDataLoop_truncated "ConsensusState" cs.Data h3 n h1 h2 m0.Data]
    rfl
  · intro bz p m0 hbz hpre hne hneq
    obtain ⟨n, h1, h2, h3, hp⟩ := key cm.Data hcm hcmfits bz p hbz hpre hne hneq
    unfold wasm.ClientMessage.Unmarshal
    rw [hp, wasm.unmarshalDataLoop_truncated "ClientMessage" cm.Data h3 n h1 h2 m0.Data]
    rfl

/-- Witness for C36: the sample consensus state cut after its tag and its
length. -/
theorem C36_truncated_input_rejected_witness :
    wasm.ConsensusState.Unmarshal ⟨[]⟩ [0xa, 3] = .err wasm.ErrUnexpectedEOF :=
  (C36_truncated_input_rejected sampleWasmConsensusState sampleWasmClientMessage
    (by decide) (by decide) (by decide) (by decide)).1 sampleWire [0xa, 3] ⟨[]⟩ rfl
    ⟨[1, 2, 3], rfl⟩ (by decide) (by decide)

/-- C37: last occurrence wins. When a field 1 follows a byte string that
`ConsensusState.Unmarshal` or `ClientMessage.Unmarshal` decodes, with other
occurrences of field 1 or without, the decoded data is the payload of that last
field alone; in particular two fields 1 in a row decode to the payload of the
second. On empty input `Unmarshal` succeeds and leaves the receiving message as
it was. -/
theorem C37_last_occurrence_wins (b p : Bytes)
    (hfits : b.length + (wasm.encField 0xa p).length < wasm.intSign) :
    (∀ m0 m, wasm.ConsensusState.Unmarshal m0 b = .ok m →
      wasm.ConsensusState.Unmarshal m0 (b ++ wasm.encField 0xa p) = .ok ⟨p⟩) ∧
    (∀ m0 m, wasm.ClientMessage.Unmarshal m0 b = .ok m →
      wasm.ClientMessage.Unmarshal m0 (b ++ wasm.encField 0xa p) = .ok ⟨p⟩) ∧
    (∀ first, b = wasm.encField 0xa first →
      (∀ m0, wasm.ConsensusState.Unmarshal m0
        (wasm.encField 0xa first ++ wasm.encField 0xa p) = .ok ⟨p⟩) ∧
      (∀ m0, wasm.ClientMessage.Unmarshal m0
        (wasm.encField 0xa first ++ wasm.encField 0xa p) = .ok ⟨p⟩)) ∧
    (∀ m0, wasm.ConsensusState.Unmarshal m0 [] = .ok m0) ∧
    (∀ m0, wasm.ClientMessage.Unmarshal m0 [] = .ok m0) := by
  refine ⟨?_, ?_, ?_, ?_, ?_⟩
  · intro m0 m h
    unfold wasm.ConsensusState.Unmarshal at h ⊢
    obtain ⟨data, hdata, _⟩ := wasm.Res.bind_eq_ok h
    rw [wasm.unmarshalDataLoop_last "ConsensusState" b p m0.Data data hfits hdata]
    rfl
  · intro m0 m h
    unfold wasm.ClientMessage.Unmarshal at h ⊢
    obtain ⟨data, hdata, _⟩ := wasm.Res.bind_eq_ok h
    rw [wasm.unmarshalDataLoop_last "ClientMessage" b p m0.Data data hfits hdata]
    rfl
  · intro first hb
    subst hb
    have hone : ∀ typeName init, wasm.unmarshalDataLoop typeName (wasm.encField 0xa first)
        (wasm.encField 0xa first).length 0 init = .ok first := by
      intro typeName init
      have hpos := wasm.encField_pos 0xa first
      obtain ⟨F, hF⟩ : ∃ F, (wasm.encField 0xa first).length = F + 1 :=
        ⟨(wasm.encField 0xa first).length - 1, by omega⟩
      have hstep := wasm.unmarshalDataLoop_field typeName [] first []
        (by simp only [List.nil_append, List.append_nil]; omega) F init
      simp only [List.nil_append, List.append_nil, List.length_nil, Nat.zero_add] at hstep
      rw [hF, hstep]
      exact wasm.unmarshalDataLoop_end typeName _ F first
    constructor
    · intro m0
      unfold wasm.ConsensusState.Unmarshal
      rw [wasm.unmarshalDataLoop_last "ConsensusState" _ p m0.Data first hfits
        (hone "ConsensusState" m0.Data)]
      rfl
    · intro m0
      unfold wasm.ClientMessage.Unmarshal
      rw [wasm.unmarshalDataLoop_last "ClientMessage" _ p m0.Data first hfits
        (hone "ClientMessage" m0.Data)]
      rfl
  · intro m0
    rfl
  · intro m0
    rfl

/-- Witness for C37: two fields 1 in a row. -/
theorem C37_last_occurrence_wins_witness :
    wasm.ConsensusState.Unmarshal ⟨[7]⟩ (sampleWire ++ wasm.encField 0xa [8, 9]) =
      .ok ⟨[8, 9]⟩ :=
  (C37_last_occurrence_wins sampleWire [8, 9] (by decide)).1 ⟨[7]⟩ ⟨[1, 2, 3]⟩ rfl

/-- C38: for every 64-bit value `v` and every buffer and offset with
`sovWasm v ≤ offset ≤ len(buffer)`, `encodeVarintWasm` returns
`offset - sovWasm v` and a buffer that differs from the given one only at the
positions from `offset - sovWasm v` up to `offset`: the bytes before and the
bytes from `offset` on are kept, and the `sovWasm v` bytes between are a
varint (every byte but the last has its high bit set, the last has it clear)
whose 7-bit groups sum back to `v`. -/
theorem C38_encode_varint_frame (dAtA : Bytes) (offset v : Nat) (hv : v < 2 ^ 64)
    (hlow : wasm.sovWasm v ≤ offset) (hhigh : offset ≤ dAtA.length) :
    ∃ w, wasm.encodeVarintWasm dAtA offset v =
        .ok (dAtA.take (offset - wasm.sovWasm v) ++ w ++ dAtA.drop offset,
          offset - wasm.sovWasm v) ∧
      w.length = wasm.sovWasm v ∧ wasm.isVarint w = true ∧ wasm.groupsValue w = v := by
  have hl := wasm.sovWasm_eq_length v hv
  have h70 : v < 2 ^ (7 * (9 + 1)) :=
    Nat.lt_of_lt_of_le hv (Nat.pow_le_pow_right (by decide) (by decide))
  refine ⟨wasm.varint v, ?_, hl.symm, wasm.varintBytes_isVarint 9 v h70,
    wasm.varintBytes_groupsValue 9 v h70⟩
  rw [wasm.encodeVarintWasm_eq dAtA offset v hv hlow hhigh]
  unfold wasm.splice
  have e : offset - wasm.sovWasm v + (wasm.varint v).length = offset := by omega
  rw [e]

/-- Witness for C38: the value 300 written before offset 3 of a buffer of four
bytes. -/
theorem C38_encode_varint_frame_witness :
    ∃ w, wasm.encodeVarintWasm [1, 2, 3, 4] 3 300 =
        .ok (([1, 2, 3, 4] : Bytes).take (3 - wasm.sovWasm 300) ++ w ++
          ([1, 2, 3, 4] : Bytes).drop 3, 3 - wasm.sovWasm 300) ∧
      w.length = wasm.sovWasm 300 ∧ wasm.isVarint w = true ∧ wasm.groupsValue w = 300 :=
  C38_encode_varint_frame [1, 2, 3, 4] 3 300 (by decide) (by decide) (by decide)

end IBC
